import Mathlib

/-!
Verification of the TV-scheduling search engine (validator, scoring model,
skip table, greedy / lookahead / beam-search strategy family) against its
natural-language specification.

Shallow embedding conventions:
* All times and scores are integers (`Int`).  Every floating-point value the
  source manipulates on these code paths is integer-valued (accumulated sums
  of integer fitnesses, `0.0` seeds, `float('-inf')` sentinels), so `Int`
  (with `WithBot Int` for the `-inf` sentinel) models them exactly, and the
  `int(...)` casts in the source are identities.  The one non-integral
  constant, the iterative scheduler's `stagnation_delta = 0.5`, is modelled
  exactly as the rational `1/2`.
* The repository contains several historical iterations of the `Schedule` /
  `Solution` value classes with diverging field names (`start`/`end` at every
  construction and use site inside the schedulers, `start_time`/`end_time` in
  `models/schedule.py` and in the validator).  Following the specification's
  design note, the embedding uses a single reconciled record; the field is
  called `start`/`stop` here (`end` is a Lean keyword) and stands for the
  source's `start`/`start_time` and `end`/`end_time` respectively.
* `program_id` and `unique_program_id` are modelled as strings (they are only
  ever compared for equality; the iterative scheduler also stores the string
  `"_pad"` in `program_id` of its padding entries).
* Python `for` loops over lists become folds; `while` loops become
  fuel-indexed recursion with enough fuel for the actual trip count, and the
  loop-invariant theorems are proved for every fuel value.
-/

/-- `models/program.py` plus the parser-assigned `unique_id` attribute that
`utils/utils.py` and the validator read on every program. -/
structure Program where
  program_id : String
  start : Int
  stop : Int
  genre : String
  score : Int
  unique_id : String
  deriving Repr, DecidableEq

/-- `models/channel.py`. -/
structure Channel where
  channel_id : Int
  programs : List Program
  deriving Repr, DecidableEq

/-- Priority block record (`start`, `end`, `allowed_channels`) as consumed by
`validator.py` and described by the external-input schema. -/
structure PriorityBlock where
  start : Int
  stop : Int
  allowed_channels : List Int
  deriving Repr, DecidableEq

/-- Time preference record (`start`, `end`, `preferred_genre`, `bonus`) as
consumed by `utils/algorithm_utils.py`. -/
structure TimePreference where
  start : Int
  stop : Int
  preferred_genre : String
  bonus : Int
  deriving Repr, DecidableEq

/-- `models/instance_data.py`. -/
structure InstanceData where
  opening_time : Int
  closing_time : Int
  min_duration : Int
  max_consecutive_genre : Int
  channels_count : Int
  switch_penalty : Int
  termination_penalty : Int
  priority_blocks : List PriorityBlock
  time_preferences : List TimePreference
  channels : List Channel
  deriving Repr, DecidableEq

/-- One placed decision, `models/schedule.py` (reconciled field naming, see
the header comment): `stop` is the source's `end_time`/`end` field. -/
structure Schedule where
  channel_id : Int
  program_id : String
  start : Int
  stop : Int
  fitness : Int
  unique_program_id : String
  deriving Repr, DecidableEq

/-- `models/solution.py` (the schedulers construct and read the entry list
through the keyword `scheduled_programs`). -/
structure Solution where
  scheduled_programs : List Schedule
  total_score : Int
  deriving Repr, DecidableEq

/-- Out-of-range list indexing never happens on the executed paths (Python
would raise `IndexError`); `getD` with this inert channel keeps the embedding
total. -/
def emptyChannel : Channel := { channel_id := -1, programs := [] }

namespace Utils

/-- `Utils.get_channel_program_by_time`: first program of the channel whose
half-open interval `[start, end)` contains `time`. -/
def get_channel_program_by_time (channel : Channel) (time : Int) : Option Program :=
  channel.programs.find? (fun p => decide (p.start ≤ time ∧ time < p.stop))

/-- `Utils.get_program_by_unique_id`: scan channels in order, programs in
order, first program whose `unique_id` matches. -/
def get_program_by_unique_id (instance_data : InstanceData) (uid : String) : Option Program :=
  (instance_data.channels.flatMap (fun ch => ch.programs)).find? (fun p => p.unique_id == uid)

end Utils

namespace Validator

/-- `Validator.validate_schedule_time` as a boolean (the source signals
failure with a `ConstraintException` that `is_channel_valid` catches). -/
def validate_schedule_time (instance_data : InstanceData) (schedule_time : Int) : Bool :=
  !(decide (schedule_time < instance_data.opening_time ∨
      schedule_time > instance_data.closing_time ∨
      schedule_time + instance_data.min_duration > instance_data.closing_time))

/-- `Validator.validate_min_duration` as a boolean. -/
def validate_min_duration (schedule_plan : List Schedule) (instance_data : InstanceData)
    (schedule_time : Int) : Bool :=
  match schedule_plan.getLast? with
  | none => true
  | some last_schedule =>
      !(decide (schedule_time < last_schedule.start + instance_data.min_duration))

/-- The backward walk of `validate_max_consecutive_genre`: starting from the
end of the plan, count entries whose program (looked up by unique id) has
genre `g`, stopping at the first mismatch.  The source reads
`scheduled_program.genre` without a `None` check, so an unresolvable
`unique_program_id` would raise `AttributeError` there; the embedding stops
the walk instead, and every theorem that depends on this walk either supplies
resolvable plans or concerns plans whose ids resolve by construction. -/
def genreRunCountAux (instance_data : InstanceData) (g : String) : List Schedule → Nat
  | [] => 0
  | sch :: rest =>
      match Utils.get_program_by_unique_id instance_data sch.unique_program_id with
      | some scheduled_program =>
          if scheduled_program.genre = g then genreRunCountAux instance_data g rest + 1 else 0
      | none => 0

/-- Run count of the backward genre walk over a (forward-ordered) plan. -/
def genreRunCount (instance_data : InstanceData) (schedule_plan : List Schedule)
    (g : String) : Nat :=
  genreRunCountAux instance_data g schedule_plan.reverse

/-- `Validator.validate_max_consecutive_genre` as a boolean. -/
def validate_max_consecutive_genre (schedule_plan : List Schedule)
    (instance_data : InstanceData) (channel_index : Nat) (schedule_time : Int) : Bool :=
  match schedule_plan with
  | [] => true
  | _ :: _ =>
      let channel_to_insert := instance_data.channels.getD channel_index emptyChannel
      match Utils.get_channel_program_by_time channel_to_insert schedule_time with
      | none => true
      | some program =>
          let count := genreRunCount instance_data schedule_plan program.genre
          !(decide ((count : Int) + 1 ≥ instance_data.max_consecutive_genre))

/-- `Validator.validate_priority_time_block` as a boolean. -/
def validate_priority_time_block (instance_data : InstanceData) (channel_index : Nat)
    (schedule_time : Int) : Bool :=
  let channel_to_insert_id := (instance_data.channels.getD channel_index emptyChannel).channel_id
  instance_data.priority_blocks.all (fun block =>
    !(decide (((block.start ≤ schedule_time ∧ schedule_time < block.stop) ∨
        (schedule_time < block.start ∧ block.start < schedule_time + instance_data.min_duration)) ∧
        channel_to_insert_id ∉ block.allowed_channels)))

/-- `Validator.is_channel_valid`: the four checks in source order,
short-circuiting on the first failure. -/
def is_channel_valid (schedule_plan : List Schedule) (instance_data : InstanceData)
    (channel_index : Nat) (schedule_time : Int) : Bool :=
  validate_schedule_time instance_data schedule_time &&
  validate_min_duration schedule_plan instance_data schedule_time &&
  validate_max_consecutive_genre schedule_plan instance_data channel_index schedule_time &&
  validate_priority_time_block instance_data channel_index schedule_time

end Validator

namespace SchedulerUtils

/-- `SchedulerUtils.get_valid_schedules`: indices of the channels the
validator accepts at `schedule_time`. -/
def get_valid_schedules (schedule_plan : List Schedule) (instance_data : InstanceData)
    (schedule_time : Int) : List Nat :=
  (List.range instance_data.channels.length).filter
    (fun channel_index => Validator.is_channel_valid schedule_plan instance_data channel_index schedule_time)

end SchedulerUtils

namespace AlgorithmUtils

/-- `AlgorithmUtils.get_time_preference_bonus`: add `bonus` for every time
preference whose genre matches and whose window `[start, end)` overlaps the
program's interval `[start, end)`. -/
def get_time_preference_bonus (instance_data : InstanceData) (program : Program)
    (_schedule_time : Int) : Int :=
  instance_data.time_preferences.foldl
    (fun score preference =>
      if program.genre = preference.preferred_genre ∧
          program.start < preference.stop ∧ program.stop > preference.start then
        score + preference.bonus
      else score) 0

/-- `AlgorithmUtils.get_switch_penalty`: `-switch_penalty` when the last
scheduled entry sits on a different channel, else `0`. -/
def get_switch_penalty (scheduled_programs : List Schedule) (instance_data : InstanceData)
    (channel : Channel) : Int :=
  match scheduled_programs.getLast? with
  | none => 0
  | some last_schedule =>
      if last_schedule.channel_id ≠ channel.channel_id then -instance_data.switch_penalty else 0

/-- `AlgorithmUtils.get_delay_penalty`: the body is `penalty = 0; return
penalty` — the delay term is permanently zero. -/
def get_delay_penalty (_scheduled_programs : List Schedule) (_instance_data : InstanceData)
    (_program : Program) (_schedule_time : Int) : Int :=
  0

/-- `AlgorithmUtils.get_early_termination_penalty`: `-termination_penalty`
when the last entry holds a different program and the candidate's `start`
precedes the last entry's recorded `end`. -/
def get_early_termination_penalty (scheduled_programs : List Schedule)
    (instance_data : InstanceData) (program : Program) (_schedule_time : Int) : Int :=
  match scheduled_programs.getLast? with
  | none => 0
  | some last_schedule =>
      if last_schedule.unique_program_id ≠ program.unique_id ∧ program.start < last_schedule.stop then
        -instance_data.termination_penalty
      else 0

/-- The per-candidate score accumulated inside `get_best_fit` for one
channel's current program. -/
def candidateScore (scheduled_programs : List Schedule) (instance_data : InstanceData)
    (schedule_time : Int) (channel : Channel) (program : Program) : Int :=
  program.score +
    get_time_preference_bonus instance_data program schedule_time +
    get_switch_penalty scheduled_programs instance_data channel +
    get_delay_penalty scheduled_programs instance_data program schedule_time +
    get_early_termination_penalty scheduled_programs instance_data program schedule_time

/-- `AlgorithmUtils.get_best_fit`: fold over the valid channel indices,
keeping the first candidate whose score strictly beats the running maximum
(which starts at `0`). -/
def get_best_fit (scheduled_programs : List Schedule) (instance_data : InstanceData)
    (schedule_time : Int) (valid_channel_indexes : List Nat) :
    Option Channel × Option Program × Int :=
  valid_channel_indexes.foldl
    (fun acc channel_index =>
      let channel := instance_data.channels.getD channel_index emptyChannel
      match Utils.get_channel_program_by_time channel schedule_time with
      | none => acc
      | some program =>
          let score := candidateScore scheduled_programs instance_data schedule_time channel program
          if score > acc.2.2 then (some channel, some program, score) else acc)
    (none, none, 0)

end AlgorithmUtils

namespace GreedyScheduler

/-- State of the greedy loop: current time, accumulated score, committed
entries (in order). -/
structure GState where
  time : Int
  total_score : Int
  solution : List Schedule
  deriving Repr, DecidableEq

/-- One iteration of `GreedyScheduler.generate_solution`'s `while` body
(assuming `time < closing_time`). -/
def greedyBody (instance_data : InstanceData) (st : GState) : GState :=
  let valid_channel_indexes :=
    SchedulerUtils.get_valid_schedules st.solution instance_data st.time
  if valid_channel_indexes = [] then { st with time := st.time + 1 }
  else
    match AlgorithmUtils.get_best_fit st.solution instance_data st.time valid_channel_indexes with
    | (some best_channel, some channel_program, fitness) =>
        if fitness ≤ 0 then { st with time := st.time + 1 }
        else if (match st.solution.getLast? with
            | some l => l.unique_program_id == channel_program.unique_id
            | none => false) then
          { st with time := st.time + 1 }
        else if (match st.solution.getLast? with
            | some l => decide (channel_program.start < l.stop)
            | none => false) then
          { st with time := st.time + 1 }
        else if channel_program.stop - channel_program.start < instance_data.min_duration then
          { st with time := st.time + 1 }
        else
          { time := channel_program.stop,
            total_score := st.total_score + fitness,
            solution := st.solution ++
              [{ channel_id := best_channel.channel_id,
                 program_id := channel_program.program_id,
                 start := channel_program.start,
                 stop := channel_program.stop,
                 fitness := fitness,
                 unique_program_id := channel_program.unique_id }] }
    | _ => { st with time := st.time + 1 }

/-- Fuel-indexed greedy loop (`while time < closing_time`).  Each executed
iteration strictly increases `time`, so `(closing - opening).toNat` fuel is
enough for the loop to run to completion from the opening time. -/
def greedyLoop (instance_data : InstanceData) : Nat → GState → GState
  | 0, st => st
  | fuel + 1, st =>
      if st.time < instance_data.closing_time then
        greedyLoop instance_data fuel (greedyBody instance_data st)
      else st

/-- `GreedyScheduler.generate_solution`. -/
def generate_solution (instance_data : InstanceData) : Solution :=
  let st := greedyLoop instance_data
    (instance_data.closing_time - instance_data.opening_time).toNat
    { time := instance_data.opening_time, total_score := 0, solution := [] }
  { scheduled_programs := st.solution, total_score := st.total_score }

end GreedyScheduler

/-! ### Stable sorting, modelling Python's `sorted` / `list.sort` / `heapq.nlargest`

`insertBy le x l` inserts `x` in front of the first element `y` with
`le x y`; `sortBy le` sorts the tail first and then inserts the head, which
is a stable sort: among elements tied under `le`, earlier input elements come
first — exactly CPython's stable sort (and `heapq.nlargest`, documented as
`sorted(iterable, key=key, reverse=True)[:n]`). -/

def insertBy {α : Type} (le : α → α → Bool) (x : α) : List α → List α
  | [] => [x]
  | y :: ys => if le x y then x :: y :: ys else y :: insertBy le x ys

def sortBy {α : Type} (le : α → α → Bool) : List α → List α
  | [] => []
  | x :: xs => insertBy le x (sortBy le xs)

theorem insertBy_perm {α : Type} (le : α → α → Bool) (x : α) (l : List α) :
    List.Perm (insertBy le x l) (x :: l) := by
  induction l with
  | nil => simp [insertBy]
  | cons y ys ih =>
      by_cases h : le x y = true
      · simp [insertBy, h]
      · simp only [insertBy, h]
        simp only [Bool.false_eq_true, if_false]
        exact (List.Perm.cons y ih).trans (List.Perm.swap x y ys)

theorem sortBy_perm {α : Type} (le : α → α → Bool) (l : List α) :
    List.Perm (sortBy le l) l := by
  induction l with
  | nil => simp [sortBy]
  | cons x xs ih =>
      exact (insertBy_perm le x (sortBy le xs)).trans (List.Perm.cons x ih)

theorem mem_sortBy {α : Type} {le : α → α → Bool} {x : α} {l : List α} :
    x ∈ sortBy le l ↔ x ∈ l :=
  (sortBy_perm le l).mem_iff

theorem insertBy_pairwise {α : Type} {le : α → α → Bool}
    (htot : ∀ a b, le a b = false → le b a = true)
    (htrans : ∀ a b c, le a b = true → le b c = true → le a c = true)
    {x : α} {l : List α}
    (hl : List.Pairwise (fun a b => le a b = true) l) :
    List.Pairwise (fun a b => le a b = true) (insertBy le x l) := by
  induction l with
  | nil => simp [insertBy]
  | cons y ys ih =>
      rcases List.pairwise_cons.mp hl with ⟨hy, hys⟩
      by_cases h : le x y = true
      · simp only [insertBy, h, if_true]
        refine List.pairwise_cons.mpr ⟨?_, hl⟩
        intro b hb
        rcases List.mem_cons.mp hb with rfl | hb
        · exact h
        · exact htrans _ _ _ h (hy b hb)
      · simp only [insertBy, h]
        simp only [Bool.false_eq_true, if_false]
        refine List.pairwise_cons.mpr ⟨?_, ih hys⟩
        intro b hb
        rcases List.mem_cons.mp ((insertBy_perm le x ys).mem_iff.mp hb) with rfl | hb'
        · exact htot _ _ (Bool.eq_false_iff.mpr h)
        · exact hy b hb'

theorem sortBy_pairwise {α : Type} {le : α → α → Bool}
    (htot : ∀ a b, le a b = false → le b a = true)
    (htrans : ∀ a b c, le a b = true → le b c = true → le a c = true)
    (l : List α) :
    List.Pairwise (fun a b => le a b = true) (sortBy le l) := by
  induction l with
  | nil => simp [sortBy]
  | cons x xs ih => exact insertBy_pairwise htot htrans ih

/-- Python `sorted(set(xs))`: ascending list of the distinct values. -/
def sortedDedup (xs : List Int) : List Int :=
  sortBy (fun a b => decide (a ≤ b)) xs.dedup

theorem mem_sortedDedup {x : Int} {xs : List Int} : x ∈ sortedDedup xs ↔ x ∈ xs := by
  unfold sortedDedup
  rw [mem_sortBy, List.mem_dedup]

theorem sortedDedup_sorted (xs : List Int) :
    List.Pairwise (fun a b : Int => a ≤ b) (sortedDedup xs) := by
  have h := @sortBy_pairwise Int (fun a b : Int => decide (a ≤ b))
    (fun a b hab => by
      simp only [decide_eq_false_iff_not, not_le] at hab
      exact decide_eq_true (le_of_lt hab))
    (fun a b c hab hbc =>
      decide_eq_true (le_trans (of_decide_eq_true hab) (of_decide_eq_true hbc)))
    xs.dedup
  exact h.imp (fun hab => of_decide_eq_true hab)

/-- Head of a `≤`-sorted list is a lower bound for its members. -/
theorem sorted_head_le {xs : List Int} {h x : Int}
    (hs : List.Pairwise (fun a b : Int => a ≤ b) xs)
    (hh : xs.head? = some h) (hx : x ∈ xs) : h ≤ x := by
  cases xs with
  | nil => cases hx
  | cons y ys =>
      simp only [List.head?_cons, Option.some.injEq] at hh
      subst hh
      rcases hx with _ | hx
      · exact le_refl _
      · exact List.rel_of_pairwise_cons hs (by assumption)

namespace BeamSearchScheduler

/-- Constructor parameters after the defensive clamps of
`BeamSearchScheduler.__init__`. -/
structure BSConfig where
  beam_width : Int
  validate_constraints : Bool
  jump_cap : Int
  backtrack_window : Int
  deriving Repr, DecidableEq

/-- The clamps in `BeamSearchScheduler.__init__`. -/
def mkConfig (beam_width : Int) (validate_constraints : Bool) (jump_cap : Int)
    (backtrack_window : Int) : BSConfig :=
  { beam_width := max 1 beam_width,
    validate_constraints := validate_constraints,
    jump_cap := max 1 jump_cap,
    backtrack_window := max 0 backtrack_window }

/-- All program / priority-block / time-preference boundary values collected
by `_build_interesting_times` (before window filtering). -/
def boundaryTimes (instance_data : InstanceData) : List Int :=
  instance_data.channels.flatMap (fun ch => ch.programs.flatMap (fun p => [p.start, p.stop])) ++
  instance_data.priority_blocks.flatMap (fun blk => [blk.start, blk.stop]) ++
  instance_data.time_preferences.flatMap (fun pr => [pr.start, pr.stop])

/-- `_build_interesting_times`: the distinct boundary values inside
`[opening, closing]`, ascending. -/
def interesting_times (instance_data : InstanceData) : List Int :=
  sortedDedup ((boundaryTimes instance_data).filter
    (fun t => decide (instance_data.opening_time ≤ t ∧ t ≤ instance_data.closing_time)))

/-- `bisect.bisect_right(arr, m)` on the ascending duplicate-free `arr`
followed by indexing yields the least element strictly greater than `m`;
on a sorted list that is the head of the `(m < ·)` filtrate. -/
def nextAfter (arr : List Int) (m : Int) : Option Int :=
  (arr.filter (fun t => decide (m < t))).head?

/-- The value `_build_skip_table` stores for a minute `m` of the operating
window (`jump_cap` is the table's cap, i.e. `self.jump_cap`). -/
def skipValue (instance_data : InstanceData) (jump_cap : Int) (m : Int) : Int :=
  match nextAfter (interesting_times instance_data) m with
  | none => min jump_cap (instance_data.closing_time - m)
  | some next_t => if next_t - m ≤ jump_cap then next_t - m else jump_cap

/-- `self.skip_table.get(t, default_cap)`: the stored value for keys in
`[opening, closing)` (the table's domain), the default otherwise.  The base
scheduler passes its own `jump_cap` as the default; the advanced scheduler's
core passes its per-restart adaptive cap. -/
def skipLookup (instance_data : InstanceData) (table_cap default_cap : Int) (t : Int) : Int :=
  if instance_data.opening_time ≤ t ∧ t < instance_data.closing_time then
    skipValue instance_data table_cap t
  else default_cap

/-- `_virtual_program`: a Program-shaped stand-in carrying the truncated
segment interval (all other attributes copied). -/
def virtual_program (prog : Program) (new_start new_stop : Int) : Program :=
  { prog with start := new_start, stop := new_stop }

/-- The fitness sum computed for one (possibly truncated) placement: base
score, time-preference bonus and the three penalty terms, the program-shaped
argument of the bonus/penalty calls being the virtual program carrying the
segment interval.  This exact five-summand expression appears in
`_beam_search`, `_backtrack_improve` and `_score_full_schedule`. -/
def segmentFitness (instance_data : InstanceData) (plan : List Schedule) (ch : Channel)
    (prog : Program) (seg_start seg_stop : Int) : Int :=
  let vprog := virtual_program prog seg_start seg_stop
  prog.score +
    AlgorithmUtils.get_time_preference_bonus instance_data vprog seg_start +
    AlgorithmUtils.get_switch_penalty plan instance_data ch +
    AlgorithmUtils.get_delay_penalty plan instance_data vprog seg_start +
    AlgorithmUtils.get_early_termination_penalty plan instance_data vprog seg_start

/-- The boundary-aligned end candidates of `_segment_options`: the next (up
to six) interesting times at or after `seg_start + D` that fall inside the
program and the window. -/
def segWindowEnds (arr : List Int) (seg_start D pstop E : Int) : List Int :=
  ((arr.filter (fun t => decide (seg_start + D ≤ t))).take 6).filter
    (fun t => decide (seg_start + D ≤ t ∧ t ≤ pstop ∧ t ≤ E))

/-- The `ends` set of `_segment_options` (full end, boundary-aligned ends,
earliest legal end), sorted ascending. -/
def segEndsList (arr : List Int) (seg_start D pstop E : Int) : List Int :=
  sortedDedup ([min pstop E] ++ segWindowEnds arr seg_start D pstop E ++
    (if seg_start + D ≤ pstop ∧ seg_start + D ≤ E then [seg_start + D] else []))

/-- The `chosen` selection of `_segment_options`: full end, smallest end,
median end, earliest legal end — capped at `SEG_CAP = 4`. -/
def segChosen (arr : List Int) (seg_start D pstop E : Int) : List Int :=
  let ends_list := segEndsList arr seg_start D pstop E
  let min_ok_end := seg_start + D
  let full_end := min pstop E
  let chosen1 : List Int := if full_end ∈ ends_list then [full_end] else []
  let chosen2 := chosen1 ++
    (match ends_list.head? with
     | some h => if h ≠ full_end then [h] else []
     | none => [])
  let chosen3 := chosen2 ++
    (if ends_list.length ≥ 3 then [ends_list.getD (ends_list.length / 2) 0] else [])
  let chosen4 := chosen3 ++
    (if min_ok_end ∉ chosen3 ∧ min_ok_end ∈ ends_list then [min_ok_end] else [])
  chosen4.take 4

/-- `_segment_options`. -/
def segment_options (instance_data : InstanceData) (current_time : Int) (prog : Program) :
    List (Int × Int) :=
  let O := instance_data.opening_time
  let E := instance_data.closing_time
  let D := instance_data.min_duration
  let seg_start := max (max current_time prog.start) O
  if prog.stop ≤ seg_start ∨ E ≤ seg_start then []
  else
    ((segChosen (interesting_times instance_data) seg_start D prog.stop E).filter
      (fun e => decide (e - seg_start ≥ D))).map (fun e => (seg_start, e))

/-- One beam-search state: accumulated score, current time, partial
schedule (the score floats of the source are integer-valued throughout). -/
structure BeamState where
  score : Int
  time : Int
  plan : List Schedule
  deriving Repr, DecidableEq

/-- The schedule entry built for a segment (`ScheduleModel(...)` with the
fitness filled in afterwards). -/
def mkSegmentEntry (ch : Channel) (prog : Program) (seg_start seg_stop fitness : Int) : Schedule :=
  { channel_id := ch.channel_id,
    program_id := prog.program_id,
    start := seg_start,
    stop := seg_stop,
    fitness := fitness,
    unique_program_id := prog.unique_id }

/-- The valid-channel enumeration of `_beam_search`: the validator when
`validate_constraints` is set, else every channel index currently airing a
program. -/
def validChannels (instance_data : InstanceData) (validate_constraints : Bool)
    (plan : List Schedule) (t : Int) : List Nat :=
  if validate_constraints then SchedulerUtils.get_valid_schedules plan instance_data t
  else (List.range instance_data.channels.length).filter
    (fun i => (Utils.get_channel_program_by_time (instance_data.channels.getD i emptyChannel) t).isSome)

/-- Successor states contributed by one valid channel inside `_beam_search`
(lines 96–144): current program lookup, the back-to-back duplicate check,
then one successor per surviving segment option. -/
def channelSuccessors (instance_data : InstanceData) (st : BeamState) (channel_index : Nat) :
    List BeamState :=
  let ch := instance_data.channels.getD channel_index emptyChannel
  match Utils.get_channel_program_by_time ch st.time with
  | none => []
  | some prog =>
      let dupSkip := match st.plan.getLast? with
        | some last => last.unique_program_id == prog.unique_id && decide (st.time < last.stop)
        | none => false
      if dupSkip then []
      else
        (segment_options instance_data st.time prog).filterMap (fun se =>
          let seg_start := se.1
          let seg_stop := se.2
          if ¬ (seg_start < seg_stop) then none
          else if (match st.plan.getLast? with
              | some last => decide (seg_start < last.stop)
              | none => false) then none
          else
            let fitness := segmentFitness instance_data st.plan ch prog seg_start seg_stop
            some { score := st.score + fitness,
                   time := seg_stop,
                   plan := st.plan ++ [mkSegmentEntry ch prog seg_start seg_stop fitness] })

/-- Advancing a stuck state through the skip table (both caps are
`self.jump_cap` in the base scheduler). -/
def jumpState (instance_data : InstanceData) (table_cap default_cap : Int) (st : BeamState) :
    BeamState :=
  { st with time :=
      (min (st.time + skipLookup instance_data table_cap default_cap st.time)
        instance_data.closing_time) }

/-- Expansion of one non-terminal state inside `_beam_search`: either the
segment successors over all valid channels, or a single skip-advanced copy
when no channel fits / nothing expanded. -/
def expandState (instance_data : InstanceData) (cfg : BSConfig) (st : BeamState) :
    List BeamState :=
  let valid := validChannels instance_data cfg.validate_constraints st.plan st.time
  if valid = [] then [jumpState instance_data cfg.jump_cap cfg.jump_cap st]
  else
    let expanded := valid.flatMap (channelSuccessors instance_data st)
    if expanded = [] then [jumpState instance_data cfg.jump_cap cfg.jump_cap st]
    else expanded

/-- `score > best_score` where `best_score` may be the `float('-inf')`
sentinel (modelled by `none`). -/
def beatsBest (best : Option Int) (score : Int) : Bool :=
  match best with
  | none => true
  | some v => decide (v < score)

/-- The running best (`best_score`, `best_solution`); `none` models the
`float('-inf')` sentinel. -/
def scanBest (closing_time : Int) (states : List BeamState)
    (best : Option Int × List Schedule) : Option Int × List Schedule :=
  states.foldl
    (fun acc st =>
      if closing_time ≤ st.time ∧ beatsBest acc.1 st.score = true then (some st.score, st.plan)
      else acc) best

/-- `heapq.nlargest(k, candidates, key=lambda x: x[0])`: the `k` largest by
score, ties resolved stably in favour of earlier candidates. -/
def nlargest (k : Nat) (states : List BeamState) : List BeamState :=
  (sortBy (fun a b => decide (b.score ≤ a.score)) states).take k

/-- The `while beam:` loop of `_beam_search`, fuel-indexed.  Every
non-terminal state strictly advances its clock each round and terminal
states die after a final best-update round, so
`(closing - opening).toNat + 2` fuel runs the loop to completion. -/
def beamLoop (instance_data : InstanceData) (cfg : BSConfig) :
    Nat → List BeamState → Option Int × List Schedule → Option Int × List Schedule
  | 0, _, best => best
  | fuel + 1, beam, best =>
      if beam = [] then best
      else
        let best1 := scanBest instance_data.closing_time beam best
        let candidates := beam.flatMap (fun st =>
          if instance_data.closing_time ≤ st.time then [] else expandState instance_data cfg st)
        if candidates = [] then best1
        else
          let beam' := nlargest cfg.beam_width.toNat candidates
          let best2 := scanBest instance_data.closing_time beam' best1
          beamLoop instance_data cfg fuel beam' best2

/-- `_beam_search`: run the loop from the single empty state and decode the
sentinel (`float('-inf')` ⇒ `([], 0)`). -/
def beam_search (instance_data : InstanceData) (cfg : BSConfig) : List Schedule × Int :=
  let fuel := (instance_data.closing_time - instance_data.opening_time).toNat + 2
  let best := beamLoop instance_data cfg fuel
    [{ score := 0, time := instance_data.opening_time, plan := [] }] (none, [])
  match best.1 with
  | none => ([], 0)
  | some v => (best.2, v)

/-- `_score_full_schedule`: re-score a whole schedule, accumulating the
already-processed entries so the switch / early-termination terms see the
correct predecessor. -/
def score_full_schedule (instance_data : InstanceData) (scheduled : List Schedule) : Int :=
  (scheduled.foldl
    (fun acc sch =>
      match instance_data.channels.find? (fun c => c.channel_id == sch.channel_id) with
      | none => (acc.1, acc.2 ++ [sch])
      | some ch =>
          let prog? := match ch.programs.find? (fun p => p.unique_id == sch.unique_program_id) with
            | some p => some p
            | none => ch.programs.find? (fun p => p.program_id == sch.program_id)
          match prog? with
          | none => (acc.1, acc.2 ++ [sch])
          | some prog =>
              (acc.1 + segmentFitness instance_data acc.2 ch prog sch.start sch.stop,
               acc.2 ++ [sch]))
    ((0 : Int), ([] : List Schedule))).1

/-- Successor states contributed by one valid channel inside
`_backtrack_improve`'s regrow loop (lines 349–372): same as the main
expansion but without the duplicate check and without the
`seg_start < seg_end` sanity guard. -/
def btChannelSuccessors (instance_data : InstanceData) (node : BeamState) (channel_index : Nat) :
    List BeamState :=
  let ch := instance_data.channels.getD channel_index emptyChannel
  match Utils.get_channel_program_by_time ch node.time with
  | none => []
  | some prog =>
      (segment_options instance_data node.time prog).filterMap (fun se =>
        let seg_start := se.1
        let seg_stop := se.2
        if (match node.plan.getLast? with
            | some last => decide (seg_start < last.stop)
            | none => false) then none
        else
          let fitness := segmentFitness instance_data node.plan ch prog seg_start seg_stop
          some { score := node.score + fitness,
                 time := seg_stop,
                 plan := node.plan ++ [mkSegmentEntry ch prog seg_start seg_stop fitness] })

/-- One node's contribution to the next `nodes` list in
`_backtrack_improve` (terminal nodes persist; stuck nodes skip forward;
expansions are sorted by score descending and truncated to the beam
width). -/
def backtrackRound (instance_data : InstanceData) (cfg : BSConfig) (node : BeamState) :
    List BeamState :=
  if instance_data.closing_time ≤ node.time then [node]
  else
    let valid := SchedulerUtils.get_valid_schedules node.plan instance_data node.time
    if valid = [] then [jumpState instance_data cfg.jump_cap cfg.jump_cap node]
    else
      let expansions := valid.flatMap (btChannelSuccessors instance_data node)
      if expansions = [] then [jumpState instance_data cfg.jump_cap cfg.jump_cap node]
      else (sortBy (fun a b => decide (b.score ≤ a.score)) expansions).take cfg.beam_width.toNat

/-- The `for _ in range(max_depth)` regrow loop of `_backtrack_improve`. -/
def backtrackNodes (instance_data : InstanceData) (cfg : BSConfig) :
    Nat → List BeamState → List BeamState
  | 0, nodes => nodes
  | d + 1, nodes => backtrackNodes instance_data cfg d
      (nodes.flatMap (backtrackRound instance_data cfg))

/-- Python's `max(nodes, key=lambda x: x[0])`: first node of maximal score
(with the source's explicit fallback when `nodes` is empty). -/
def maxByScore (nodes : List BeamState) (dflt : BeamState) : BeamState :=
  match nodes with
  | [] => dflt
  | n :: rest => rest.foldl (fun acc nd => if acc.score < nd.score then nd else acc) n

/-- `_backtrack_improve`. -/
def backtrack_improve (instance_data : InstanceData) (cfg : BSConfig)
    (scheduled : List Schedule) (total_score : Int) (window : Int) :
    List Schedule × Int :=
  let n := scheduled.length
  if n = 0 ∨ window ≤ 0 then (scheduled, total_score)
  else
    let w := min window.toNat n
    let front := scheduled.take (n - w)
    let front_score := score_full_schedule instance_data front
    let refill_time := match front.getLast? with
      | some l => l.stop
      | none => instance_data.opening_time
    let start_node : BeamState := { score := front_score, time := refill_time, plan := front }
    let nodes := backtrackNodes instance_data cfg w [start_node]
    let best_node := maxByScore nodes start_node
    let new_total := score_full_schedule instance_data best_node.plan
    if new_total > total_score then (best_node.plan, new_total)
    else (scheduled, total_score)

/-- `BeamSearchScheduler.generate_solution` over already-clamped parameters
(the iterative scheduler's `_create_scheduler` re-enters here with its own
clamped values). -/
def generate_from_config (instance_data : InstanceData) (cfg : BSConfig) : Solution :=
  let res := beam_search instance_data cfg
  if 0 < cfg.backtrack_window ∧ res.1 ≠ [] then
    let res2 := backtrack_improve instance_data cfg res.1 res.2 cfg.backtrack_window
    { scheduled_programs := res2.1, total_score := res2.2 }
  else { scheduled_programs := res.1, total_score := res.2 }

/-- `BeamSearchScheduler.generate_solution` (constructor clamps included). -/
def generate_solution (instance_data : InstanceData) (beam_width : Int)
    (validate_constraints : Bool) (jump_cap : Int) (backtrack_window : Int) : Solution :=
  generate_from_config instance_data (mkConfig beam_width validate_constraints jump_cap backtrack_window)

end BeamSearchScheduler

namespace GreedyLookahead

/-- The candidate scan of `GreedyLookahead._single_run`'s `while` body: best
(score now + best follow-up) over the valid channel indices. -/
def lookCand (instance_data : InstanceData) (st : GreedyScheduler.GState)
    (valid_channel_indexes : List Nat) : Option Int × Option Channel × Option Program :=
  valid_channel_indexes.foldl
      (fun (acc : Option Int × Option Channel × Option Program) channel_index =>
        let channel := instance_data.channels.getD channel_index emptyChannel
        match Utils.get_channel_program_by_time channel st.time with
        | none => acc
        | some program =>
            let score_now :=
              AlgorithmUtils.candidateScore st.solution instance_data st.time channel program
            let temp_schedule : Schedule :=
              { channel_id := channel.channel_id, program_id := program.program_id,
                start := program.start, stop := program.stop, fitness := score_now,
                unique_program_id := program.unique_id }
            let simulated_plan := st.solution ++ [temp_schedule]
            let future_best :=
              if program.stop ≤ instance_data.closing_time then
                let valid_next :=
                  SchedulerUtils.get_valid_schedules simulated_plan instance_data program.stop
                if valid_next = [] then 0
                else (AlgorithmUtils.get_best_fit simulated_plan instance_data program.stop
                  valid_next).2.2
              else 0
            let score := score_now + future_best
            if BeamSearchScheduler.beatsBest acc.1 score then (some score, some channel, some program)
            else acc)
      (none, none, none)

/-- The in-place truncation `_single_run` applies to the last committed entry
when the new commit starts inside it (`cut` is the new entry's start). -/
def truncateLast (plan : List Schedule) (cut : Int) : List Schedule :=
  match plan.getLast? with
  | some l =>
      if l.start ≤ cut ∧ cut < l.stop then
        plan.dropLast ++ [{ l with stop := cut }]
      else plan
  | none => plan

/-- One iteration of `GreedyLookahead._single_run`'s `while` body (assuming
`time <= closing_time`). -/
def lookBody (instance_data : InstanceData) (st : GreedyScheduler.GState) :
    GreedyScheduler.GState :=
  let valid_channel_indexes :=
    SchedulerUtils.get_valid_schedules st.solution instance_data st.time
  if valid_channel_indexes = [] then
    -- minute-skipping: jump to the earliest program start strictly after `time`
    let starts := (instance_data.channels.flatMap (fun ch => ch.programs)).map (fun p => p.start)
    match (starts.filter (fun s => decide (st.time < s))).min? with
    | some next_start => { st with time := next_start }
    | none => { st with time := st.time + 1 }
  else
    -- one-step lookahead: score now plus the best follow-up at the program's end
    let cand := lookCand instance_data st valid_channel_indexes
    let fitness : Int := match cand.1 with
      | some m => m
      | none => 0
    let same_channel_block : Bool := match st.solution.getLast?, cand.2.1 with
      | some l, some best_channel => l.channel_id == best_channel.channel_id
      | _, _ => false
    if fitness ≤ 0 ∨ same_channel_block then { st with time := st.time + 1 }
    else
      match cand.2.1, cand.2.2 with
      | some best_channel, some best_program =>
          let schedule : Schedule :=
            { channel_id := best_channel.channel_id, program_id := best_program.program_id,
              start := best_program.start, stop := best_program.stop, fitness := fitness,
              unique_program_id := best_program.unique_id }
          -- in-place truncation of the overlapped predecessor
          let solution' := truncateLast st.solution schedule.start
          { time := st.time + instance_data.min_duration,
            total_score := st.total_score + fitness,
            solution := solution' ++ [schedule] }
      -- unreachable: `fitness > 0` forces a best channel/program (the source
      -- would raise `AttributeError` on `None` otherwise)
      | _, _ => { st with time := st.time + 1 }

/-- The `while time <= closing_time` loop of `_single_run`, fuel-indexed. -/
def lookLoop (instance_data : InstanceData) : Nat → GreedyScheduler.GState → GreedyScheduler.GState
  | 0, st => st
  | fuel + 1, st =>
      if st.time ≤ instance_data.closing_time then
        lookLoop instance_data fuel (lookBody instance_data st)
      else st

/-- `GreedyLookahead.generate_solution` (via `_single_run`).  The fuel covers
every minute of `[opening, closing]` plus slack for the commit steps of the
runs this development evaluates; the invariant theorems hold for any fuel. -/
def generate_solution (instance_data : InstanceData) : Solution :=
  let st := lookLoop instance_data
    ((instance_data.closing_time - instance_data.opening_time).toNat + 4)
    { time := instance_data.opening_time, total_score := 0, solution := [] }
  { scheduled_programs := st.solution, total_score := st.total_score }

end GreedyLookahead

namespace BeamSearchSchedulerAdvanced

open BeamSearchScheduler

/-- Constructor parameters of `BeamSearchSchedulerAdvanced.__init__` after
its clamps (note `backtrack_window` is clamped to at least 1 here, unlike the
base scheduler). -/
structure BSAConfig where
  beam_width : Int
  validate_constraints : Bool
  jump_cap : Int
  backtrack_window : Int
  restarts : Int
  deriving Repr, DecidableEq

/-- The clamps in `BeamSearchSchedulerAdvanced.__init__`. -/
def mkAdvConfig (beam_width : Int) (validate_constraints : Bool) (jump_cap : Int)
    (backtrack_window : Int) (restarts : Int) : BSAConfig :=
  { beam_width := max 1 beam_width,
    validate_constraints := validate_constraints,
    jump_cap := max 1 jump_cap,
    backtrack_window := max 1 backtrack_window,
    restarts := max 1 restarts }

/-- The boundary values collected by the advanced scheduler's
`_build_interesting_times`: program starts and ends only (no priority-block
or time-preference boundaries). -/
def advBoundaryTimes (instance_data : InstanceData) : List Int :=
  (instance_data.channels.flatMap (fun ch => ch.programs)).flatMap
    (fun p => [p.start, p.stop])

/-- `_build_interesting_times` of the advanced scheduler. -/
def interesting_times_adv (instance_data : InstanceData) : List Int :=
  sortedDedup
    ((advBoundaryTimes instance_data).filter
      (fun t => decide (instance_data.opening_time ≤ t ∧ t ≤ instance_data.closing_time)))

/-- The value `_build_skip_table` of the advanced scheduler stores for a
minute of the window (cap = the constructor's `self.jump_cap`). -/
def skipValueAdv (instance_data : InstanceData) (jump_cap : Int) (m : Int) : Int :=
  match nextAfter (interesting_times_adv instance_data) m with
  | none => min jump_cap (instance_data.closing_time - m)
  | some next_t => min (next_t - m) jump_cap

/-- `self.skip_table.get(t, jump_cap)` in `_beam_search_core`: the table was
built with the constructor's cap, the default is the per-restart adaptive
cap. -/
def skipLookupAdv (instance_data : InstanceData) (table_cap default_cap : Int) (t : Int) : Int :=
  if instance_data.opening_time ≤ t ∧ t < instance_data.closing_time then
    skipValueAdv instance_data table_cap t
  else default_cap

/-- Skip-advance of a stuck state in `_beam_search_core`. -/
def advJump (instance_data : InstanceData) (table_cap jump_cap : Int) (st : BeamState) :
    BeamState :=
  { st with time :=
      (min (st.time + skipLookupAdv instance_data table_cap jump_cap st.time)
        instance_data.closing_time) }

/-- The successor contributed by one valid channel in `_beam_search_core`
(lines 90–115): whole-program placement at the program's natural interval,
skipped on a back-to-back duplicate or an overlap with the last entry. -/
def advChannelSuccessor (instance_data : InstanceData) (st : BeamState) (channel_index : Nat) :
    List BeamState :=
  let ch := instance_data.channels.getD channel_index emptyChannel
  match Utils.get_channel_program_by_time ch st.time with
  | none => []
  | some prog =>
      if (match st.plan.getLast? with
          | some last =>
              last.unique_program_id == prog.unique_id || decide (prog.start < last.stop)
          | none => false) then []
      else
        let fitness := AlgorithmUtils.candidateScore st.plan instance_data st.time ch prog
        [{ score := st.score + fitness,
           time := prog.stop,
           plan := st.plan ++
             [{ channel_id := ch.channel_id, program_id := prog.program_id,
                start := prog.start, stop := prog.stop, fitness := fitness,
                unique_program_id := prog.unique_id }] }]

/-- Expansion of one non-terminal state in `_beam_search_core`.  `chs` is the
`channels` index list for this state visit — identity order, or an arbitrary
permutation when the 25%-probability `random.shuffle` fired; it is only
consulted when `validate_constraints` is off. -/
def advExpandState (instance_data : InstanceData) (validate_constraints : Bool)
    (table_cap jump_cap : Int) (chs : List Nat) (st : BeamState) : List BeamState :=
  let valid := if validate_constraints then
      SchedulerUtils.get_valid_schedules st.plan instance_data st.time
    else chs
  if valid = [] then [advJump instance_data table_cap jump_cap st]
  else
    let expanded := valid.flatMap (advChannelSuccessor instance_data st)
    if expanded = [] then [advJump instance_data table_cap jump_cap st]
    else expanded

/-- One state's contribution to a round of `_beam_search_core`'s `while`
loop: retire terminal states into the running best, expand the rest
(the third component counts PRNG consultations). -/
def advStep (instance_data : InstanceData) (validate_constraints : Bool)
    (table_cap jump_cap : Int) (chOrder : Nat → List Nat)
    (acc : (Option Int × List Schedule) × List BeamState × Nat) (st : BeamState) :
    (Option Int × List Schedule) × List BeamState × Nat :=
  if instance_data.closing_time ≤ st.time then
    (if beatsBest acc.1.1 st.score then ((some st.score, st.plan), acc.2.1, acc.2.2)
     else acc)
  else
    (acc.1,
     acc.2.1 ++ advExpandState instance_data validate_constraints table_cap jump_cap
       (chOrder acc.2.2) st,
     acc.2.2 + 1)

/-- The `while beam:` loop of `_beam_search_core`, fuel-indexed.  The
pseudo-random channel orders are supplied by the oracle `chOrder`, indexed by
a running count of expanded (non-terminal) states, which is exactly the
number of PRNG consultations the source makes. -/
def advBeamLoop (instance_data : InstanceData) (validate_constraints : Bool)
    (table_cap jump_cap beam_width : Int) (chOrder : Nat → List Nat) :
    Nat → Nat → List BeamState → Option Int × List Schedule → Option Int × List Schedule
  | 0, _, _, best => best
  | fuel + 1, ctr, beam, best =>
      if beam = [] then best
      else
        let step := beam.foldl
          (advStep instance_data validate_constraints table_cap jump_cap chOrder)
          ((best, [], ctr))
        let best1 := step.1
        let candidates := step.2.1
        let ctr' := step.2.2
        if candidates = [] then best1
        else advBeamLoop instance_data validate_constraints table_cap jump_cap beam_width chOrder
          fuel ctr' (nlargest beam_width.toNat candidates) best1

/-- `_beam_search_core`. -/
def beam_search_core (instance_data : InstanceData) (cfg : BSAConfig)
    (beam_width jump_cap : Int) (chOrder : Nat → List Nat) : Option Int × List Schedule :=
  let fuel := (instance_data.closing_time - instance_data.opening_time).toNat + 2
  advBeamLoop instance_data cfg.validate_constraints cfg.jump_cap jump_cap beam_width chOrder
    fuel 0 [{ score := 0, time := instance_data.opening_time, plan := [] }] (none, [])

/-- `_adjust_beam_width` (`best_score` may still be the `-inf` sentinel). -/
def adjust_beam_width (cfg : BSAConfig) (best_score : Option Int) (restart : Int) : Int :=
  if (match best_score with
      | none => true
      | some v => decide (v < 0)) then min (cfg.beam_width + restart) 8
  else if restart % 2 = 0 then max 2 (cfg.beam_width - 1)
  else cfg.beam_width + 1

/-- One restart of `BeamSearchSchedulerAdvanced.generate_solution`:
re-run the core with adaptive beam width and jump cap and keep a strictly
better result. -/
def advRestartStep (instance_data : InstanceData) (cfg : BSAConfig)
    (chOrders : Nat → Nat → List Nat) (acc : Option Int × List Schedule) (i : Nat) :
    Option Int × List Schedule :=
  let restart : Int := Int.ofNat i + 1
  let adaptive_beam := adjust_beam_width cfg acc.1 restart
  let adaptive_jump := cfg.jump_cap + restart * 5
  let core := beam_search_core instance_data cfg adaptive_beam adaptive_jump (chOrders i)
  match core.1 with
  | none => acc
  | some score => if beatsBest acc.1 score then (some score, core.2) else acc

/-- `BeamSearchSchedulerAdvanced.generate_solution`: restart loop;
`chOrders r` is the channel-order oracle of restart `r`.  The final
`int(best_score)` would raise on the `-inf` sentinel; the core always
retires at least one state, so the fallback `0` is unreachable in the
source's runs. -/
def generate_solution (instance_data : InstanceData) (cfg : BSAConfig)
    (chOrders : Nat → Nat → List Nat) : Solution :=
  let res := (List.range cfg.restarts.toNat).foldl
    (advRestartStep instance_data cfg chOrders)
    ((none : Option Int), ([] : List Schedule))
  { scheduled_programs := res.2,
    total_score := match res.1 with
      | some v => v
      | none => 0 }

end BeamSearchSchedulerAdvanced

namespace BeyondDynamic

open BeamSearchScheduler

/-- Constructor parameters of `BeyondDynamicBeamSearchSchedulerAdvanced`
after its clamps (`base_depth`, `max_depth`, `iteration_limit` and the
logging fields are never consulted by the algorithm and are omitted).
`_validate_constructor_params` re-checks the already-clamped integers and
therefore never changes them. -/
structure BDConfig where
  beam_width : Int
  jump_cap : Int
  backtrack_window : Int
  iterative_deepening : Bool
  max_beam_multiplier : Int
  stagnation_delta : ℚ
  restarts_min : Int
  restarts_max : Int
  local_search_passes : Int
  deriving Repr, DecidableEq

/-- The clamps in `__init__`. -/
def mkBDConfig (beam_width jump_cap backtrack_window : Int) (iterative_deepening : Bool)
    (max_beam_multiplier : Int) (stagnation_delta : ℚ)
    (restarts_min restarts_max local_search_passes : Int) : BDConfig :=
  { beam_width := max 1 beam_width,
    jump_cap := max 1 jump_cap,
    backtrack_window := max 0 backtrack_window,
    iterative_deepening := iterative_deepening,
    max_beam_multiplier := max 1 max_beam_multiplier,
    stagnation_delta := stagnation_delta,
    restarts_min := max 1 restarts_min,
    restarts_max := max (max 1 restarts_min) restarts_max,
    local_search_passes := max 0 local_search_passes }

/-- The mutable per-run fields the driver threads through its phases:
`self.jump_cap` and `self.beam_width` (rewritten by the adaptive restart
policy), the best-score history, and `self._prev_restart_best`. -/
structure BDState where
  jump_cap : Int
  beam_width : Int
  history : List Int
  prev_restart_best : Option (WithTop ℚ)
  deriving DecidableEq

/-- `_create_scheduler(dynamic_width)` followed by the delegate's own
clamps: a base `BeamSearchScheduler` over the current mutable `jump_cap` /
`backtrack_window` (constraint validation on by default). -/
def create_scheduler (cfg : BDConfig) (stt : BDState) (dynamic_width : Int) : BSConfig :=
  mkConfig (if dynamic_width ≤ 0 then 1 else dynamic_width) true stt.jump_cap
    cfg.backtrack_window

/-- `self._prev_restart_best or -float("-inf")`: Python's `or` replaces a
falsy left operand — `None` or the float `0.0` — by `-float("-inf")`, which
is positive infinity. -/
def prevOrInf (prev : Option (WithTop ℚ)) : WithTop ℚ :=
  match prev with
  | none => ⊤
  | some x => if x = 0 then ⊤ else x

/-- `_dynamic_beam_adjustment` (scores are exact, `stagnation_delta` enters
as a rational; `self.beam_width` is the driver's current — possibly already
widened — value `bw_now`). -/
def dynamic_beam_adjustment (cfg : BDConfig) (bw_now : Int) (prev_score : Option (WithTop ℚ))
    (current_score : Int) (current_width : Int) : Int :=
  match prev_score with
  | none => current_width
  | some p =>
      let new_width :=
        if ((current_score : ℚ) : WithTop ℚ) ≤ p + (cfg.stagnation_delta : WithTop ℚ) then
          min (current_width * 2) (bw_now * cfg.max_beam_multiplier)
        else max bw_now (Int.fdiv current_width 2)
      max 1 new_width

/-- `_detect_stagnation` over the recorded best-score history. -/
def detect_stagnation (cfg : BDConfig) (history : List Int) : Bool :=
  if history.length < 2 then false
  else
    match history.getLast?, history.dropLast.getLast? with
    | some a, some b => decide ((a : ℚ) ≤ (b : ℚ) + cfg.stagnation_delta)
    | _, _ => false

/-- `_apply_adaptive_restart_policy`: widen the jump cap and the beam width
(mutating the driver state) when stagnating. -/
def apply_adaptive_restart_policy (cfg : BDConfig) (stt : BDState) : BDState :=
  if detect_stagnation cfg stt.history then
    { stt with
      jump_cap := min (stt.jump_cap + 10) (max 60 (stt.jump_cap * 2)),
      beam_width := min (stt.beam_width * 2) (stt.beam_width * cfg.max_beam_multiplier) }
  else stt

/-- `_lookup_program`: first channel with the id, then the program airing at
the entry's start. -/
def lookup_program (instance_data : InstanceData) (channel_id : Int) (start_time : Int) :
    Option Program :=
  match instance_data.channels.find? (fun ch => ch.channel_id == channel_id) with
  | some ch => Utils.get_channel_program_by_time ch start_time
  | none => none

/-- `_get_program_genre`: the airing program's genre; an empty genre string
is falsy in the source and falls through to the (absent) entry attributes,
yielding `None`. -/
def get_program_genre (instance_data : InstanceData) (sch : Schedule) : Option String :=
  match lookup_program instance_data sch.channel_id sch.start with
  | some prog => if prog.genre = "" then none else some prog.genre
  | none => none

/-- `_respects_genre_limit`: scan the schedule, tracking the current genre
streak; fail as soon as a streak exceeds `max_consecutive_genre` (a `None`
genre resets the streak). -/
def respects_genre_limit (instance_data : InstanceData) (schedule : List Schedule) : Bool :=
  (schedule.foldl
    (fun (acc : Option (Option String × Nat)) sch =>
      match acc with
      | none => none
      | some (last_genre, streak) =>
          match get_program_genre instance_data sch with
          | none => some (none, 0)
          | some g =>
              let streak' := if last_genre = some g then streak + 1 else 1
              let last' := if last_genre = some g then last_genre else some g
              if (streak' : Int) > instance_data.max_consecutive_genre then none
              else some (last', streak'))
    (some ((none : Option String), (0 : Nat)))).isSome

/-- One entry's contribution inside the iterative scheduler's own
`_score_full_schedule` loop: per-entry fitness, overlap / misorder and
switch penalties against the predecessor, the same-genre chain penalty and
the sliding-window genre-diversity bonus.  The `getattr` defaults apply
(`overlap_penalty` 10000, `misorder_penalty` 1000, `genre_window` 3,
`genre_diversity_bonus` 5, `same_genre_chain_penalty` 8): `InstanceData`
carries none of these attributes. -/
def bdScoreStep (instance_data : InstanceData)
    (acc : Int × Option Schedule × Option String × Nat × List String) (sch : Schedule) :
    Int × Option Schedule × Option String × Nat × List String :=
  let total := acc.1 + sch.fitness
  let total := match acc.2.1 with
    | none => total
    | some prev =>
        let t1 :=
          if sch.start < prev.stop then
            if prev.channel_id == sch.channel_id then total - 10000 else total - 1000
          else total
        if prev.channel_id ≠ sch.channel_id then t1 - instance_data.switch_penalty else t1
  match get_program_genre instance_data sch with
  | none => (total, some sch, acc.2.2.1, acc.2.2.2.1, acc.2.2.2.2)
  | some g =>
      let last_genre := acc.2.2.1
      let streak := acc.2.2.2.1
      let recent := acc.2.2.2.2
      let hit := last_genre = some g
      let total := if hit then total - 8 else total
      let streak' := if hit then streak + 1 else 0
      let last' := if hit then last_genre else some g
      let recent1 := recent ++ [g]
      let recent2 := if recent1.length > 3 then recent1.tail else recent1
      let unique_in_window := recent2.dedup.length
      (total + 5 * max 0 ((unique_in_window : Int) - 1), some sch, last', streak', recent2)

/-- The iterative scheduler's `_score_full_schedule` (full-schedule rescorer
with structural penalties; `-10^9` for a genre-limit violation). -/
def bd_score_full_schedule (instance_data : InstanceData) (schedule : List Schedule) : Int :=
  if schedule = [] then 0
  else if ¬ respects_genre_limit instance_data schedule then -(10 ^ 9)
  else
    (schedule.foldl (bdScoreStep instance_data)
      ((0 : Int), (none : Option Schedule), (none : Option String), (0 : Nat),
        ([] : List String))).1

/-- The `"_pad"` placeholder entries `_refill_window` appends. -/
def padEntry : Schedule :=
  { channel_id := -1, program_id := "_pad", start := 0, stop := 0, fitness := 0,
    unique_program_id := "_pad" }

/-- `_refill_window`: delegate a bounded regrow of `window` slots after
`front` to the base scheduler's `_backtrack_improve` over a padded copy. -/
def refill_window (instance_data : InstanceData) (cfg : BDConfig) (stt : BDState)
    (front : List Schedule) (window : Nat) : List Schedule × Int :=
  let local_beam := max 1 (min stt.beam_width 6)
  let bs := create_scheduler cfg stt local_beam
  let fake_tail := List.replicate window padEntry
  let base := front ++ fake_tail
  let res := BeamSearchScheduler.backtrack_improve instance_data bs base
    (BeamSearchScheduler.score_full_schedule instance_data base) (window : Int)
  (res.1.take (front.length + window), res.2)

/-- `range(0, stop_exclusive, step)` for positive `step`. -/
def rangeStep (stop_exclusive step : Nat) : List Nat :=
  (List.range ((stop_exclusive + step - 1) / step)).map (fun i => i * step)

/-- Loop state of `_enhanced_backtrack`: best schedule and score, trials
used, and the `break` flag of the budget checks. -/
structure EBState where
  best_sched : List Schedule
  best_score : Int
  trials_used : Nat
  stopped : Bool
  deriving DecidableEq

/-- The body of `_enhanced_backtrack`'s inner `for start_idx` loop. -/
def ebInner (instance_data : InstanceData) (cfg : BDConfig) (stt : BDState)
    (scheduled : List Schedule) (window : Nat) (max_trials : Nat)
    (st : EBState) (start_idx : Nat) : EBState :=
  if st.stopped then st
  else
    let front := scheduled.take start_idx
    let candidate := (refill_window instance_data cfg stt front window).1
    let tail := scheduled.drop (start_idx + window)
    let full_candidate := candidate ++ tail
    if ¬ respects_genre_limit instance_data full_candidate then
      let trials := st.trials_used + 1
      { st with trials_used := trials, stopped := trials ≥ max_trials }
    else
      let score_full := bd_score_full_schedule instance_data full_candidate
      let st' := if score_full > st.best_score then
          { st with best_sched := full_candidate, best_score := score_full }
        else st
      let trials := st'.trials_used + 1
      { st' with trials_used := trials, stopped := trials ≥ max_trials }

/-- The body of `_enhanced_backtrack`'s outer `for window` loop. -/
def ebOuter (instance_data : InstanceData) (cfg : BDConfig) (stt : BDState)
    (scheduled : List Schedule) (n : Nat) (max_trials : Nat)
    (st : EBState) (window : Nat) : EBState :=
  if st.stopped ∨ st.trials_used ≥ max_trials then { st with stopped := true }
  else
    let last_start := n - window
    let steps := min (last_start + 1) (max_trials - st.trials_used)
    let step_size := max 1 ((last_start + 1) / steps)
    ((rangeStep (last_start + 1) step_size).foldl
      (ebInner instance_data cfg stt scheduled window max_trials) { st with stopped := false })

/-- `_enhanced_backtrack` (probe failures are modelled as absent: the
embedded `_refill_window` is total). -/
def enhanced_backtrack (instance_data : InstanceData) (cfg : BDConfig) (stt : BDState)
    (scheduled : List Schedule) (total_score : Int) (max_trials : Nat) :
    List Schedule × Int :=
  let n := scheduled.length
  if n = 0 ∨ cfg.backtrack_window ≤ 0 then (scheduled, total_score)
  else
    let w := min cfg.backtrack_window.toNat n
    let final := ((List.range w).map (fun i => i + 1)).foldl
      (ebOuter instance_data cfg stt scheduled n (max 1 max_trials))
      { best_sched := scheduled, best_score := total_score, trials_used := 0, stopped := false }
    (final.best_sched, final.best_score)

/-- A deadline configuration: whether a deadline exists, and the oracle
answering the successive `time.time() > deadline` consultations (real time
is outside the model; the theorems quantify over every oracle). -/
structure Deadline where
  active : Bool
  over : Nat → Bool

/-- One `if deadline and time.time() > deadline:` consultation. -/
def dlCheck (dl : Deadline) (k : Nat) : Bool :=
  dl.active && dl.over k

/-- Loop state of `_local_search_replace` / `_local_search_swap`: current
best schedule and score, next oracle index, and the `break` flag. -/
structure LSState where
  best_sched : List Schedule
  best_score : Int
  k : Nat
  stopped : Bool

/-- The inner channel scan of `_local_search_replace` at position `idx`:
returns the updated state and whether an improving substitution was accepted
(which `break`s the channel loop only). -/
def lsReplaceChannels (instance_data : InstanceData) (dl : Deadline)
    (idx : Nat) (st : LSState) : LSState :=
  ((instance_data.channels).enum.foldl
    (fun (acc : LSState × Bool) chp =>
      let (s, accepted) := acc
      if s.stopped ∨ accepted then acc
      else if dlCheck dl s.k then ({ s with k := s.k + 1, stopped := true }, accepted)
      else
        let s := { s with k := s.k + 1 }
        let ch_idx := chp.1
        let ch := chp.2
        let front := s.best_sched.take idx
        let entry := s.best_sched.getD idx padEntry
        let start_time := entry.start
        match Utils.get_channel_program_by_time ch start_time with
        | none => (s, accepted)
        | some prog =>
            if prog.unique_id == entry.unique_program_id then (s, accepted)
            else
              let new_model : Schedule :=
                { channel_id := ch.channel_id, program_id := prog.program_id,
                  start := prog.start, stop := prog.stop,
                  fitness := AlgorithmUtils.candidateScore front instance_data start_time ch prog,
                  unique_program_id := prog.unique_id }
              let candidate := front ++ [new_model] ++ s.best_sched.drop (idx + 1)
              if ¬ Validator.is_channel_valid front instance_data ch_idx start_time then
                (s, accepted)
              else if ¬ respects_genre_limit instance_data candidate then (s, accepted)
              else
                let score_candidate := bd_score_full_schedule instance_data candidate
                if score_candidate > s.best_score then
                  ({ s with best_sched := candidate, best_score := score_candidate }, true)
                else (s, accepted))
    (st, false)).1

/-- `_local_search_replace`. -/
def local_search_replace (instance_data : InstanceData) (dl : Deadline)
    (sched : List Schedule) (k0 : Nat) : (List Schedule × Int) × Nat :=
  let init : LSState :=
    { best_sched := sched, best_score := bd_score_full_schedule instance_data sched,
      k := k0, stopped := false }
  let final := (List.range sched.length).foldl
    (fun s idx =>
      if s.stopped then s
      else if dlCheck dl s.k then { s with k := s.k + 1, stopped := true }
      else lsReplaceChannels instance_data dl idx { s with k := s.k + 1 })
    init
  ((final.best_sched, final.best_score), final.k)

/-- The interval-order sanity scan of `_local_search_swap`. -/
def adjacentOk (l : List Schedule) : Bool :=
  (l.zip l.tail).all (fun ab => !(decide (ab.2.start < ab.1.stop)))

/-- `_local_search_swap`: first improving, order-preserving, genre-respecting
swap of two positions wins and returns immediately. -/
def local_search_swap (instance_data : InstanceData) (dl : Deadline)
    (sched : List Schedule) (k0 : Nat) : (List Schedule × Int) × Nat :=
  let base := bd_score_full_schedule instance_data sched
  let n := sched.length
  let final := (List.range n).foldl
    (fun (acc : LSState × Bool) i =>
      let (s, returned) := acc
      if s.stopped ∨ returned then acc
      else if dlCheck dl s.k then ({ s with k := s.k + 1, stopped := true }, returned)
      else
        ((List.range (n - (i + 1))).map (fun d => i + 1 + d)).foldl
          (fun (acc2 : LSState × Bool) j =>
            let (s2, returned2) := acc2
            if s2.stopped ∨ returned2 then acc2
            else if dlCheck dl s2.k then ({ s2 with k := s2.k + 1, stopped := true }, returned2)
            else
              let s2 := { s2 with k := s2.k + 1 }
              let candidate := (sched.set i (sched.getD j padEntry)).set j (sched.getD i padEntry)
              if ¬ adjacentOk candidate then (s2, returned2)
              else if ¬ respects_genre_limit instance_data candidate then (s2, returned2)
              else
                let score_candidate := bd_score_full_schedule instance_data candidate
                if score_candidate > s2.best_score then
                  ({ s2 with best_sched := candidate, best_score := score_candidate }, true)
                else (s2, returned2))
          ({ s with k := s.k + 1 }, returned))
    (({ best_sched := sched, best_score := base, k := k0, stopped := false }, false))
  ((final.1.best_sched, final.1.best_score), final.1.k)

/-- One pass of `_apply_local_search`: keep a replace result that strictly
improves, else a swap result that strictly improves, else stop. -/
def lsPass (instance_data : InstanceData) (dl : Deadline)
    (acc : List Schedule × Int × Nat × Bool) (_pass : Nat) :
    List Schedule × Int × Nat × Bool :=
  let (best_sched, best_score, k, stopped) := acc
  if stopped then acc
  else if dlCheck dl k then (best_sched, best_score, k + 1, true)
  else
    let k := k + 1
    let r := local_search_replace instance_data dl best_sched k
    if r.1.2 > best_score then (r.1.1, r.1.2, r.2, false)
    else
      let s := local_search_swap instance_data dl best_sched r.2
      if s.1.2 > best_score then (s.1.1, s.1.2, s.2, false)
      else (best_sched, best_score, s.2, true)

/-- `_apply_local_search`: up to `local_search_passes` rounds of `lsPass`. -/
def apply_local_search (instance_data : InstanceData) (cfg : BDConfig) (dl : Deadline)
    (best_solution : Solution) (k0 : Nat) : Solution × Nat :=
  let final := (List.range cfg.local_search_passes.toNat).foldl
    (lsPass instance_data dl)
    ((best_solution.scheduled_programs, best_solution.total_score, k0, false))
  ({ scheduled_programs := final.1, total_score := final.2.1 }, final.2.2.1)

end BeyondDynamic

namespace BeyondDynamic

/-- The `restarts` argument normalisation at the head of
`generate_solution_with_time`. -/
def restartsClamp (cfg : BDConfig) (restarts : Int) : Int :=
  let r0 := if restarts ≤ 0 then 1 else restarts
  max cfg.restarts_min (min r0 cfg.restarts_max)

/-- The driver state threaded through the restart loop: the mutable
scheduler fields, the best candidate so far (`none` models the
`best_solution = None / best_score = -inf` pair), the adaptive width, the
deadline-oracle cursor and the `break` flag. -/
structure RunState where
  stt : BDState
  best_solution : Option Solution
  best_score : Option Int
  current_dynamic_width : Int
  k : Nat
  stopped : Bool

/-- One iteration of the restart loop of `generate_solution_with_time`
(lines 294–333; the embedded delegate raises no exceptions, so the
`candidate is None` branch is absent). -/
def restartBody (instance_data : InstanceData) (cfg : BDConfig) (dl : Deadline)
    (rs : RunState) (_i : Nat) : RunState :=
  if rs.stopped then rs
  else
    let dynamic_width := max 1 rs.current_dynamic_width
    let candidate := BeamSearchScheduler.generate_from_config instance_data
      (create_scheduler cfg rs.stt dynamic_width)
    if ¬ respects_genre_limit instance_data candidate.scheduled_programs then rs
    else
      let score := candidate.total_score
      let stt1 := { rs.stt with history := rs.stt.history ++ [score] }
      let best' := if BeamSearchScheduler.beatsBest rs.best_score score then
          (some candidate, some score)
        else (rs.best_solution, rs.best_score)
      let cdw := dynamic_beam_adjustment cfg stt1.beam_width stt1.prev_restart_best score
        rs.current_dynamic_width
      let prev' := some (max (prevOrInf stt1.prev_restart_best) ((score : ℚ) : WithTop ℚ))
      let stt2 := { stt1 with prev_restart_best := prev' }
      let stt3 := if detect_stagnation cfg stt2.history then
          apply_adaptive_restart_policy cfg stt2
        else stt2
      { stt := stt3, best_solution := best'.1, best_score := best'.2,
        current_dynamic_width := cdw, k := rs.k + 1, stopped := dlCheck dl rs.k }

/-- One widening step of the iterative-deepening phase. -/
def idStep (instance_data : InstanceData) (cfg : BDConfig) (dl : Deadline) (stt : BDState)
    (acc : Solution × Int × Nat × Bool) (i : Nat) : Solution × Int × Nat × Bool :=
  let (bSol, bSc, k, stopped) := acc
  if stopped then acc
  else if dlCheck dl k then (bSol, bSc, k + 1, true)
  else
    let mult : Int := Int.ofNat i + 2
    let dyn := max 1 (stt.beam_width * mult)
    let cand := BeamSearchScheduler.generate_from_config instance_data
      (create_scheduler cfg stt dyn)
    if ¬ respects_genre_limit instance_data cand.scheduled_programs then
      (bSol, bSc, k + 1, false)
    else if cand.total_score > bSc then (cand, cand.total_score, k + 1, false)
    else (bSol, bSc, k + 1, false)

/-- The iterative-deepening phase (lines 341–359). -/
def idPhase (instance_data : InstanceData) (cfg : BDConfig) (dl : Deadline) (stt : BDState)
    (best_solution : Solution) (best_score : Int) (k0 : Nat) : Solution × Int × Nat :=
  if cfg.iterative_deepening ∧ cfg.max_beam_multiplier > 1 then
    let final := (List.range (cfg.max_beam_multiplier.toNat - 1)).foldl
      (idStep instance_data cfg dl stt)
      ((best_solution, best_score, k0, false))
    (final.1, final.2.1, final.2.2.1)
  else (best_solution, best_score, k0)

/-- The tail of `generate_solution_with_time` after the restart loop:
iterative deepening, enhanced backtrack, local search. -/
def finishRun (instance_data : InstanceData) (cfg : BDConfig) (dl : Deadline)
    (rs : RunState) : Solution :=
  let base : Solution × Int := match rs.best_solution, rs.best_score with
    | some s, some v => (s, v)
    | some s, none => (s, 0)
    | none, _ => ({ scheduled_programs := [], total_score := 0 }, 0)
  let afterId := idPhase instance_data cfg dl rs.stt base.1 base.2 rs.k
  let afterEb : Solution × Int × Nat :=
    if cfg.backtrack_window > 0 then
      let r := enhanced_backtrack instance_data cfg rs.stt
        (afterId.1.scheduled_programs) (afterId.1.total_score) 8
      if r.2 > afterId.2.1 then
        ({ scheduled_programs := r.1, total_score := r.2 }, r.2, afterId.2.2)
      else afterId
    else afterId
  if cfg.local_search_passes > 0 then
    (apply_local_search instance_data cfg dl afterEb.1 afterEb.2.2).1
  else afterEb.1

/-- `generate_solution_with_time`: restarts, iterative deepening, enhanced
backtrack, local search. -/
def generate_solution_with_time (instance_data : InstanceData) (cfg : BDConfig)
    (dl : Deadline) (restarts : Int) : Solution :=
  let restarts' := restartsClamp cfg restarts
  let stt0 : BDState :=
    { jump_cap := cfg.jump_cap, beam_width := cfg.beam_width, history := [],
      prev_restart_best := none }
  let init : RunState :=
    { stt := stt0, best_solution := none, best_score := none,
      current_dynamic_width := cfg.beam_width, k := 0, stopped := false }
  finishRun instance_data cfg dl
    ((List.range restarts'.toNat).foldl (restartBody instance_data cfg dl) init)

/-- `generate_solution(restarts)`: the public entry point runs with
`time_limit=None`, so no deadline is ever consulted. -/
def generate_solution (instance_data : InstanceData) (cfg : BDConfig) (restarts : Int) :
    Solution :=
  generate_solution_with_time instance_data cfg
    { active := false, over := fun _ => false } restarts

end BeyondDynamic

/-! ### Generic helpers for loop-invariant proofs -/

theorem foldl_invariant {α β : Type} (P : β → Prop) (f : β → α → β) (l : List α) (b : β)
    (hb : P b) (hf : ∀ x a, P x → P (f x a)) : P (List.foldl f b l) := by
  induction l generalizing b with
  | nil => exact hb
  | cons a l ih => exact ih (f b a) (hf b a hb)

/-! ### Claim C9: the delay-penalty term is hard-wired to zero -/

/-- The same candidate sum with the delay summand removed, for the
disabled-term comparison. -/
def scoreWithoutDelay (scheduled_programs : List Schedule) (instance_data : InstanceData)
    (schedule_time : Int) (channel : Channel) (program : Program) : Int :=
  program.score +
    AlgorithmUtils.get_time_preference_bonus instance_data program schedule_time +
    AlgorithmUtils.get_switch_penalty scheduled_programs instance_data channel +
    AlgorithmUtils.get_early_termination_penalty scheduled_programs instance_data program
      schedule_time

/-- Claim C9: `AlgorithmUtils.get_delay_penalty` returns 0 on every input, so
the candidate score used by `get_best_fit` (greedy, lookahead, the advanced
beam core, the local-search replace) and the segment fitness used by
`BeamSearchScheduler` (`_beam_search`, `_backtrack_improve`,
`_score_full_schedule`) both equal the same sum without the delay term: the
delay-penalty term of the scoring model is disabled in every strategy. -/
theorem delay_penalty_disabled :
    (∀ (scheduled_programs : List Schedule) (instance_data : InstanceData)
        (program : Program) (schedule_time : Int),
      AlgorithmUtils.get_delay_penalty scheduled_programs instance_data program schedule_time
        = 0) ∧
    (∀ (scheduled_programs : List Schedule) (instance_data : InstanceData)
        (schedule_time : Int) (channel : Channel) (program : Program),
      AlgorithmUtils.candidateScore scheduled_programs instance_data schedule_time channel
          program =
        scoreWithoutDelay scheduled_programs instance_data schedule_time channel program) ∧
    (∀ (instance_data : InstanceData) (plan : List Schedule) (ch : Channel) (prog : Program)
        (seg_start seg_stop : Int),
      BeamSearchScheduler.segmentFitness instance_data plan ch prog seg_start seg_stop =
        scoreWithoutDelay plan instance_data seg_start ch
          (BeamSearchScheduler.virtual_program prog seg_start seg_stop)) := by
  refine ⟨fun _ _ _ _ => rfl, fun s i t c p => ?_, fun i pl c p s e => ?_⟩
  · unfold AlgorithmUtils.candidateScore scoreWithoutDelay AlgorithmUtils.get_delay_penalty
    ring
  · unfold BeamSearchScheduler.segmentFitness scoreWithoutDelay
      AlgorithmUtils.get_delay_penalty BeamSearchScheduler.virtual_program
    ring

/-! ### Claim C2: the scoring model (spec-side definitions) -/

/-- Spec side, C2: the time-preference bonus as the specification words it —
the sum of the bonuses of every Time Preference whose preferred genre equals
the program's genre and whose half-open interval overlaps the program's
(possibly truncated) air interval `[start, end)`. -/
def specTimePreferenceBonus (instance_data : InstanceData) (program : Program) : Int :=
  ((instance_data.time_preferences.filter
      (fun preference => decide (program.genre = preference.preferred_genre ∧
        program.start < preference.stop ∧ program.stop > preference.start))).map
    (fun preference => preference.bonus)).sum

/-- Spec side, C2: "the previous schedule entry's channel differs from the
candidate channel". -/
def specSwitchCharged (scheduled_programs : List Schedule) (channel : Channel) : Bool :=
  match scheduled_programs.getLast? with
  | none => false
  | some last_schedule => last_schedule.channel_id ≠ channel.channel_id

/-- Spec side, C2 as worded by the claim: the previous entry's program is
different AND the candidate's start precedes the previous entry's *natural
(untruncated)* end, i.e. the end of the program the previous entry aired
(recovered through its unique program id), not the entry's recorded end. -/
def specEarlyChargedNatural (instance_data : InstanceData)
    (scheduled_programs : List Schedule) (program : Program) : Bool :=
  match scheduled_programs.getLast? with
  | none => false
  | some last_schedule =>
      decide (last_schedule.unique_program_id ≠ program.unique_id) &&
      (match Utils.get_program_by_unique_id instance_data last_schedule.unique_program_id with
       | some aired => decide (program.start < aired.stop)
       | none => false)

/-- Amended early-termination condition: the comparison is against the
previous entry's *recorded* (possibly truncated) end. -/
def specEarlyChargedRecorded (scheduled_programs : List Schedule) (program : Program) : Bool :=
  match scheduled_programs.getLast? with
  | none => false
  | some last_schedule =>
      decide (last_schedule.unique_program_id ≠ program.unique_id) &&
      decide (program.start < last_schedule.stop)

/-- The fitness delta exactly as claim C2 words it (natural-end early
termination). -/
def specClaimedDelta (instance_data : InstanceData) (scheduled_programs : List Schedule)
    (channel : Channel) (program : Program) : Int :=
  program.score + specTimePreferenceBonus instance_data program -
    (if specSwitchCharged scheduled_programs channel then instance_data.switch_penalty else 0) -
    (if specEarlyChargedNatural instance_data scheduled_programs program then
      instance_data.termination_penalty else 0)

theorem foldl_if_sum {α : Type} (p : α → Prop) [DecidablePred p] (f : α → Int) (l : List α)
    (a : Int) :
    l.foldl (fun s x => if p x then s + f x else s) a =
      a + ((l.filter (fun x => decide (p x))).map f).sum := by
  induction l generalizing a with
  | nil => simp
  | cons x xs ih =>
      by_cases h : p x
      · simp only [List.foldl_cons, if_pos h, List.filter_cons, decide_eq_true h, if_pos,
          List.map_cons, List.sum_cons, ih]
        ring
      · simp only [List.foldl_cons, if_neg h, List.filter_cons, decide_eq_false h,
          Bool.false_eq_true, if_false, ih]

theorem time_preference_bonus_eq (instance_data : InstanceData) (program : Program)
    (schedule_time : Int) :
    AlgorithmUtils.get_time_preference_bonus instance_data program schedule_time =
      specTimePreferenceBonus instance_data program := by
  unfold AlgorithmUtils.get_time_preference_bonus specTimePreferenceBonus
  rw [foldl_if_sum (fun preference => program.genre = preference.preferred_genre ∧
    program.start < preference.stop ∧ program.stop > preference.start)
    (fun preference => preference.bonus) instance_data.time_preferences 0]
  omega

theorem switch_penalty_eq (scheduled_programs : List Schedule) (instance_data : InstanceData)
    (channel : Channel) :
    AlgorithmUtils.get_switch_penalty scheduled_programs instance_data channel =
      -(if specSwitchCharged scheduled_programs channel then instance_data.switch_penalty
        else 0) := by
  unfold AlgorithmUtils.get_switch_penalty specSwitchCharged
  cases scheduled_programs.getLast? with
  | none => simp
  | some last_schedule =>
      by_cases h : last_schedule.channel_id ≠ channel.channel_id
      · simp [h]
      · simp [h]

theorem early_termination_eq (scheduled_programs : List Schedule)
    (instance_data : InstanceData) (program : Program) (schedule_time : Int) :
    AlgorithmUtils.get_early_termination_penalty scheduled_programs instance_data program
        schedule_time =
      -(if specEarlyChargedRecorded scheduled_programs program then
        instance_data.termination_penalty else 0) := by
  unfold AlgorithmUtils.get_early_termination_penalty specEarlyChargedRecorded
  cases scheduled_programs.getLast? with
  | none => simp
  | some last_schedule =>
      dsimp only
      by_cases h : last_schedule.unique_program_id ≠ program.unique_id ∧
          program.start < last_schedule.stop
      · rw [if_pos h]
        have hb : (decide (last_schedule.unique_program_id ≠ program.unique_id) &&
            decide (program.start < last_schedule.stop)) = true := by
          simp [h.1, h.2]
        rw [hb]
        simp
      · rw [if_neg h]
        have hb : (decide (last_schedule.unique_program_id ≠ program.unique_id) &&
            decide (program.start < last_schedule.stop)) = false := by
          rcases Decidable.not_and_iff_or_not.mp h with h1 | h1 <;> simp [h1]
        rw [hb]
        simp

/-- Claim C2 (amended): the per-candidate score of `get_best_fit` is
`base_score + time_preference_bonus − switch_penalty_if_channel_changed −
early_termination_penalty`, with the bonus summing every genre-matching,
interval-overlapping time preference, the switch penalty charged exactly when
the previous entry's channel differs, and the early-termination penalty
charged exactly when the previous entry holds a different program and the
candidate program's start precedes the previous entry's *recorded* (possibly
truncated) end — not its program's natural end as the original claim
states. -/
theorem scoring_model_decomposition (scheduled_programs : List Schedule)
    (instance_data : InstanceData) (schedule_time : Int) (channel : Channel)
    (program : Program) :
    AlgorithmUtils.candidateScore scheduled_programs instance_data schedule_time channel
        program =
      program.score + specTimePreferenceBonus instance_data program -
        (if specSwitchCharged scheduled_programs channel then instance_data.switch_penalty
          else 0) -
        (if specEarlyChargedRecorded scheduled_programs program then
          instance_data.termination_penalty else 0) := by
  unfold AlgorithmUtils.candidateScore AlgorithmUtils.get_delay_penalty
  rw [time_preference_bonus_eq, switch_penalty_eq, early_termination_eq]
  ring

/-- The concrete scene refuting C2 as stated: the previous entry aired
program `X` (natural interval `[0,50)`) truncated to `[0,30)`; the candidate
`Y` starts at 40. -/
def c2prev : Schedule :=
  { channel_id := 1, program_id := "X", start := 0, stop := 30, fitness := 9,
    unique_program_id := "x" }

def c2progX : Program :=
  { program_id := "X", start := 0, stop := 50, genre := "g", score := 9, unique_id := "x" }

def c2progY : Program :=
  { program_id := "Y", start := 40, stop := 60, genre := "h", score := 5, unique_id := "y" }

def c2chan2 : Channel := { channel_id := 2, programs := [c2progY] }

def c2inst : InstanceData :=
  { opening_time := 0, closing_time := 60, min_duration := 10, max_consecutive_genre := 5,
    channels_count := 2, switch_penalty := 0, termination_penalty := 7,
    priority_blocks := [], time_preferences := [],
    channels := [{ channel_id := 1, programs := [c2progX] }, c2chan2] }

/-- Counterexample to claim C2 as stated: the code computes 5 for this
candidate (no early-termination charge, since `Y.start = 40` is not before
the previous entry's recorded end 30), while the claimed formula — which
compares against the aired program's natural end 50 — yields `5 − 7 = −2`. -/
theorem scoring_model_natural_end_cex :
    AlgorithmUtils.candidateScore [c2prev] c2inst 40 c2chan2 c2progY = 5 ∧
    specClaimedDelta c2inst [c2prev] c2chan2 c2progY = -2 ∧
    AlgorithmUtils.candidateScore [c2prev] c2inst 40 c2chan2 c2progY ≠
      specClaimedDelta c2inst [c2prev] c2chan2 c2progY := by
  refine ⟨by decide, by decide, by decide⟩

/-! ### Claim C1: the validator predicate (spec-side conditions) -/

/-- Spec side, C1 condition (1): `time` lies in
`[opening, closing - min_duration]`. -/
def specCond1 (instance_data : InstanceData) (schedule_time : Int) : Prop :=
  instance_data.opening_time ≤ schedule_time ∧
    schedule_time ≤ instance_data.closing_time - instance_data.min_duration

/-- Spec side, C1 condition (2): if the partial schedule is non-empty,
`time ≥ last_entry.start + min_duration`. -/
def specCond2 (instance_data : InstanceData) (schedule_plan : List Schedule)
    (schedule_time : Int) : Prop :=
  ∀ last_schedule, schedule_plan.getLast? = some last_schedule →
    last_schedule.start + instance_data.min_duration ≤ schedule_time

/-- Spec side, C1 condition (3)'s backward run: the length of the maximal
suffix of the plan whose entries' programs (by unique id) carry genre `g`. -/
def specGenreRun (instance_data : InstanceData) (schedule_plan : List Schedule)
    (g : String) : Nat :=
  (schedule_plan.reverse.takeWhile (fun sch =>
    match Utils.get_program_by_unique_id instance_data sch.unique_program_id with
    | some p => p.genre == g
    | none => false)).length

/-- Spec side, C1 condition (3): the backward run for the candidate
channel's current program genre satisfies `count + 1 < max_consecutive_genre`
(vacuous when the channel airs nothing at `time`). -/
def specCond3 (instance_data : InstanceData) (schedule_plan : List Schedule)
    (channel_index : Nat) (schedule_time : Int) : Prop :=
  ∀ program, Utils.get_channel_program_by_time
      (instance_data.channels.getD channel_index emptyChannel) schedule_time = some program →
    (specGenreRun instance_data schedule_plan program.genre : Int) + 1 <
      instance_data.max_consecutive_genre

/-- Spec side, C1 condition (4): every priority block containing `time` (or
starting strictly between `time` and `time + min_duration`) must allow the
candidate channel. -/
def specCond4 (instance_data : InstanceData) (channel_index : Nat)
    (schedule_time : Int) : Prop :=
  ∀ block ∈ instance_data.priority_blocks,
    ((block.start ≤ schedule_time ∧ schedule_time < block.stop) ∨
      (schedule_time < block.start ∧ block.start < schedule_time + instance_data.min_duration)) →
    (instance_data.channels.getD channel_index emptyChannel).channel_id ∈ block.allowed_channels

theorem genreRunCount_eq_spec (instance_data : InstanceData) (schedule_plan : List Schedule)
    (g : String) :
    Validator.genreRunCount instance_data schedule_plan g =
      specGenreRun instance_data schedule_plan g := by
  unfold Validator.genreRunCount specGenreRun
  generalize schedule_plan.reverse = l
  induction l with
  | nil => rfl
  | cons sch rest ih =>
      unfold Validator.genreRunCountAux
      cases hl : Utils.get_program_by_unique_id instance_data sch.unique_program_id with
      | none => simp [List.takeWhile_cons, hl]
      | some p =>
          by_cases hg : p.genre = g
          · simp [List.takeWhile_cons, hl, hg, ih]
          · simp [List.takeWhile_cons, hl, hg]

theorem validate_schedule_time_iff (instance_data : InstanceData) (schedule_time : Int)
    (hD : 0 ≤ instance_data.min_duration) :
    Validator.validate_schedule_time instance_data schedule_time = true ↔
      specCond1 instance_data schedule_time := by
  unfold Validator.validate_schedule_time specCond1
  simp only [Bool.not_eq_true', decide_eq_false_iff_not]
  push_neg
  omega

theorem validate_min_duration_iff (instance_data : InstanceData)
    (schedule_plan : List Schedule) (schedule_time : Int) :
    Validator.validate_min_duration schedule_plan instance_data schedule_time = true ↔
      specCond2 instance_data schedule_plan schedule_time := by
  unfold Validator.validate_min_duration specCond2
  cases h : schedule_plan.getLast? with
  | none => simp
  | some last_schedule =>
      simp only [Bool.not_eq_true', decide_eq_false_iff_not, not_lt, Option.some.injEq]
      constructor
      · rintro hle l rfl
        exact hle
      · intro hall
        exact hall last_schedule rfl

theorem validate_max_consecutive_genre_iff (instance_data : InstanceData)
    (schedule_plan : List Schedule) (channel_index : Nat) (schedule_time : Int) :
    Validator.validate_max_consecutive_genre schedule_plan instance_data channel_index
        schedule_time = true ↔
      (schedule_plan ≠ [] →
        specCond3 instance_data schedule_plan channel_index schedule_time) := by
  unfold Validator.validate_max_consecutive_genre specCond3
  cases schedule_plan with
  | nil => simp
  | cons a rest =>
      dsimp only
      cases hp : Utils.get_channel_program_by_time
          (instance_data.channels.getD channel_index emptyChannel) schedule_time with
      | none => simp [hp]
      | some program =>
          simp only [hp, Bool.not_eq_true', decide_eq_false_iff_not, not_le, ne_eq,
            reduceCtorEq, not_false_eq_true, forall_const, Option.some.injEq]
          rw [genreRunCount_eq_spec]
          constructor
          · rintro hlt q rfl
            exact hlt
          · intro hall
            exact hall program rfl

theorem validate_priority_time_block_iff (instance_data : InstanceData)
    (channel_index : Nat) (schedule_time : Int) :
    Validator.validate_priority_time_block instance_data channel_index schedule_time = true ↔
      specCond4 instance_data channel_index schedule_time := by
  unfold Validator.validate_priority_time_block specCond4
  rw [List.all_eq_true]
  constructor
  · intro hall block hmem hcond
    have := hall block hmem
    simp only [Bool.not_eq_true', decide_eq_false_iff_not, not_and, not_not] at this
    exact this hcond
  · intro hall block hmem
    simp only [Bool.not_eq_true', decide_eq_false_iff_not, not_and, not_not]
    exact hall block hmem

/-- Claim C1 (amended): for a non-negative dwell duration,
`is_channel_valid` holds iff conditions (1), (2) and (4) hold and condition
(3) holds *whenever the partial schedule is non-empty* (the genre check is
skipped entirely for the first placement, so `count + 1 < max` is not
required of an empty plan). -/
theorem is_channel_valid_iff (instance_data : InstanceData) (schedule_plan : List Schedule)
    (channel_index : Nat) (schedule_time : Int)
    (hD : 0 ≤ instance_data.min_duration) :
    Validator.is_channel_valid schedule_plan instance_data channel_index schedule_time
        = true ↔
      (specCond1 instance_data schedule_time ∧
       specCond2 instance_data schedule_plan schedule_time ∧
       (schedule_plan ≠ [] →
         specCond3 instance_data schedule_plan channel_index schedule_time) ∧
       specCond4 instance_data channel_index schedule_time) := by
  unfold Validator.is_channel_valid
  simp only [Bool.and_eq_true]
  rw [validate_schedule_time_iff instance_data schedule_time hD,
    validate_min_duration_iff, validate_max_consecutive_genre_iff,
    validate_priority_time_block_iff]
  tauto

def c1progP : Program :=
  { program_id := "P", start := 0, stop := 30, genre := "g", score := 10, unique_id := "p" }

/-- `max_consecutive_genre = 1`: the boundary instance on which the
validator and the claim's condition list disagree. -/
def c1inst : InstanceData :=
  { opening_time := 0, closing_time := 60, min_duration := 10, max_consecutive_genre := 1,
    channels_count := 1, switch_penalty := 0, termination_penalty := 0,
    priority_blocks := [], time_preferences := [],
    channels := [{ channel_id := 1, programs := [c1progP] }] }

/-- Counterexample to claim C1 as stated: on an empty partial schedule with
`max_consecutive_genre = 1` the validator accepts (its genre check returns
before comparing anything), while the claimed condition (3) demands
`0 + 1 < 1` and fails — so `is_channel_valid` is not equivalent to the
claim's four conditions. -/
theorem is_channel_valid_cex :
    Validator.is_channel_valid [] c1inst 0 0 = true ∧
    ¬ (specCond1 c1inst 0 ∧ specCond2 c1inst [] 0 ∧ specCond3 c1inst [] 0 0 ∧
        specCond4 c1inst 0 0) := by
  constructor
  · decide
  · rintro ⟨-, -, h3, -⟩
    have hp : Utils.get_channel_program_by_time (c1inst.channels.getD 0 emptyChannel) 0 =
        some c1progP := by decide
    have := h3 c1progP hp
    have hrun : specGenreRun c1inst [] c1progP.genre = 0 := by decide
    rw [hrun] at this
    have hmax : c1inst.max_consecutive_genre = 1 := by decide
    omega

/-- Witness for the amended C1 at a concrete input. -/
theorem is_channel_valid_iff_witness :
    0 ≤ c1inst.min_duration ∧
    (Validator.is_channel_valid [] c1inst 0 0 = true ↔
      (specCond1 c1inst 0 ∧ specCond2 c1inst [] 0 ∧
        (([] : List Schedule) ≠ [] → specCond3 c1inst [] 0 0) ∧ specCond4 c1inst 0 0)) :=
  ⟨by decide, is_channel_valid_iff c1inst [] 0 0 (by decide)⟩

/-! ### Claim C6: the boundary greedy scenario -/

def c6progA : Program :=
  { program_id := "A", start := 0, stop := 30, genre := "news", score := 10, unique_id := "uA" }

def c6progB : Program :=
  { program_id := "B", start := 30, stop := 60, genre := "news", score := 10, unique_id := "uB" }

/-- The §8 scenario instance: opening 0, closing 60, `min_duration` 10,
`max_consecutive_genre` 2, one channel airing A `[0,30)` and B `[30,60)`,
both genre `news`, both score 10, no preferences / penalties / blocks. -/
def c6inst : InstanceData :=
  { opening_time := 0, closing_time := 60, min_duration := 10, max_consecutive_genre := 2,
    channels_count := 1, switch_penalty := 0, termination_penalty := 0,
    priority_blocks := [], time_preferences := [],
    channels := [{ channel_id := 1, programs := [c6progA, c6progB] }] }

def c6entryA : Schedule :=
  { channel_id := 1, program_id := "A", start := 0, stop := 30, fitness := 10,
    unique_program_id := "uA" }

/-- Counterexample to claim C6 as stated: on the boundary scenario the
greedy scheduler returns ONE entry (A) with total score 10 — scheduling B
after A would make a same-genre run of 2 and the validator's
`count + 1 >= max_consecutive_genre` check (1 + 1 ≥ 2) rejects it — so it
does not return two entries with total score 20. -/
theorem greedy_boundary_scenario_cex :
    (GreedyScheduler.generate_solution c6inst).scheduled_programs.length = 1 ∧
    (GreedyScheduler.generate_solution c6inst).total_score = 10 ∧
    ¬ ((GreedyScheduler.generate_solution c6inst).scheduled_programs.length = 2 ∧
        (GreedyScheduler.generate_solution c6inst).total_score = 20) := by
  refine ⟨by decide, by decide, ?_⟩
  rintro ⟨h, -⟩
  have : (GreedyScheduler.generate_solution c6inst).scheduled_programs.length = 1 := by decide
  omega

/-- Claim C6 (amended): on the boundary scenario greedy returns exactly the
single entry `A[0,30)` with `total_score = 10`; the second same-genre
placement is rejected by the consecutive-genre rule at its limit. -/
theorem greedy_boundary_scenario :
    GreedyScheduler.generate_solution c6inst =
      { scheduled_programs := [c6entryA], total_score := 10 } := by
  decide

/-! ### Claim C8: monotone improvement of the refinement passes -/

/-- Claim C8: `_backtrack_improve` never returns a total score below the one
it was given, and the iterative scheduler's local-search phase
(`_apply_local_search` over `_local_search_replace` / `_local_search_swap`)
never returns a Solution scoring below the one it was given — for every
input schedule, configuration and deadline-oracle behaviour. -/
theorem refinement_monotone :
    (∀ (instance_data : InstanceData) (cfg : BeamSearchScheduler.BSConfig)
        (scheduled : List Schedule) (total_score window : Int),
      total_score ≤
        (BeamSearchScheduler.backtrack_improve instance_data cfg scheduled total_score
          window).2) ∧
    (∀ (instance_data : InstanceData) (cfg : BeyondDynamic.BDConfig)
        (dl : BeyondDynamic.Deadline) (best_solution : Solution) (k0 : Nat),
      best_solution.total_score ≤
        ((BeyondDynamic.apply_local_search instance_data cfg dl best_solution k0).1).total_score) := by
  constructor
  · intro instance_data cfg scheduled total_score window
    unfold BeamSearchScheduler.backtrack_improve
    by_cases h0 : scheduled.length = 0 ∨ window ≤ 0
    · rw [if_pos h0]
    · rw [if_neg h0]
      dsimp only
      split
      · omega
      · exact le_refl _
  · intro instance_data cfg dl best_solution k0
    unfold BeyondDynamic.apply_local_search
    dsimp only
    refine foldl_invariant
      (fun acc : List Schedule × Int × Nat × Bool => best_solution.total_score ≤ acc.2.1)
      _ (List.range cfg.local_search_passes.toNat)
      ((best_solution.scheduled_programs, best_solution.total_score, k0, false))
      (le_refl _) ?_
    intro x a hx
    unfold BeyondDynamic.lsPass
    rcases x with ⟨bs, sc, k, stopped⟩
    simp only at hx
    dsimp only
    split
    · exact hx
    · split
      · exact hx
      · split
        · next hgt => simp only; omega
        · split
          · next hgt => simp only; omega
          · exact hx

/-! ### Greedy loop structure (shared by several claims) -/

theorem foldl_invariant_mem {α β : Type} (P : β → Prop) (f : β → α → β) (l : List α) (b : β)
    (hb : P b) (hf : ∀ x a, a ∈ l → P x → P (f x a)) : P (List.foldl f b l) := by
  induction l generalizing b with
  | nil => exact hb
  | cons a t ih =>
      exact ih (f b a) (hf b a (List.mem_cons_self a t) hb)
        (fun x a' ha' hx => hf x a' (List.mem_cons_of_mem a ha') hx)

theorem getD_mem {α : Type} (l : List α) (i : Nat) (d : α) (h : i < l.length) :
    l.getD i d ∈ l := by
  induction l generalizing i with
  | nil => simp at h
  | cons a t ih =>
      cases i with
      | zero => simp [List.getD]
      | succ j =>
          simp only [List.getD_cons_succ]
          exact List.mem_cons_of_mem a (ih j (by simpa using h))

theorem progAt_sound {channel : Channel} {t : Int} {p : Program}
    (h : Utils.get_channel_program_by_time channel t = some p) :
    p ∈ channel.programs ∧ p.start ≤ t ∧ t < p.stop := by
  refine ⟨List.mem_of_find?_eq_some h, ?_⟩
  have := List.find?_some h
  simpa using this

theorem mem_get_valid_schedules {schedule_plan : List Schedule}
    {instance_data : InstanceData} {schedule_time : Int} {i : Nat}
    (h : i ∈ SchedulerUtils.get_valid_schedules schedule_plan instance_data schedule_time) :
    i < instance_data.channels.length ∧
      Validator.is_channel_valid schedule_plan instance_data i schedule_time = true := by
  unfold SchedulerUtils.get_valid_schedules at h
  rw [List.mem_filter] at h
  exact ⟨List.mem_range.mp h.1, h.2⟩


theorem get_best_fit_sound {schedule_plan : List Schedule} {instance_data : InstanceData}
    {schedule_time : Int} {idxs : List Nat} {ch : Channel} {prog : Program} {s : Int}
    (h : AlgorithmUtils.get_best_fit schedule_plan instance_data schedule_time idxs =
      (some ch, some prog, s)) :
    ∃ i ∈ idxs, ch = instance_data.channels.getD i emptyChannel ∧
      Utils.get_channel_program_by_time ch schedule_time = some prog ∧
      s = AlgorithmUtils.candidateScore schedule_plan instance_data schedule_time ch prog ∧
      0 < s := by
  unfold AlgorithmUtils.get_best_fit at h
  have inv := foldl_invariant_mem
    (fun acc : Option Channel × Option Program × Int =>
      acc = (none, none, 0) ∨
      ∃ i ∈ idxs, ∃ p,
        Utils.get_channel_program_by_time (instance_data.channels.getD i emptyChannel)
            schedule_time = some p ∧
        0 < AlgorithmUtils.candidateScore schedule_plan instance_data schedule_time
            (instance_data.channels.getD i emptyChannel) p ∧
        acc = (some (instance_data.channels.getD i emptyChannel), some p,
          AlgorithmUtils.candidateScore schedule_plan instance_data schedule_time
            (instance_data.channels.getD i emptyChannel) p))
    (fun acc channel_index =>
      let channel := instance_data.channels.getD channel_index emptyChannel
      match Utils.get_channel_program_by_time channel schedule_time with
      | none => acc
      | some program =>
          let score := AlgorithmUtils.candidateScore schedule_plan instance_data schedule_time
            channel program
          if score > acc.2.2 then (some channel, some program, score) else acc)
    idxs (none, none, 0) (Or.inl rfl) ?_
  · rw [h] at inv
    rcases inv with heq | ⟨i, hi, p, hp, hpos, heq⟩
    · simp at heq
    · simp only [Prod.mk.injEq, Option.some.injEq] at heq
      obtain ⟨hch, hprog, hs⟩ := heq
      subst hch
      subst hprog
      subst hs
      exact ⟨i, hi, rfl, hp, rfl, hpos⟩
  · intro acc a ha hacc
    dsimp only
    cases hp : Utils.get_channel_program_by_time
        (instance_data.channels.getD a emptyChannel) schedule_time with
    | none => simpa [hp] using hacc
    | some program =>
        simp only [hp]
        by_cases hgt : AlgorithmUtils.candidateScore schedule_plan instance_data schedule_time
            (instance_data.channels.getD a emptyChannel) program > acc.2.2
        · rw [if_pos hgt]
          right
          refine ⟨a, ha, program, hp, ?_, rfl⟩
          rcases hacc with heq | ⟨_, _, _, _, hpos, heq⟩
          · rw [heq] at hgt
            exact hgt
          · rw [heq] at hgt
            dsimp at hgt
            omega
        · rw [if_neg hgt]
          exact hacc

/-- Everything true of a greedy commit: whenever one `while`-body iteration
extends the schedule, the appended entry comes from a validator-approved
channel's program airing at the scan time, carries the program's natural
(untruncated) interval, meets the minimum duration, does not start before
the previous entry's end, and the scan time jumps to the program's end. -/
theorem greedyBody_commit (instance_data : InstanceData) (st : GreedyScheduler.GState)
    (h : (GreedyScheduler.greedyBody instance_data st).solution ≠ st.solution) :
    ∃ i program fitness,
      i < instance_data.channels.length ∧
      Validator.is_channel_valid st.solution instance_data i st.time = true ∧
      Utils.get_channel_program_by_time (instance_data.channels.getD i emptyChannel) st.time
        = some program ∧
      instance_data.min_duration ≤ program.stop - program.start ∧
      program.start ≤ st.time ∧ st.time < program.stop ∧
      (∀ last_schedule, st.solution.getLast? = some last_schedule →
        last_schedule.stop ≤ program.start) ∧
      0 < fitness ∧
      (GreedyScheduler.greedyBody instance_data st).solution = st.solution ++
        [{ channel_id := (instance_data.channels.getD i emptyChannel).channel_id,
           program_id := program.program_id, start := program.start, stop := program.stop,
           fitness := fitness, unique_program_id := program.unique_id }] ∧
      (GreedyScheduler.greedyBody instance_data st).time = program.stop ∧
      (GreedyScheduler.greedyBody instance_data st).total_score =
        st.total_score + fitness := by
  revert h
  unfold GreedyScheduler.greedyBody
  dsimp only
  split
  · intro h
    exact absurd rfl h
  next hvalid =>
    split
    next best_channel channel_program fitness heq =>
      split
      · intro h
        exact absurd rfl h
      next hfit =>
        split
        · intro h
          exact absurd rfl h
        next hdup =>
          split
          · intro h
            exact absurd rfl h
          next hover =>
            split
            · intro h
              exact absurd rfl h
            next hdur =>
              intro _
              obtain ⟨i, hi, hch, hp, hs, hpos⟩ := get_best_fit_sound heq
              obtain ⟨hlen, hvalidator⟩ := mem_get_valid_schedules hi
              subst hch
              obtain ⟨-, hairs, hairt⟩ := progAt_sound hp
              refine ⟨i, channel_program, fitness, hlen, hvalidator, hp, by omega, hairs,
                hairt, ?_, hpos, rfl, rfl, rfl⟩
              intro last_schedule hlast
              rw [hlast] at hover
              simp only [decide_eq_true_eq] at hover
              omega
    all_goals
      intro h
      exact absurd rfl h

theorem greedyLoop_invariant (instance_data : InstanceData) (P : GreedyScheduler.GState → Prop)
    (hstep : ∀ st, P st → P (GreedyScheduler.greedyBody instance_data st)) :
    ∀ fuel st, P st → P (GreedyScheduler.greedyLoop instance_data fuel st) := by
  intro fuel
  induction fuel with
  | zero => intro st hst; exact hst
  | succ n ih =>
      intro st hst
      unfold GreedyScheduler.greedyLoop
      split
      · exact ih _ (hstep st hst)
      · exact hst

theorem chain'_append_singleton {α : Type} {R : α → α → Prop} {l : List α} {e : α}
    (hc : List.Chain' R l) (hl : ∀ last, l.getLast? = some last → R last e) :
    List.Chain' R (l ++ [e]) := by
  rw [List.chain'_append]
  refine ⟨hc, List.chain'_singleton e, ?_⟩
  intro x hx y hy
  simp only [List.head?_cons, Option.mem_def, Option.some.injEq] at hy
  subst hy
  exact hl x hx

/-- An entry of a greedy schedule: some channel's program, aired at its
natural interval, of at least the minimum duration. -/
def GreedyEntryOk (instance_data : InstanceData) (e : Schedule) : Prop :=
  ∃ channel ∈ instance_data.channels, ∃ program ∈ channel.programs,
    e.channel_id = channel.channel_id ∧ e.program_id = program.program_id ∧
    e.start = program.start ∧ e.stop = program.stop ∧
    e.unique_program_id = program.unique_id ∧
    instance_data.min_duration ≤ program.stop - program.start ∧
    program.start < program.stop

theorem greedyBody_entries_ok (instance_data : InstanceData) (st : GreedyScheduler.GState)
    (hok : ∀ e ∈ st.solution, GreedyEntryOk instance_data e)
    (hchain : List.Chain' (fun a b => a.stop ≤ b.start) st.solution) :
    (∀ e ∈ (GreedyScheduler.greedyBody instance_data st).solution,
      GreedyEntryOk instance_data e) ∧
    List.Chain' (fun a b => a.stop ≤ b.start)
      (GreedyScheduler.greedyBody instance_data st).solution := by
  by_cases hch : (GreedyScheduler.greedyBody instance_data st).solution = st.solution
  · rw [hch]
    exact ⟨hok, hchain⟩
  · obtain ⟨i, program, fitness, hlen, -, hp, hdur, hairs, hairt, hprev, -, hsol, -, -⟩ :=
      greedyBody_commit instance_data st hch
    rw [hsol]
    constructor
    · intro e he
      rcases List.mem_append.mp he with he | he
      · exact hok e he
      · simp only [List.mem_singleton] at he
        subst he
        exact ⟨instance_data.channels.getD i emptyChannel, getD_mem _ _ _ hlen, program,
          (progAt_sound hp).1, rfl, rfl, rfl, rfl, rfl, hdur, by omega⟩
    · exact chain'_append_singleton hchain (fun last hlast => hprev last hlast)

/-- Claim C10: (a) whenever a greedy iteration commits, the appended entry
uses the chosen program's natural untruncated interval, the program airs at
the scan time, meets `min_duration`, does not start before the previous
entry's end, and the scan time jumps to the program's end; (b) consequently
every entry of a greedy solution is some channel's program at its natural
interval with natural duration at least `min_duration`, and adjacent entries
satisfy `previous.end ≤ next.start`. -/
theorem greedy_commit_shape :
    (∀ (instance_data : InstanceData) (st : GreedyScheduler.GState),
      (GreedyScheduler.greedyBody instance_data st).solution ≠ st.solution →
      ∃ channel program fitness, channel ∈ instance_data.channels ∧
        Utils.get_channel_program_by_time channel st.time = some program ∧
        instance_data.min_duration ≤ program.stop - program.start ∧
        (∀ last_schedule, st.solution.getLast? = some last_schedule →
          last_schedule.stop ≤ program.start) ∧
        (GreedyScheduler.greedyBody instance_data st).solution = st.solution ++
          [{ channel_id := channel.channel_id, program_id := program.program_id,
             start := program.start, stop := program.stop, fitness := fitness,
             unique_program_id := program.unique_id }] ∧
        (GreedyScheduler.greedyBody instance_data st).time = program.stop) ∧
    (∀ instance_data : InstanceData,
      (∀ e ∈ (GreedyScheduler.generate_solution instance_data).scheduled_programs,
        GreedyEntryOk instance_data e) ∧
      List.Chain' (fun a b => a.stop ≤ b.start)
        (GreedyScheduler.generate_solution instance_data).scheduled_programs) := by
  constructor
  · intro instance_data st h
    obtain ⟨i, program, fitness, hlen, -, hp, hdur, -, -, hprev, -, hsol, htime, -⟩ :=
      greedyBody_commit instance_data st h
    exact ⟨instance_data.channels.getD i emptyChannel, program, fitness,
      getD_mem _ _ _ hlen, hp, hdur, hprev, hsol, htime⟩
  · intro instance_data
    have := greedyLoop_invariant instance_data
      (fun st => (∀ e ∈ st.solution, GreedyEntryOk instance_data e) ∧
        List.Chain' (fun a b => a.stop ≤ b.start) st.solution)
      (fun st hst => greedyBody_entries_ok instance_data st hst.1 hst.2)
      (instance_data.closing_time - instance_data.opening_time).toNat
      { time := instance_data.opening_time, total_score := 0, solution := [] }
      (by constructor <;> simp)
    exact this

/-- Witness for C10's commit clause at a concrete input: the first greedy
iteration on the boundary scenario instance commits program A. -/
theorem greedy_commit_shape_witness :
    (GreedyScheduler.greedyBody c6inst
        { time := 0, total_score := 0, solution := [] }).solution ≠
      ({ time := 0, total_score := 0, solution := [] } : GreedyScheduler.GState).solution ∧
    (∃ channel program fitness, channel ∈ c6inst.channels ∧
      Utils.get_channel_program_by_time channel (0 : Int) = some program ∧
      c6inst.min_duration ≤ program.stop - program.start ∧
      (∀ last_schedule, ([] : List Schedule).getLast? = some last_schedule →
        last_schedule.stop ≤ program.start) ∧
      (GreedyScheduler.greedyBody c6inst
          { time := 0, total_score := 0, solution := [] }).solution = [] ++
        [{ channel_id := channel.channel_id, program_id := program.program_id,
           start := program.start, stop := program.stop, fitness := fitness,
           unique_program_id := program.unique_id }] ∧
      (GreedyScheduler.greedyBody c6inst
          { time := 0, total_score := 0, solution := [] }).time = program.stop) :=
  ⟨by decide, greedy_commit_shape.1 c6inst { time := 0, total_score := 0, solution := [] }
    (by decide)⟩

/-! ### Claim C4: well-formedness of produced schedules -/

theorem mem_ite_singleton {α : Type} {c : Prop} [inst : Decidable c] {x v : α}
    (h : x ∈ (if c then [v] else ([] : List α))) : x = v ∧ c := by
  by_cases hc : c
  · rw [if_pos hc] at h
    simp only [List.mem_singleton] at h
    exact ⟨h, hc⟩
  · rw [if_neg hc] at h
    cases h

theorem segEndsList_le {arr : List Int} {seg_start D pstop E x : Int}
    (h : x ∈ BeamSearchScheduler.segEndsList arr seg_start D pstop E) : x ≤ E := by
  unfold BeamSearchScheduler.segEndsList at h
  rw [mem_sortedDedup] at h
  rcases List.mem_append.mp h with h | h
  · rcases List.mem_append.mp h with h | h
    · simp only [List.mem_singleton] at h
      subst h
      exact min_le_right _ _
    · unfold BeamSearchScheduler.segWindowEnds at h
      rw [List.mem_filter] at h
      have := of_decide_eq_true h.2
      exact this.2.2
  · obtain ⟨rfl, hc⟩ := mem_ite_singleton h
    exact hc.2

theorem segChosen_subset {arr : List Int} {seg_start D pstop E x : Int}
    (h : x ∈ BeamSearchScheduler.segChosen arr seg_start D pstop E) :
    x ∈ BeamSearchScheduler.segEndsList arr seg_start D pstop E ∨ x = min pstop E := by
  unfold BeamSearchScheduler.segChosen at h
  dsimp only at h
  have h4 := List.mem_of_mem_take h
  rcases List.mem_append.mp h4 with h3 | hlast
  · rcases List.mem_append.mp h3 with h2 | hmid
    · rcases List.mem_append.mp h2 with h1 | hhead
      · obtain ⟨rfl, -⟩ := mem_ite_singleton h1
        right
        rfl
      · revert hhead
        cases hh : (BeamSearchScheduler.segEndsList arr seg_start D pstop E).head? with
        | none => intro hhead; cases hhead
        | some hd =>
            dsimp only
            intro hhead
            obtain ⟨rfl, -⟩ := mem_ite_singleton hhead
            exact Or.inl (List.mem_of_mem_head? (by rw [hh]; rfl))
    · obtain ⟨rfl, hlen⟩ := mem_ite_singleton hmid
      exact Or.inl (getD_mem _ _ _ (Nat.div_lt_self (by omega) (by omega)))
  · obtain ⟨rfl, hc⟩ := mem_ite_singleton hlast
    exact Or.inl hc.2

theorem segment_options_sound {instance_data : InstanceData} {current_time : Int}
    {prog : Program} {s e : Int}
    (h : (s, e) ∈ BeamSearchScheduler.segment_options instance_data current_time prog) :
    s = max (max current_time prog.start) instance_data.opening_time ∧
    e ≤ instance_data.closing_time ∧ instance_data.min_duration ≤ e - s := by
  unfold BeamSearchScheduler.segment_options at h
  dsimp only at h
  split at h
  · cases h
  · rw [List.mem_map] at h
    obtain ⟨e', he', heq⟩ := h
    rw [List.mem_filter] at he'
    simp only [Prod.mk.injEq] at heq
    obtain ⟨hs, he⟩ := heq
    subst hs
    subst he
    refine ⟨rfl, ?_, by simpa using of_decide_eq_true he'.2⟩
    rcases segChosen_subset he'.1 with hmem | hfull
    · exact segEndsList_le hmem
    · subst hfull
      exact min_le_right _ _

/-- Well-formedness of a (partial) beam schedule: every entry inside the
operating window with `start ≤ stop`, and adjacent entries non-overlapping. -/
def BeamWF (instance_data : InstanceData) (plan : List Schedule) : Prop :=
  (∀ e ∈ plan, instance_data.opening_time ≤ e.start ∧
    e.stop ≤ instance_data.closing_time ∧ e.start ≤ e.stop) ∧
  List.Chain' (fun a b => a.stop ≤ b.start) plan

theorem beamWF_append {instance_data : InstanceData} {plan : List Schedule} {entry : Schedule}
    (hwf : BeamWF instance_data plan)
    (h1 : instance_data.opening_time ≤ entry.start)
    (h2 : entry.stop ≤ instance_data.closing_time)
    (h3 : entry.start ≤ entry.stop)
    (hlast : ∀ last, plan.getLast? = some last → last.stop ≤ entry.start) :
    BeamWF instance_data (plan ++ [entry]) := by
  constructor
  · intro e he
    rcases List.mem_append.mp he with he | he
    · exact hwf.1 e he
    · simp only [List.mem_singleton] at he
      subst he
      exact ⟨h1, h2, h3⟩
  · exact chain'_append_singleton hwf.2 hlast

theorem channelSuccessors_WF {instance_data : InstanceData} {st : BeamSearchScheduler.BeamState}
    {i : Nat} (hwf : BeamWF instance_data st.plan) :
    ∀ st' ∈ BeamSearchScheduler.channelSuccessors instance_data st i,
      BeamWF instance_data st'.plan := by
  intro st' hmem
  unfold BeamSearchScheduler.channelSuccessors at hmem
  dsimp only at hmem
  revert hmem
  cases hp : Utils.get_channel_program_by_time
      (instance_data.channels.getD i emptyChannel) st.time with
  | none => intro hmem; cases hmem
  | some prog =>
      dsimp only
      split
      · intro hmem; cases hmem
      · intro hmem
        rw [List.mem_filterMap] at hmem
        obtain ⟨se, hse, hf⟩ := hmem
        obtain ⟨s, e⟩ := se
        dsimp only at hf
        split at hf
        · cases hf
        · split at hf
          · cases hf
          next hlt hover =>
            injection hf with hf
            subst hf
            dsimp only
            obtain ⟨hs, hE, hD⟩ := segment_options_sound hse
            rw [not_not] at hlt
            refine beamWF_append hwf ?_ hE ?_ ?_
            · show instance_data.opening_time ≤ s
              rw [hs]
              exact le_max_right _ _
            · show s ≤ e
              omega
            · intro last hlast
              rw [hlast] at hover
              simp only [decide_eq_true_eq] at hover
              show last.stop ≤ s
              omega

theorem btChannelSuccessors_WF {instance_data : InstanceData}
    {node : BeamSearchScheduler.BeamState} {i : Nat}
    (hD : 0 ≤ instance_data.min_duration) (hwf : BeamWF instance_data node.plan) :
    ∀ st' ∈ BeamSearchScheduler.btChannelSuccessors instance_data node i,
      BeamWF instance_data st'.plan := by
  intro st' hmem
  unfold BeamSearchScheduler.btChannelSuccessors at hmem
  dsimp only at hmem
  revert hmem
  cases hp : Utils.get_channel_program_by_time
      (instance_data.channels.getD i emptyChannel) node.time with
  | none => intro hmem; cases hmem
  | some prog =>
      dsimp only
      intro hmem
      rw [List.mem_filterMap] at hmem
      obtain ⟨se, hse, hf⟩ := hmem
      obtain ⟨s, e⟩ := se
      dsimp only at hf
      split at hf
      · cases hf
      next hover =>
        injection hf with hf
        subst hf
        dsimp only
        obtain ⟨hs, hE, hDs⟩ := segment_options_sound hse
        refine beamWF_append hwf ?_ hE ?_ ?_
        · show instance_data.opening_time ≤ s
          rw [hs]
          exact le_max_right _ _
        · show s ≤ e
          omega
        · intro last hlast
          rw [hlast] at hover
          simp only [decide_eq_true_eq] at hover
          show last.stop ≤ s
          omega

theorem jumpState_plan (instance_data : InstanceData) (tc dc : Int)
    (st : BeamSearchScheduler.BeamState) :
    (BeamSearchScheduler.jumpState instance_data tc dc st).plan = st.plan := rfl

theorem expandState_WF {instance_data : InstanceData} {cfg : BeamSearchScheduler.BSConfig}
    {st : BeamSearchScheduler.BeamState} (hwf : BeamWF instance_data st.plan) :
    ∀ st' ∈ BeamSearchScheduler.expandState instance_data cfg st,
      BeamWF instance_data st'.plan := by
  intro st' hmem
  unfold BeamSearchScheduler.expandState at hmem
  dsimp only at hmem
  split at hmem
  · simp only [List.mem_singleton] at hmem
    subst hmem
    exact hwf
  · split at hmem
    · simp only [List.mem_singleton] at hmem
      subst hmem
      exact hwf
    · rw [List.mem_flatMap] at hmem
      obtain ⟨i, -, hmem⟩ := hmem
      exact channelSuccessors_WF hwf st' hmem

theorem nlargest_mem {k : Nat} {xs : List BeamSearchScheduler.BeamState}
    {st : BeamSearchScheduler.BeamState} (h : st ∈ BeamSearchScheduler.nlargest k xs) :
    st ∈ xs := by
  unfold BeamSearchScheduler.nlargest at h
  exact mem_sortBy.mp (List.mem_of_mem_take h)

theorem scanBest_WF {instance_data : InstanceData} {closing : Int}
    {states : List BeamSearchScheduler.BeamState} {best : Option Int × List Schedule}
    (hstates : ∀ st ∈ states, BeamWF instance_data st.plan)
    (hbest : BeamWF instance_data best.2) :
    BeamWF instance_data (BeamSearchScheduler.scanBest closing states best).2 := by
  unfold BeamSearchScheduler.scanBest
  refine foldl_invariant_mem
    (fun acc : Option Int × List Schedule => BeamWF instance_data acc.2) _ states best hbest ?_
  intro acc st hst hacc
  dsimp only
  split
  · exact hstates st hst
  · exact hacc

theorem beamLoop_WF {instance_data : InstanceData} {cfg : BeamSearchScheduler.BSConfig} :
    ∀ (fuel : Nat) (beam : List BeamSearchScheduler.BeamState)
      (best : Option Int × List Schedule),
      (∀ st ∈ beam, BeamWF instance_data st.plan) → BeamWF instance_data best.2 →
      BeamWF instance_data
        (BeamSearchScheduler.beamLoop instance_data cfg fuel beam best).2 := by
  intro fuel
  induction fuel with
  | zero => intro beam best hbeam hbest; exact hbest
  | succ n ih =>
      intro beam best hbeam hbest
      unfold BeamSearchScheduler.beamLoop
      split
      · exact hbest
      · dsimp only
        have hcand : ∀ st ∈ beam.flatMap (fun st =>
            if instance_data.closing_time ≤ st.time then []
            else BeamSearchScheduler.expandState instance_data cfg st),
            BeamWF instance_data st.plan := by
          intro st hst
          rw [List.mem_flatMap] at hst
          obtain ⟨st0, hst0, hst⟩ := hst
          revert hst
          split
          · intro hst; cases hst
          · intro hst
            exact expandState_WF (hbeam st0 hst0) st hst
        split
        · exact scanBest_WF hbeam hbest
        · have hbeam' : ∀ st ∈ BeamSearchScheduler.nlargest cfg.beam_width.toNat
              (beam.flatMap (fun st =>
                if instance_data.closing_time ≤ st.time then []
                else BeamSearchScheduler.expandState instance_data cfg st)),
              BeamWF instance_data st.plan :=
            fun st hst => hcand st (nlargest_mem hst)
          exact ih _ _ hbeam'
            (scanBest_WF hbeam' (scanBest_WF hbeam hbest))

theorem beam_search_WF (instance_data : InstanceData) (cfg : BeamSearchScheduler.BSConfig) :
    BeamWF instance_data (BeamSearchScheduler.beam_search instance_data cfg).1 := by
  unfold BeamSearchScheduler.beam_search
  dsimp only
  have h := @beamLoop_WF instance_data cfg
    ((instance_data.closing_time - instance_data.opening_time).toNat + 2)
    [{ score := 0, time := instance_data.opening_time, plan := [] }]
    ((none : Option Int), ([] : List Schedule))
    (by
      intro st hst
      simp only [List.mem_singleton] at hst
      subst hst
      exact ⟨by simp, by simp⟩)
    ⟨by simp, by simp⟩
  split
  · exact ⟨by simp, by simp⟩
  · exact h

theorem maxByScore_mem (nodes : List BeamSearchScheduler.BeamState)
    (dflt : BeamSearchScheduler.BeamState) :
    BeamSearchScheduler.maxByScore nodes dflt ∈ nodes ∨
      BeamSearchScheduler.maxByScore nodes dflt = dflt := by
  unfold BeamSearchScheduler.maxByScore
  cases nodes with
  | nil => exact Or.inr rfl
  | cons n rest =>
      left
      refine foldl_invariant_mem (fun acc => acc ∈ n :: rest) _ rest n
        (List.mem_cons_self n rest) ?_
      intro acc nd hnd hacc
      dsimp only
      split
      · exact List.mem_cons_of_mem n hnd
      · exact hacc

theorem backtrackRound_WF {instance_data : InstanceData} {cfg : BeamSearchScheduler.BSConfig}
    {node : BeamSearchScheduler.BeamState}
    (hD : 0 ≤ instance_data.min_duration) (hwf : BeamWF instance_data node.plan) :
    ∀ st' ∈ BeamSearchScheduler.backtrackRound instance_data cfg node,
      BeamWF instance_data st'.plan := by
  intro st' hmem
  unfold BeamSearchScheduler.backtrackRound at hmem
  dsimp only at hmem
  split at hmem
  · simp only [List.mem_singleton] at hmem
    subst hmem
    exact hwf
  · split at hmem
    · simp only [List.mem_singleton] at hmem
      subst hmem
      exact hwf
    · split at hmem
      · simp only [List.mem_singleton] at hmem
        subst hmem
        exact hwf
      · have := mem_sortBy.mp (List.mem_of_mem_take hmem)
        rw [List.mem_flatMap] at this
        obtain ⟨i, -, hmem'⟩ := this
        exact btChannelSuccessors_WF hD hwf st' hmem'

theorem backtrackNodes_WF {instance_data : InstanceData} {cfg : BeamSearchScheduler.BSConfig}
    (hD : 0 ≤ instance_data.min_duration) :
    ∀ (depth : Nat) (nodes : List BeamSearchScheduler.BeamState),
      (∀ nd ∈ nodes, BeamWF instance_data nd.plan) →
      ∀ nd ∈ BeamSearchScheduler.backtrackNodes instance_data cfg depth nodes,
        BeamWF instance_data nd.plan := by
  intro depth
  induction depth with
  | zero => intro nodes hnodes; exact hnodes
  | succ d ih =>
      intro nodes hnodes
      unfold BeamSearchScheduler.backtrackNodes
      refine ih _ ?_
      intro nd hnd
      rw [List.mem_flatMap] at hnd
      obtain ⟨nd0, hnd0, hnd⟩ := hnd
      exact backtrackRound_WF hD (hnodes nd0 hnd0) nd hnd

theorem take_WF {instance_data : InstanceData} {plan : List Schedule}
    (hwf : BeamWF instance_data plan) (k : Nat) :
    BeamWF instance_data (plan.take k) := by
  exact ⟨fun e he => hwf.1 e (List.mem_of_mem_take he), hwf.2.take k⟩

theorem backtrack_improve_WF {instance_data : InstanceData}
    {cfg : BeamSearchScheduler.BSConfig} {scheduled : List Schedule} {total window : Int}
    (hD : 0 ≤ instance_data.min_duration) (hwf : BeamWF instance_data scheduled) :
    BeamWF instance_data
      (BeamSearchScheduler.backtrack_improve instance_data cfg scheduled total window).1 := by
  unfold BeamSearchScheduler.backtrack_improve
  dsimp only
  split
  · exact hwf
  · have hfront := take_WF hwf (scheduled.length - min window.toNat scheduled.length)
    have hmax : ∀ (nodes : List BeamSearchScheduler.BeamState)
        (start_node : BeamSearchScheduler.BeamState),
        (∀ nd ∈ nodes, BeamWF instance_data nd.plan) →
        BeamWF instance_data start_node.plan →
        BeamWF instance_data (BeamSearchScheduler.maxByScore nodes start_node).plan := by
      intro nodes start_node h1 h2
      rcases maxByScore_mem nodes start_node with hmem | heq
      · exact h1 _ hmem
      · rw [heq]
        exact h2
    split
    · exact hmax _ _
        (backtrackNodes_WF hD _ _ (by
          intro nd hnd
          simp only [List.mem_singleton] at hnd
          subst hnd
          exact hfront))
        hfront
    · exact hwf

theorem beam_generate_WF (instance_data : InstanceData)
    (cfg : BeamSearchScheduler.BSConfig) (hD : 0 ≤ instance_data.min_duration) :
    BeamWF instance_data
      (BeamSearchScheduler.generate_from_config instance_data cfg).scheduled_programs := by
  unfold BeamSearchScheduler.generate_from_config
  dsimp only
  split
  · exact backtrack_improve_WF hD (beam_search_WF instance_data cfg)
  · exact beam_search_WF instance_data cfg

theorem chain_start_of_chain_stop {l : List Schedule}
    (h : List.Chain' (fun a b => a.stop ≤ b.start) l)
    (hs : ∀ e ∈ l, e.start ≤ e.stop) :
    List.Chain' (fun a b : Schedule => a.start ≤ b.start) l := by
  rw [List.chain'_iff_get] at h ⊢
  intro i hi
  have h1 := h i hi
  have h2 := hs (l.get ⟨i, by omega⟩) (List.get_mem l i (by omega))
  omega

/-- One channel, one program `[0,100)` spilling past `closing_time = 60`. -/
def c4oowInst : InstanceData :=
  { opening_time := 0, closing_time := 60, min_duration := 10, max_consecutive_genre := 5,
    channels_count := 1, switch_penalty := 0, termination_penalty := 0,
    priority_blocks := [], time_preferences := [],
    channels := [{ channel_id := 1, programs :=
      [{ program_id := "L", start := 0, stop := 100, genre := "g", score := 10,
         unique_id := "L" }] }] }

def c4oowEntry : Schedule :=
  { channel_id := 1, program_id := "L", start := 0, stop := 100, fitness := 10,
    unique_program_id := "L" }

/-- One channel, one program `[0,30)` already airing when the window opens at
`opening_time = 10`. -/
def c4openInst : InstanceData :=
  { opening_time := 10, closing_time := 60, min_duration := 10, max_consecutive_genre := 5,
    channels_count := 1, switch_penalty := 0, termination_penalty := 0,
    priority_blocks := [], time_preferences := [],
    channels := [{ channel_id := 1, programs :=
      [{ program_id := "E", start := 0, stop := 30, genre := "g", score := 10,
         unique_id := "E" }] }] }

def c4openEntry : Schedule :=
  { channel_id := 1, program_id := "E", start := 0, stop := 30, fitness := 10,
    unique_program_id := "E" }

/-- Counterexample to claim C4 as stated: greedy always commits the chosen
program at its natural interval, so the returned Solution can leave the
operating window on both sides — on `c4oowInst` the last entry ends at 100,
beyond `closing_time = 60`, and on `c4openInst` the first entry starts at 0,
before `opening_time = 10`. -/
theorem solution_window_cex :
    ((GreedyScheduler.generate_solution c4oowInst).scheduled_programs.getLast? =
      some c4oowEntry ∧
    ¬ (∀ e ∈ (GreedyScheduler.generate_solution c4oowInst).scheduled_programs,
        e.stop ≤ c4oowInst.closing_time)) ∧
    ((GreedyScheduler.generate_solution c4openInst).scheduled_programs.head? =
      some c4openEntry ∧
    ¬ (∀ e ∈ (GreedyScheduler.generate_solution c4openInst).scheduled_programs,
        c4openInst.opening_time ≤ e.start)) := by
  refine ⟨⟨by decide, ?_⟩, by decide, ?_⟩
  · intro hall
    have := hall c4oowEntry (by decide)
    revert this
    decide
  · intro hall
    have := hall c4openEntry (by decide)
    revert this
    decide

/-- Two channels; a priority block keeps channel 2 out until channel 1's
short program has been committed, after which the lookahead scheduler
commits channel 2's still-airing program at its natural start 0 — before the
previous entry. -/
def c4lookInst : InstanceData :=
  { opening_time := 0, closing_time := 60, min_duration := 5, max_consecutive_genre := 10,
    channels_count := 2, switch_penalty := 0, termination_penalty := 0,
    priority_blocks := [{ start := 0, stop := 10, allowed_channels := [1] }],
    time_preferences := [],
    channels :=
      [{ channel_id := 1, programs :=
          [{ program_id := "A", start := 10, stop := 20, genre := "a", score := 10,
             unique_id := "ua" }] },
       { channel_id := 2, programs :=
          [{ program_id := "B", start := 0, stop := 60, genre := "b", score := 5,
             unique_id := "ub" }] }] }

/-- Claim C4 (amended): (a) greedy solutions are sorted by start with
non-overlapping adjacent entries, and — provided every program of the
instance lies inside `[opening, closing)` — all entries stay inside the
operating window; (b) beam-search solutions (any parameters, non-negative
dwell time) are sorted, non-overlapping, and inside the window
unconditionally; (c) the lookahead scheduler does NOT satisfy the ordering
property: on `c4lookInst` it returns entries that are not sorted by start
and that overlap. -/
theorem solution_wellformed :
    (∀ instance_data : InstanceData,
      (List.Chain' (fun a b => a.stop ≤ b.start)
        (GreedyScheduler.generate_solution instance_data).scheduled_programs ∧
       List.Chain' (fun a b : Schedule => a.start ≤ b.start)
        (GreedyScheduler.generate_solution instance_data).scheduled_programs) ∧
      ((∀ ch ∈ instance_data.channels, ∀ p ∈ ch.programs,
          instance_data.opening_time ≤ p.start ∧ p.stop ≤ instance_data.closing_time) →
        ∀ e ∈ (GreedyScheduler.generate_solution instance_data).scheduled_programs,
          instance_data.opening_time ≤ e.start ∧ e.stop ≤ instance_data.closing_time)) ∧
    (∀ (instance_data : InstanceData) (beam_width : Int) (validate_constraints : Bool)
        (jump_cap backtrack_window : Int),
      0 ≤ instance_data.min_duration →
      List.Chain' (fun a b => a.stop ≤ b.start)
        (BeamSearchScheduler.generate_solution instance_data beam_width validate_constraints
          jump_cap backtrack_window).scheduled_programs ∧
      List.Chain' (fun a b : Schedule => a.start ≤ b.start)
        (BeamSearchScheduler.generate_solution instance_data beam_width validate_constraints
          jump_cap backtrack_window).scheduled_programs ∧
      (∀ e ∈ (BeamSearchScheduler.generate_solution instance_data beam_width
          validate_constraints jump_cap backtrack_window).scheduled_programs,
        instance_data.opening_time ≤ e.start ∧ e.stop ≤ instance_data.closing_time)) ∧
    ¬ List.Chain' (fun a b : Schedule => a.start ≤ b.start)
      (GreedyLookahead.generate_solution c4lookInst).scheduled_programs := by
  refine ⟨?_, ?_, ?_⟩
  · intro instance_data
    have hinv := (greedy_commit_shape.2 instance_data)
    have hchain := hinv.2
    have hok := hinv.1
    have hstartstop : ∀ e ∈ (GreedyScheduler.generate_solution instance_data).scheduled_programs,
        e.start ≤ e.stop := by
      intro e he
      obtain ⟨ch, -, p, -, -, -, hes, hep, -, -, hlt⟩ := hok e he
      omega
    refine ⟨⟨hchain, chain_start_of_chain_stop hchain hstartstop⟩, ?_⟩
    intro hwindow e he
    obtain ⟨ch, hch, p, hp, -, -, hes, hep, -, -, -⟩ := hok e he
    have := hwindow ch hch p hp
    omega
  · intro instance_data beam_width validate_constraints jump_cap backtrack_window hD
    have hwf := beam_generate_WF instance_data
      (BeamSearchScheduler.mkConfig beam_width validate_constraints jump_cap backtrack_window)
      hD
    refine ⟨hwf.2, chain_start_of_chain_stop hwf.2 (fun e he => (hwf.1 e he).2.2), ?_⟩
    exact fun e he => ⟨(hwf.1 e he).1, (hwf.1 e he).2.1⟩
  · intro hchain
    have hent : (GreedyLookahead.generate_solution c4lookInst).scheduled_programs =
        [{ channel_id := 1, program_id := "A", start := 10, stop := 20, fitness := 15,
           unique_program_id := "ua" },
         { channel_id := 2, program_id := "B", start := 0, stop := 60, fitness := 5,
           unique_program_id := "ub" }] := by decide
    rw [hent, List.chain'_cons] at hchain
    have h10 := hchain.1
    revert h10
    decide

/-- Witness for the amended C4's beam clause at a concrete input. -/
theorem solution_wellformed_witness :
    0 ≤ c6inst.min_duration ∧
    (List.Chain' (fun a b => a.stop ≤ b.start)
      (BeamSearchScheduler.generate_solution c6inst 3 true 30 4).scheduled_programs ∧
     List.Chain' (fun a b : Schedule => a.start ≤ b.start)
      (BeamSearchScheduler.generate_solution c6inst 3 true 30 4).scheduled_programs ∧
     (∀ e ∈ (BeamSearchScheduler.generate_solution c6inst 3 true 30 4).scheduled_programs,
        c6inst.opening_time ≤ e.start ∧ e.stop ≤ c6inst.closing_time)) :=
  ⟨by decide, (solution_wellformed.2.1) c6inst 3 true 30 4 (by decide)⟩

/-! ### Claim C5: consecutive same-genre runs in returned schedules -/

/-- All programs of the instance, in channel order. -/
def allPrograms (instance_data : InstanceData) : List Program :=
  instance_data.channels.flatMap (fun ch => ch.programs)

/-- Well-formed instances assign distinct `unique_id`s (the parser-assigned
"internally assigned unique instance id" of the data model). -/
def UniqueIds (instance_data : InstanceData) : Prop :=
  ∀ p ∈ allPrograms instance_data, ∀ q ∈ allPrograms instance_data,
    p.unique_id = q.unique_id → p = q

theorem lookup_self {instance_data : InstanceData} {p : Program}
    (hU : UniqueIds instance_data) (hp : p ∈ allPrograms instance_data) :
    Utils.get_program_by_unique_id instance_data p.unique_id = some p := by
  unfold Utils.get_program_by_unique_id
  cases hf : (instance_data.channels.flatMap (fun ch => ch.programs)).find?
      (fun q => q.unique_id == p.unique_id) with
  | none =>
      exfalso
      have := List.find?_eq_none.mp hf p hp
      simp at this
  | some q =>
      have hqmem := List.mem_of_find?_eq_some hf
      have hqeq := List.find?_some hf
      simp only [beq_iff_eq] at hqeq
      rw [hU q hqmem p hp hqeq]

/-- The genre the claim's run measure assigns to an entry: the genre of the
program recovered through the entry's unique program id. -/
def entryGenre (instance_data : InstanceData) (e : Schedule) : Option String :=
  (Utils.get_program_by_unique_id instance_data e.unique_program_id).map (fun p => p.genre)

/-- Streak-scanning step for the run measure: current genre, current streak,
maximal streak seen. -/
def genreStreakStep (instance_data : InstanceData) (acc : Option String × Nat × Nat)
    (e : Schedule) : Option String × Nat × Nat :=
  match entryGenre instance_data e with
  | none => (none, 0, acc.2.2)
  | some g =>
      let streak := if acc.1 = some g then acc.2.1 + 1 else 1
      (some g, streak, max acc.2.2 streak)

def genreStreakFold (instance_data : InstanceData) (plan : List Schedule) :
    Option String × Nat × Nat :=
  plan.foldl (genreStreakStep instance_data) (none, 0, 0)

/-- The length of the longest run of consecutive entries sharing the same
(resolvable) genre. -/
def maxGenreRun (instance_data : InstanceData) (plan : List Schedule) : Nat :=
  (genreStreakFold instance_data plan).2.2

theorem genreRunCount_append (instance_data : InstanceData) (plan : List Schedule)
    (e : Schedule) (g : String) :
    Validator.genreRunCount instance_data (plan ++ [e]) g =
      (match entryGenre instance_data e with
       | some ge => if ge = g then Validator.genreRunCount instance_data plan g + 1 else 0
       | none => 0) := by
  unfold Validator.genreRunCount
  rw [List.reverse_append]
  simp only [List.reverse_cons, List.reverse_nil, List.nil_append, List.singleton_append]
  rw [Validator.genreRunCountAux]
  unfold entryGenre
  cases hl : Utils.get_program_by_unique_id instance_data e.unique_program_id with
  | none => rfl
  | some p => dsimp only [Option.map]

theorem genreStreakFold_append (instance_data : InstanceData) (plan : List Schedule)
    (e : Schedule) :
    genreStreakFold instance_data (plan ++ [e]) =
      genreStreakStep instance_data (genreStreakFold instance_data plan) e := by
  unfold genreStreakFold
  rw [List.foldl_append]
  rfl

theorem streak_spec (instance_data : InstanceData) (plan : List Schedule) :
    ∀ g, Validator.genreRunCount instance_data plan g =
      (if (genreStreakFold instance_data plan).1 = some g then
        (genreStreakFold instance_data plan).2.1 else 0) := by
  induction plan using List.reverseRecOn with
  | nil =>
      intro g
      simp [Validator.genreRunCount, Validator.genreRunCountAux, genreStreakFold]
  | append_singleton plan e ih =>
      intro g
      rw [genreRunCount_append, genreStreakFold_append]
      unfold genreStreakStep
      cases he : entryGenre instance_data e with
      | none => simp
      | some ge =>
          dsimp only
          by_cases hg : ge = g
          · subst hg
            rw [if_pos rfl, if_pos rfl, ih ge]
            by_cases hprev : (genreStreakFold instance_data plan).1 = some ge
            · rw [if_pos hprev, if_pos hprev]
            · rw [if_neg hprev, if_neg hprev]
          · rw [if_neg hg, if_neg ?_]
            intro hc
            injection hc with hc
            exact hg hc
  
theorem maxGenreRun_append (instance_data : InstanceData) (plan : List Schedule)
    (e : Schedule) :
    maxGenreRun instance_data (plan ++ [e]) =
      (match entryGenre instance_data e with
       | none => maxGenreRun instance_data plan
       | some ge => max (maxGenreRun instance_data plan)
          (Validator.genreRunCount instance_data plan ge + 1)) := by
  unfold maxGenreRun
  rw [genreStreakFold_append]
  unfold genreStreakStep
  cases he : entryGenre instance_data e with
  | none => rfl
  | some ge =>
      dsimp only
      rw [streak_spec instance_data plan ge]
      by_cases hprev : (genreStreakFold instance_data plan).1 = some ge
      · rw [if_pos hprev, if_pos hprev]
      · rw [if_neg hprev, if_neg hprev]

theorem maxGenreRun_le_append (instance_data : InstanceData) (plan rest : List Schedule) :
    maxGenreRun instance_data plan ≤ maxGenreRun instance_data (plan ++ rest) := by
  induction rest using List.reverseRecOn with
  | nil => simp
  | append_singleton rest e ih =>
      rw [← List.append_assoc, maxGenreRun_append]
      cases entryGenre instance_data e with
      | none => exact ih
      | some ge => exact le_trans ih (le_max_left _ _)

theorem maxGenreRun_take (instance_data : InstanceData) (plan : List Schedule) (k : Nat) :
    maxGenreRun instance_data (plan.take k) ≤ maxGenreRun instance_data plan := by
  have := maxGenreRun_le_append instance_data (plan.take k) (plan.drop k)
  rwa [List.take_append_drop] at this

/-- The run bound every validator-gated append maintains. -/
def runBound (instance_data : InstanceData) : Int :=
  max (instance_data.max_consecutive_genre - 1) 1

/-- A genre-gated append: if the validator's consecutive-genre check accepted
channel `i` at time `t` against `plan`, and the appended entry carries the
unique id of the program airing there, then the longest same-genre run stays
within `max(max_consecutive_genre - 1, 1)`. -/
theorem gated_append_run_bound {instance_data : InstanceData}
    (hU : UniqueIds instance_data) {plan : List Schedule} {i : Nat} {t : Int}
    {prog : Program} {e : Schedule}
    (hvalid : Validator.validate_max_consecutive_genre plan instance_data i t = true)
    (hp : Utils.get_channel_program_by_time (instance_data.channels.getD i emptyChannel) t =
      some prog)
    (he : e.unique_program_id = prog.unique_id)
    (hb : (maxGenreRun instance_data plan : Int) ≤ runBound instance_data) :
    (maxGenreRun instance_data (plan ++ [e]) : Int) ≤ runBound instance_data := by
  have hmem : prog ∈ allPrograms instance_data := by
    by_cases hlen : i < instance_data.channels.length
    · have hchan := getD_mem instance_data.channels i emptyChannel hlen
      have hpm := (progAt_sound hp).1
      unfold allPrograms
      rw [List.mem_flatMap]
      exact ⟨_, hchan, hpm⟩
    · exfalso
      rw [List.getD_eq_default _ _ (by omega)] at hp
      cases hp
  have hEg : entryGenre instance_data e = some prog.genre := by
    unfold entryGenre
    rw [he, lookup_self hU hmem]
    rfl
  rw [maxGenreRun_append, hEg]
  dsimp only
  have hcount : (Validator.genreRunCount instance_data plan prog.genre : Int) + 1 ≤
      runBound instance_data := by
    cases plan with
    | nil =>
        have : Validator.genreRunCount instance_data [] prog.genre = 0 := rfl
        rw [this]
        unfold runBound
        omega
    | cons a rest =>
        unfold Validator.validate_max_consecutive_genre at hvalid
        dsimp only at hvalid
        rw [hp] at hvalid
        simp only [Bool.not_eq_true', decide_eq_false_iff_not, not_le] at hvalid
        unfold runBound
        omega
  push_cast
  omega

theorem scanBest_Q {Q : List Schedule → Prop} {closing : Int}
    {states : List BeamSearchScheduler.BeamState} {best : Option Int × List Schedule}
    (hstates : ∀ st ∈ states, Q st.plan) (hbest : Q best.2) :
    Q (BeamSearchScheduler.scanBest closing states best).2 := by
  unfold BeamSearchScheduler.scanBest
  refine foldl_invariant_mem (fun acc : Option Int × List Schedule => Q acc.2) _ states best
    hbest ?_
  intro acc st hst hacc
  dsimp only
  split
  · exact hstates st hst
  · exact hacc

theorem beamLoop_Q {instance_data : InstanceData} {cfg : BeamSearchScheduler.BSConfig}
    {Q : List Schedule → Prop}
    (hexp : ∀ st : BeamSearchScheduler.BeamState, Q st.plan →
      ∀ st' ∈ BeamSearchScheduler.expandState instance_data cfg st, Q st'.plan) :
    ∀ (fuel : Nat) (beam : List BeamSearchScheduler.BeamState)
      (best : Option Int × List Schedule),
      (∀ st ∈ beam, Q st.plan) → Q best.2 →
      Q (BeamSearchScheduler.beamLoop instance_data cfg fuel beam best).2 := by
  intro fuel
  induction fuel with
  | zero => intro beam best hbeam hbest; exact hbest
  | succ n ih =>
      intro beam best hbeam hbest
      unfold BeamSearchScheduler.beamLoop
      split
      · exact hbest
      · dsimp only
        have hcand : ∀ st ∈ beam.flatMap (fun st =>
            if instance_data.closing_time ≤ st.time then []
            else BeamSearchScheduler.expandState instance_data cfg st), Q st.plan := by
          intro st hst
          rw [List.mem_flatMap] at hst
          obtain ⟨st0, hst0, hst⟩ := hst
          revert hst
          split
          · intro hst; cases hst
          · intro hst
            exact hexp st0 (hbeam st0 hst0) st hst
        split
        · exact scanBest_Q hbeam hbest
        · have hbeam' : ∀ st ∈ BeamSearchScheduler.nlargest cfg.beam_width.toNat
              (beam.flatMap (fun st =>
                if instance_data.closing_time ≤ st.time then []
                else BeamSearchScheduler.expandState instance_data cfg st)), Q st.plan :=
            fun st hst => hcand st (nlargest_mem hst)
          exact ih _ _ hbeam' (scanBest_Q hbeam' (scanBest_Q hbeam hbest))

theorem backtrackNodes_Q {instance_data : InstanceData} {cfg : BeamSearchScheduler.BSConfig}
    {Q : List Schedule → Prop}
    (hround : ∀ nd : BeamSearchScheduler.BeamState, Q nd.plan →
      ∀ nd' ∈ BeamSearchScheduler.backtrackRound instance_data cfg nd, Q nd'.plan) :
    ∀ (depth : Nat) (nodes : List BeamSearchScheduler.BeamState),
      (∀ nd ∈ nodes, Q nd.plan) →
      ∀ nd ∈ BeamSearchScheduler.backtrackNodes instance_data cfg depth nodes, Q nd.plan := by
  intro depth
  induction depth with
  | zero => intro nodes hnodes; exact hnodes
  | succ d ih =>
      intro nodes hnodes
      unfold BeamSearchScheduler.backtrackNodes
      refine ih _ ?_
      intro nd hnd
      rw [List.mem_flatMap] at hnd
      obtain ⟨nd0, hnd0, hnd⟩ := hnd
      exact hround nd0 (hnodes nd0 hnd0) nd hnd

theorem generate_Q (instance_data : InstanceData) (cfg : BeamSearchScheduler.BSConfig)
    (Q : List Schedule → Prop)
    (hnil : Q [])
    (htake : ∀ (plan : List Schedule) (k : Nat), Q plan → Q (plan.take k))
    (hexp : ∀ st : BeamSearchScheduler.BeamState, Q st.plan →
      ∀ st' ∈ BeamSearchScheduler.expandState instance_data cfg st, Q st'.plan)
    (hround : ∀ nd : BeamSearchScheduler.BeamState, Q nd.plan →
      ∀ nd' ∈ BeamSearchScheduler.backtrackRound instance_data cfg nd, Q nd'.plan) :
    Q (BeamSearchScheduler.generate_from_config instance_data cfg).scheduled_programs := by
  have hsearch : Q (BeamSearchScheduler.beam_search instance_data cfg).1 := by
    unfold BeamSearchScheduler.beam_search
    dsimp only
    have h := beamLoop_Q hexp
      ((instance_data.closing_time - instance_data.opening_time).toNat + 2)
      [{ score := 0, time := instance_data.opening_time, plan := [] }]
      ((none : Option Int), ([] : List Schedule))
      (by
        intro st hst
        simp only [List.mem_singleton] at hst
        subst hst
        exact hnil)
      hnil
    split
    · exact hnil
    · exact h
  have hbt : ∀ (scheduled : List Schedule) (total window : Int), Q scheduled →
      Q (BeamSearchScheduler.backtrack_improve instance_data cfg scheduled total window).1 := by
    intro scheduled total window hq
    unfold BeamSearchScheduler.backtrack_improve
    dsimp only
    split
    · exact hq
    · have hfront := htake scheduled (scheduled.length - min window.toNat scheduled.length) hq
      have hmax : ∀ (nodes : List BeamSearchScheduler.BeamState)
          (start_node : BeamSearchScheduler.BeamState),
          (∀ nd ∈ nodes, Q nd.plan) → Q start_node.plan →
          Q (BeamSearchScheduler.maxByScore nodes start_node).plan := by
        intro nodes start_node h1 h2
        rcases maxByScore_mem nodes start_node with hmem | heq
        · exact h1 _ hmem
        · rw [heq]
          exact h2
      split
      · exact hmax _ _
          (backtrackNodes_Q hround _ _ (by
            intro nd hnd
            simp only [List.mem_singleton] at hnd
            subst hnd
            exact hfront))
          hfront
      · exact hq
  unfold BeamSearchScheduler.generate_from_config
  dsimp only
  split
  · exact hbt _ _ _ hsearch
  · exact hsearch

theorem is_channel_valid_genre {schedule_plan : List Schedule} {instance_data : InstanceData}
    {i : Nat} {t : Int}
    (h : Validator.is_channel_valid schedule_plan instance_data i t = true) :
    Validator.validate_max_consecutive_genre schedule_plan instance_data i t = true := by
  unfold Validator.is_channel_valid at h
  simp only [Bool.and_eq_true] at h
  exact h.1.2

/-- The run-bound predicate threaded through the beam search. -/
def RunBounded (instance_data : InstanceData) (plan : List Schedule) : Prop :=
  (maxGenreRun instance_data plan : Int) ≤ runBound instance_data

theorem channelSuccessors_gated {instance_data : InstanceData}
    {st : BeamSearchScheduler.BeamState} {i : Nat} (hU : UniqueIds instance_data)
    (hval : Validator.is_channel_valid st.plan instance_data i st.time = true)
    (hq : RunBounded instance_data st.plan) :
    ∀ st' ∈ BeamSearchScheduler.channelSuccessors instance_data st i,
      RunBounded instance_data st'.plan := by
  intro st' hmem
  unfold BeamSearchScheduler.channelSuccessors at hmem
  dsimp only at hmem
  revert hmem
  cases hp : Utils.get_channel_program_by_time
      (instance_data.channels.getD i emptyChannel) st.time with
  | none => intro hmem; cases hmem
  | some prog =>
      dsimp only
      split
      · intro hmem; cases hmem
      · intro hmem
        rw [List.mem_filterMap] at hmem
        obtain ⟨se, hse, hf⟩ := hmem
        obtain ⟨s, e⟩ := se
        dsimp only at hf
        split at hf
        · cases hf
        · split at hf
          · cases hf
          · injection hf with hf
            subst hf
            exact gated_append_run_bound hU (is_channel_valid_genre hval) hp rfl hq

theorem btChannelSuccessors_gated {instance_data : InstanceData}
    {node : BeamSearchScheduler.BeamState} {i : Nat} (hU : UniqueIds instance_data)
    (hval : Validator.is_channel_valid node.plan instance_data i node.time = true)
    (hq : RunBounded instance_data node.plan) :
    ∀ st' ∈ BeamSearchScheduler.btChannelSuccessors instance_data node i,
      RunBounded instance_data st'.plan := by
  intro st' hmem
  unfold BeamSearchScheduler.btChannelSuccessors at hmem
  dsimp only at hmem
  revert hmem
  cases hp : Utils.get_channel_program_by_time
      (instance_data.channels.getD i emptyChannel) node.time with
  | none => intro hmem; cases hmem
  | some prog =>
      dsimp only
      intro hmem
      rw [List.mem_filterMap] at hmem
      obtain ⟨se, hse, hf⟩ := hmem
      obtain ⟨s, e⟩ := se
      dsimp only at hf
      split at hf
      · cases hf
      · injection hf with hf
        subst hf
        exact gated_append_run_bound hU (is_channel_valid_genre hval) hp rfl hq

theorem expandState_gated {instance_data : InstanceData} {cfg : BeamSearchScheduler.BSConfig}
    (hU : UniqueIds instance_data) (hvc : cfg.validate_constraints = true) :
    ∀ st : BeamSearchScheduler.BeamState, RunBounded instance_data st.plan →
      ∀ st' ∈ BeamSearchScheduler.expandState instance_data cfg st,
        RunBounded instance_data st'.plan := by
  intro st hq st' hmem
  unfold BeamSearchScheduler.expandState BeamSearchScheduler.validChannels at hmem
  rw [hvc] at hmem
  simp only [if_true] at hmem
  split at hmem
  · simp only [List.mem_singleton] at hmem
    subst hmem
    exact hq
  · split at hmem
    · simp only [List.mem_singleton] at hmem
      subst hmem
      exact hq
    · rw [List.mem_flatMap] at hmem
      obtain ⟨i, hi, hmem⟩ := hmem
      exact channelSuccessors_gated hU (mem_get_valid_schedules hi).2 hq st' hmem

theorem backtrackRound_gated {instance_data : InstanceData}
    {cfg : BeamSearchScheduler.BSConfig} (hU : UniqueIds instance_data) :
    ∀ nd : BeamSearchScheduler.BeamState, RunBounded instance_data nd.plan →
      ∀ nd' ∈ BeamSearchScheduler.backtrackRound instance_data cfg nd,
        RunBounded instance_data nd'.plan := by
  intro nd hq nd' hmem
  unfold BeamSearchScheduler.backtrackRound at hmem
  dsimp only at hmem
  split at hmem
  · simp only [List.mem_singleton] at hmem
    subst hmem
    exact hq
  · split at hmem
    · simp only [List.mem_singleton] at hmem
      subst hmem
      exact hq
    · split at hmem
      · simp only [List.mem_singleton] at hmem
        subst hmem
        exact hq
      · have := mem_sortBy.mp (List.mem_of_mem_take hmem)
        rw [List.mem_flatMap] at this
        obtain ⟨i, hi, hmem'⟩ := this
        exact btChannelSuccessors_gated hU (mem_get_valid_schedules hi).2 hq nd' hmem'


/-! ### Empty-window behaviour of the five strategies -/

/-- No channel airs a program at any minute of the half-open operating
window `[opening, closing)` — the scenario of the empty-window robustness
requirement. -/
def NoAiring (instance_data : InstanceData) : Prop :=
  ∀ ch ∈ instance_data.channels, ∀ t : Int,
    instance_data.opening_time ≤ t → t < instance_data.closing_time →
    Utils.get_channel_program_by_time ch t = none

/-- No channel airs a program at any minute of the closed interval
`[opening, closing]` — one minute more than the operating window. -/
def NoAiringClosed (instance_data : InstanceData) : Prop :=
  ∀ ch ∈ instance_data.channels, ∀ t : Int,
    instance_data.opening_time ≤ t → t ≤ instance_data.closing_time →
    Utils.get_channel_program_by_time ch t = none

theorem noAiringClosed_noAiring {instance_data : InstanceData}
    (h : NoAiringClosed instance_data) : NoAiring instance_data :=
  fun ch hch t h1 h2 => h ch hch t h1 (le_of_lt h2)

theorem noAiring_getD {instance_data : InstanceData} (h : NoAiring instance_data)
    (i : Nat) {t : Int} (h1 : instance_data.opening_time ≤ t)
    (h2 : t < instance_data.closing_time) :
    Utils.get_channel_program_by_time (instance_data.channels.getD i emptyChannel) t = none := by
  by_cases hi : i < instance_data.channels.length
  · exact h _ (getD_mem _ i _ hi) t h1 h2
  · rw [List.getD_eq_default _ _ (by omega)]
    rfl

theorem noAiringClosed_getD {instance_data : InstanceData} (h : NoAiringClosed instance_data)
    (i : Nat) {t : Int} (h1 : instance_data.opening_time ≤ t)
    (h2 : t ≤ instance_data.closing_time) :
    Utils.get_channel_program_by_time (instance_data.channels.getD i emptyChannel) t = none := by
  by_cases hi : i < instance_data.channels.length
  · exact h _ (getD_mem _ i _ hi) t h1 h2
  · rw [List.getD_eq_default _ _ (by omega)]
    rfl

theorem get_best_fit_none {instance_data : InstanceData} {t : Int} (plan : List Schedule)
    (hno : ∀ i : Nat,
      Utils.get_channel_program_by_time (instance_data.channels.getD i emptyChannel) t = none)
    (idxs : List Nat) :
    AlgorithmUtils.get_best_fit plan instance_data t idxs =
      (none, none, 0) := by
  unfold AlgorithmUtils.get_best_fit
  exact foldl_invariant
    (fun acc => acc = ((none : Option Channel), (none : Option Program), (0 : Int)))
    _ idxs _ rfl
    (fun x a hx => by
      subst hx
      dsimp only
      simp only [hno a])

theorem greedyLoop_invariant_guarded (instance_data : InstanceData)
    (P : GreedyScheduler.GState → Prop)
    (hstep : ∀ st, st.time < instance_data.closing_time → P st →
      P (GreedyScheduler.greedyBody instance_data st)) :
    ∀ fuel st, P st → P (GreedyScheduler.greedyLoop instance_data fuel st) := by
  intro fuel
  induction fuel with
  | zero => intro st hst; exact hst
  | succ n ih =>
      intro st hst
      unfold GreedyScheduler.greedyLoop
      split
      · next h => exact ih _ (hstep st h hst)
      · exact hst

theorem greedy_no_airing {instance_data : InstanceData} (h : NoAiring instance_data) :
    GreedyScheduler.generate_solution instance_data =
      { scheduled_programs := [], total_score := 0 } := by
  have hinv := greedyLoop_invariant_guarded instance_data
    (fun st => st.solution = [] ∧ st.total_score = 0 ∧ instance_data.opening_time ≤ st.time)
    (fun st ht hst => by
      obtain ⟨hs, hsc, hO⟩ := hst
      unfold GreedyScheduler.greedyBody
      dsimp only
      split
      · exact ⟨hs, hsc, by dsimp only; omega⟩
      · rw [get_best_fit_none st.solution (fun i => noAiring_getD h i hO ht)]
        exact ⟨hs, hsc, by dsimp only; omega⟩)
    (instance_data.closing_time - instance_data.opening_time).toNat
    { time := instance_data.opening_time, total_score := 0, solution := [] }
    ⟨rfl, rfl, le_refl _⟩
  have hgen : GreedyScheduler.generate_solution instance_data =
      { scheduled_programs :=
          (GreedyScheduler.greedyLoop instance_data
            (instance_data.closing_time - instance_data.opening_time).toNat
            { time := instance_data.opening_time, total_score := 0, solution := [] }).solution,
        total_score :=
          (GreedyScheduler.greedyLoop instance_data
            (instance_data.closing_time - instance_data.opening_time).toNat
            { time := instance_data.opening_time, total_score := 0, solution := [] }).total_score } :=
    rfl
  rw [hgen, hinv.1, hinv.2.1]

theorem nextAfter_gt {arr : List Int} {m t : Int}
    (h : BeamSearchScheduler.nextAfter arr m = some t) : m < t := by
  unfold BeamSearchScheduler.nextAfter at h
  cases hl : arr.filter (fun x => decide (m < x)) with
  | nil => rw [hl] at h; cases h
  | cons a l =>
      rw [hl] at h
      injection h with h
      have hmem : t ∈ arr.filter (fun x => decide (m < x)) := by
        rw [hl, ← h]; exact List.mem_cons_self a l
      exact of_decide_eq_true (List.mem_filter.mp hmem).2

theorem skipValue_pos {instance_data : InstanceData} {cap m : Int} (hcap : 1 ≤ cap)
    (hm : m < instance_data.closing_time) :
    1 ≤ BeamSearchScheduler.skipValue instance_data cap m := by
  unfold BeamSearchScheduler.skipValue
  cases hnx : BeamSearchScheduler.nextAfter (BeamSearchScheduler.interesting_times instance_data) m with
  | none => exact le_min hcap (by omega)
  | some nxt =>
      have := nextAfter_gt hnx
      dsimp only
      split <;> omega

theorem skipLookup_nonneg {instance_data : InstanceData} {cap dflt t : Int} (hcap : 1 ≤ cap)
    (h1 : instance_data.opening_time ≤ t) (h2 : t < instance_data.closing_time) :
    1 ≤ BeamSearchScheduler.skipLookup instance_data cap dflt t := by
  unfold BeamSearchScheduler.skipLookup
  rw [if_pos ⟨h1, h2⟩]
  exact skipValue_pos hcap h2

theorem skipValueAdv_pos {instance_data : InstanceData} {cap m : Int} (hcap : 1 ≤ cap)
    (hm : m < instance_data.closing_time) :
    1 ≤ BeamSearchSchedulerAdvanced.skipValueAdv instance_data cap m := by
  unfold BeamSearchSchedulerAdvanced.skipValueAdv
  cases hnx : BeamSearchScheduler.nextAfter
      (BeamSearchSchedulerAdvanced.interesting_times_adv instance_data) m with
  | none => exact le_min hcap (by omega)
  | some nxt =>
      have := nextAfter_gt hnx
      exact le_min (by omega) hcap

theorem skipLookupAdv_nonneg {instance_data : InstanceData} {cap dflt t : Int} (hcap : 1 ≤ cap)
    (h1 : instance_data.opening_time ≤ t) (h2 : t < instance_data.closing_time) :
    1 ≤ BeamSearchSchedulerAdvanced.skipLookupAdv instance_data cap dflt t := by
  unfold BeamSearchSchedulerAdvanced.skipLookupAdv
  rw [if_pos ⟨h1, h2⟩]
  exact skipValueAdv_pos hcap h2

/-- A beam state carrying the empty plan, a zero score and an in-window or
later clock. -/
def EmptyBS (instance_data : InstanceData) (st : BeamSearchScheduler.BeamState) : Prop :=
  st.plan = [] ∧ st.score = 0 ∧ instance_data.opening_time ≤ st.time

theorem channelSuccessors_none {instance_data : InstanceData}
    {st : BeamSearchScheduler.BeamState} {i : Nat}
    (h : Utils.get_channel_program_by_time
      (instance_data.channels.getD i emptyChannel) st.time = none) :
    BeamSearchScheduler.channelSuccessors instance_data st i = [] := by
  unfold BeamSearchScheduler.channelSuccessors
  dsimp only
  rw [h]

theorem jumpState_empty {instance_data : InstanceData} {cap : Int}
    {st : BeamSearchScheduler.BeamState} (hcap : 1 ≤ cap)
    (hst : EmptyBS instance_data st) (ht : st.time < instance_data.closing_time) :
    EmptyBS instance_data (BeamSearchScheduler.jumpState instance_data cap cap st) := by
  refine ⟨hst.1, hst.2.1, ?_⟩
  have hskip := @skipLookup_nonneg instance_data cap cap st.time hcap hst.2.2 ht
  show instance_data.opening_time ≤
    min (st.time + BeamSearchScheduler.skipLookup instance_data cap cap st.time)
      instance_data.closing_time
  have hO := hst.2.2
  exact le_min (by omega) (by omega)

theorem expandState_empty {instance_data : InstanceData} (h : NoAiring instance_data)
    {cfg : BeamSearchScheduler.BSConfig} (hcap : 1 ≤ cfg.jump_cap)
    {st : BeamSearchScheduler.BeamState} (hst : EmptyBS instance_data st)
    (ht : st.time < instance_data.closing_time) :
    ∀ st' ∈ BeamSearchScheduler.expandState instance_data cfg st,
      EmptyBS instance_data st' := by
  intro st' hmem
  unfold BeamSearchScheduler.expandState at hmem
  dsimp only at hmem
  split at hmem
  · rw [List.mem_singleton] at hmem
    subst hmem
    exact jumpState_empty hcap hst ht
  · split at hmem
    · rw [List.mem_singleton] at hmem
      subst hmem
      exact jumpState_empty hcap hst ht
    · rw [List.mem_flatMap] at hmem
      obtain ⟨i, -, hmem'⟩ := hmem
      rw [channelSuccessors_none (noAiring_getD h i hst.2.2 ht)] at hmem'
      cases hmem'

theorem scanBest_empty {instance_data : InstanceData} {states : List BeamSearchScheduler.BeamState}
    (hstates : ∀ st ∈ states, EmptyBS instance_data st)
    {best : Option Int × List Schedule}
    (hbest : best = (none, []) ∨ best = (some 0, [])) :
    BeamSearchScheduler.scanBest instance_data.closing_time states best = (none, []) ∨
      BeamSearchScheduler.scanBest instance_data.closing_time states best = (some 0, []) := by
  unfold BeamSearchScheduler.scanBest
  refine foldl_invariant_mem
    (fun acc => acc = ((none : Option Int), ([] : List Schedule)) ∨ acc = (some 0, []))
    _ states _ hbest ?_
  intro x a ha hx
  dsimp only
  split
  · right
    rw [(hstates a ha).1, (hstates a ha).2.1]
  · exact hx

theorem beamLoop_empty {instance_data : InstanceData} (h : NoAiring instance_data)
    {cfg : BeamSearchScheduler.BSConfig} (hcap : 1 ≤ cfg.jump_cap) :
    ∀ (fuel : Nat) (beam : List BeamSearchScheduler.BeamState)
      (best : Option Int × List Schedule),
      (∀ st ∈ beam, EmptyBS instance_data st) →
      (best = (none, []) ∨ best = (some 0, [])) →
      (BeamSearchScheduler.beamLoop instance_data cfg fuel beam best = (none, []) ∨
        BeamSearchScheduler.beamLoop instance_data cfg fuel beam best = (some 0, [])) := by
  intro fuel
  induction fuel with
  | zero => intro beam best _ hbest; exact hbest
  | succ n ih =>
      intro beam best hbeam hbest
      unfold BeamSearchScheduler.beamLoop
      dsimp only
      split
      · exact hbest
      · have hbest1 := scanBest_empty hbeam hbest
        have hcand : ∀ st' ∈ beam.flatMap (fun st =>
            if instance_data.closing_time ≤ st.time then []
            else BeamSearchScheduler.expandState instance_data cfg st),
            EmptyBS instance_data st' := by
          intro st' hmem
          rw [List.mem_flatMap] at hmem
          obtain ⟨st, hstm, hmem'⟩ := hmem
          split at hmem'
          · cases hmem'
          · next ht => exact expandState_empty h hcap (hbeam st hstm) (by omega) st' hmem'
        split
        · exact hbest1
        · exact ih _ _ (fun st' hmem => hcand st' (nlargest_mem hmem))
            (scanBest_empty
              (fun st' hmem => hcand st' (nlargest_mem hmem)) hbest1)

theorem beam_search_empty {instance_data : InstanceData} (h : NoAiring instance_data)
    {cfg : BeamSearchScheduler.BSConfig} (hcap : 1 ≤ cfg.jump_cap) :
    BeamSearchScheduler.beam_search instance_data cfg = ([], 0) := by
  unfold BeamSearchScheduler.beam_search
  dsimp only
  have hinit : ∀ st ∈ [({ score := 0, time := instance_data.opening_time, plan := [] } :
      BeamSearchScheduler.BeamState)], EmptyBS instance_data st := by
    intro st hst
    rw [List.mem_singleton] at hst
    subst hst
    exact ⟨rfl, rfl, le_refl _⟩
  obtain hres | hres := beamLoop_empty h hcap
    ((instance_data.closing_time - instance_data.opening_time).toNat + 2) _ _ hinit (Or.inl rfl)
  · rw [hres]
  · rw [hres]

theorem generate_from_config_empty {instance_data : InstanceData} (h : NoAiring instance_data)
    (beam_width : Int) (validate_constraints : Bool) (jump_cap backtrack_window : Int) :
    BeamSearchScheduler.generate_from_config instance_data
        (BeamSearchScheduler.mkConfig beam_width validate_constraints jump_cap backtrack_window) =
      { scheduled_programs := [], total_score := 0 } := by
  have hbs := @beam_search_empty instance_data h
    (BeamSearchScheduler.mkConfig beam_width validate_constraints jump_cap backtrack_window)
    (le_max_left 1 jump_cap)
  unfold BeamSearchScheduler.generate_from_config
  dsimp only
  rw [hbs]
  rw [if_neg (by simp)]

theorem lookCand_none {instance_data : InstanceData} {st : GreedyScheduler.GState}
    (hno : ∀ i : Nat,
      Utils.get_channel_program_by_time (instance_data.channels.getD i emptyChannel) st.time = none)
    (idxs : List Nat) :
    GreedyLookahead.lookCand instance_data st idxs = (none, none, none) := by
  unfold GreedyLookahead.lookCand
  exact foldl_invariant
    (fun acc => acc = ((none : Option Int), (none : Option Channel), (none : Option Program)))
    _ idxs _ rfl
    (fun x a hx => by
      subst hx
      dsimp only
      simp only [hno a])

theorem lookLoop_invariant_guarded (instance_data : InstanceData)
    (P : GreedyScheduler.GState → Prop)
    (hstep : ∀ st, st.time ≤ instance_data.closing_time → P st →
      P (GreedyLookahead.lookBody instance_data st)) :
    ∀ fuel st, P st → P (GreedyLookahead.lookLoop instance_data fuel st) := by
  intro fuel
  induction fuel with
  | zero => intro st hst; exact hst
  | succ n ih =>
      intro st hst
      unfold GreedyLookahead.lookLoop
      split
      · next h => exact ih _ (hstep st h hst)
      · exact hst

theorem lookahead_no_airing {instance_data : InstanceData} (h : NoAiringClosed instance_data) :
    GreedyLookahead.generate_solution instance_data =
      { scheduled_programs := [], total_score := 0 } := by
  have hinv := lookLoop_invariant_guarded instance_data
    (fun st => st.solution = [] ∧ st.total_score = 0 ∧ instance_data.opening_time ≤ st.time)
    (fun st ht hst => by
      obtain ⟨hs, hsc, hO⟩ := hst
      unfold GreedyLookahead.lookBody
      dsimp only
      split
      · split
        · next ns hns =>
            refine ⟨hs, hsc, ?_⟩
            have hmem := List.min?_mem (fun a b : Int => min_choice a b) hns
            have := of_decide_eq_true (List.mem_filter.mp hmem).2
            dsimp only
            omega
        · exact ⟨hs, hsc, by dsimp only; omega⟩
      · rw [lookCand_none (fun i => noAiringClosed_getD h i hO ht)]
        dsimp only
        rw [if_pos (Or.inl (le_refl (0 : Int)))]
        exact ⟨hs, hsc, by dsimp only; omega⟩)
    ((instance_data.closing_time - instance_data.opening_time).toNat + 4)
    { time := instance_data.opening_time, total_score := 0, solution := [] }
    ⟨rfl, rfl, le_refl _⟩
  have hgen : GreedyLookahead.generate_solution instance_data =
      { scheduled_programs :=
          (GreedyLookahead.lookLoop instance_data
            ((instance_data.closing_time - instance_data.opening_time).toNat + 4)
            { time := instance_data.opening_time, total_score := 0, solution := [] }).solution,
        total_score :=
          (GreedyLookahead.lookLoop instance_data
            ((instance_data.closing_time - instance_data.opening_time).toNat + 4)
            { time := instance_data.opening_time, total_score := 0, solution := [] }).total_score } :=
    rfl
  rw [hgen, hinv.1, hinv.2.1]

theorem advChannelSuccessor_none {instance_data : InstanceData}
    {st : BeamSearchScheduler.BeamState} {i : Nat}
    (h : Utils.get_channel_program_by_time
      (instance_data.channels.getD i emptyChannel) st.time = none) :
    BeamSearchSchedulerAdvanced.advChannelSuccessor instance_data st i = [] := by
  unfold BeamSearchSchedulerAdvanced.advChannelSuccessor
  dsimp only
  rw [h]

theorem advJump_empty {instance_data : InstanceData} {table_cap jump_cap : Int}
    {st : BeamSearchScheduler.BeamState} (hcap : 1 ≤ table_cap)
    (hst : EmptyBS instance_data st) (ht : st.time < instance_data.closing_time) :
    EmptyBS instance_data
      (BeamSearchSchedulerAdvanced.advJump instance_data table_cap jump_cap st) := by
  refine ⟨hst.1, hst.2.1, ?_⟩
  have hskip := @skipLookupAdv_nonneg instance_data table_cap jump_cap st.time hcap hst.2.2 ht
  show instance_data.opening_time ≤
    min (st.time + BeamSearchSchedulerAdvanced.skipLookupAdv instance_data table_cap jump_cap st.time)
      instance_data.closing_time
  have hO := hst.2.2
  exact le_min (by omega) (by omega)

theorem advExpandState_empty {instance_data : InstanceData} (h : NoAiring instance_data)
    {validate_constraints : Bool} {table_cap jump_cap : Int} (hcap : 1 ≤ table_cap)
    (chs : List Nat) {st : BeamSearchScheduler.BeamState} (hst : EmptyBS instance_data st)
    (ht : st.time < instance_data.closing_time) :
    ∀ st' ∈ BeamSearchSchedulerAdvanced.advExpandState instance_data validate_constraints
      table_cap jump_cap chs st, EmptyBS instance_data st' := by
  intro st' hmem
  have hflat : ∀ l : List Nat,
      st' ∈ l.flatMap (BeamSearchSchedulerAdvanced.advChannelSuccessor instance_data st) →
      EmptyBS instance_data st' := by
    intro l hm
    rw [List.mem_flatMap] at hm
    obtain ⟨i, -, hm'⟩ := hm
    rw [advChannelSuccessor_none (noAiring_getD h i hst.2.2 ht)] at hm'
    cases hm'
  have hj : EmptyBS instance_data
      (BeamSearchSchedulerAdvanced.advJump instance_data table_cap jump_cap st) :=
    advJump_empty hcap hst ht
  unfold BeamSearchSchedulerAdvanced.advExpandState at hmem
  dsimp only at hmem
  split at hmem
  · split at hmem
    · rw [List.mem_singleton] at hmem
      subst hmem
      exact hj
    · split at hmem
      · rw [List.mem_singleton] at hmem
        subst hmem
        exact hj
      · exact hflat _ hmem
  · split at hmem
    · rw [List.mem_singleton] at hmem
      subst hmem
      exact hj
    · split at hmem
      · rw [List.mem_singleton] at hmem
        subst hmem
        exact hj
      · exact hflat _ hmem

theorem advStep_empty {instance_data : InstanceData} (h : NoAiring instance_data)
    {validate_constraints : Bool} {table_cap jump_cap : Int} (hcap : 1 ≤ table_cap)
    (chOrder : Nat → List Nat) {beam : List BeamSearchScheduler.BeamState}
    (hbeam : ∀ st ∈ beam, EmptyBS instance_data st)
    (acc : (Option Int × List Schedule) × List BeamSearchScheduler.BeamState × Nat)
    (st : BeamSearchScheduler.BeamState) (hmem : st ∈ beam)
    (hacc : (acc.1 = (none, []) ∨ acc.1 = (some 0, [])) ∧
      ∀ st' ∈ acc.2.1, EmptyBS instance_data st') :
    ((BeamSearchSchedulerAdvanced.advStep instance_data validate_constraints table_cap jump_cap
        chOrder acc st).1 = (none, []) ∨
      (BeamSearchSchedulerAdvanced.advStep instance_data validate_constraints table_cap jump_cap
        chOrder acc st).1 = (some 0, [])) ∧
    ∀ st' ∈ (BeamSearchSchedulerAdvanced.advStep instance_data validate_constraints table_cap
      jump_cap chOrder acc st).2.1, EmptyBS instance_data st' := by
  unfold BeamSearchSchedulerAdvanced.advStep
  split
  · split
    · exact ⟨Or.inr (by rw [(hbeam st hmem).1, (hbeam st hmem).2.1]), hacc.2⟩
    · exact hacc
  · next htm =>
      refine ⟨hacc.1, ?_⟩
      intro st' hmem'
      rw [List.mem_append] at hmem'
      rcases hmem' with hmem' | hmem'
      · exact hacc.2 st' hmem'
      · exact advExpandState_empty h hcap _ (hbeam st hmem) (by omega) st' hmem'

theorem advBeamLoop_empty {instance_data : InstanceData} (h : NoAiring instance_data)
    {validate_constraints : Bool} {table_cap jump_cap beam_width : Int} (hcap : 1 ≤ table_cap)
    (chOrder : Nat → List Nat) :
    ∀ (fuel ctr : Nat) (beam : List BeamSearchScheduler.BeamState)
      (best : Option Int × List Schedule),
      (∀ st ∈ beam, EmptyBS instance_data st) →
      (best = (none, []) ∨ best = (some 0, [])) →
      (BeamSearchSchedulerAdvanced.advBeamLoop instance_data validate_constraints table_cap
          jump_cap beam_width chOrder fuel ctr beam best = (none, []) ∨
        BeamSearchSchedulerAdvanced.advBeamLoop instance_data validate_constraints table_cap
          jump_cap beam_width chOrder fuel ctr beam best = (some 0, [])) := by
  intro fuel
  induction fuel with
  | zero => intro ctr beam best _ hbest; exact hbest
  | succ n ih =>
      intro ctr beam best hbeam hbest
      unfold BeamSearchSchedulerAdvanced.advBeamLoop
      dsimp only
      split
      · exact hbest
      · have hstep := foldl_invariant_mem
          (fun acc : (Option Int × List Schedule) × List BeamSearchScheduler.BeamState × Nat =>
            (acc.1 = (none, []) ∨ acc.1 = (some 0, [])) ∧
            ∀ st' ∈ acc.2.1, EmptyBS instance_data st')
          (BeamSearchSchedulerAdvanced.advStep instance_data validate_constraints table_cap
            jump_cap chOrder)
          beam ((best, [], ctr)) ⟨hbest, by intro st' hst'; cases hst'⟩
          (fun x a ha hx => advStep_empty h hcap chOrder hbeam x a ha hx)
        split
        · exact hstep.1
        · exact ih _ _ _ (fun st' hm => hstep.2 st' (nlargest_mem hm)) hstep.1

theorem beam_search_core_empty {instance_data : InstanceData} (h : NoAiring instance_data)
    {cfg : BeamSearchSchedulerAdvanced.BSAConfig} (hcap : 1 ≤ cfg.jump_cap)
    (beam_width jump_cap : Int) (chOrder : Nat → List Nat) :
    BeamSearchSchedulerAdvanced.beam_search_core instance_data cfg beam_width jump_cap
        chOrder = (none, []) ∨
      BeamSearchSchedulerAdvanced.beam_search_core instance_data cfg beam_width jump_cap
        chOrder = (some 0, []) := by
  unfold BeamSearchSchedulerAdvanced.beam_search_core
  dsimp only
  refine advBeamLoop_empty h hcap chOrder _ _ _ _ ?_ (Or.inl rfl)
  intro st hst
  rw [List.mem_singleton] at hst
  subst hst
  exact ⟨rfl, rfl, le_refl _⟩

theorem advanced_no_airing {instance_data : InstanceData} (h : NoAiring instance_data)
    (cfg : BeamSearchSchedulerAdvanced.BSAConfig) (hcap : 1 ≤ cfg.jump_cap)
    (chOrders : Nat → Nat → List Nat) :
    BeamSearchSchedulerAdvanced.generate_solution instance_data cfg chOrders =
      { scheduled_programs := [], total_score := 0 } := by
  unfold BeamSearchSchedulerAdvanced.generate_solution
  dsimp only
  have hres := foldl_invariant
    (fun acc : Option Int × List Schedule => acc = (none, []) ∨ acc = (some 0, []))
    (BeamSearchSchedulerAdvanced.advRestartStep instance_data cfg chOrders)
    (List.range cfg.restarts.toNat) ((none : Option Int), ([] : List Schedule)) (Or.inl rfl)
    (fun x i hx => by
      unfold BeamSearchSchedulerAdvanced.advRestartStep
      dsimp only
      obtain hc | hc := beam_search_core_empty h hcap
        (BeamSearchSchedulerAdvanced.adjust_beam_width cfg x.1 (Int.ofNat i + 1))
        (cfg.jump_cap + (Int.ofNat i + 1) * 5) (chOrders i)
      · rw [hc]
        exact hx
      · rw [hc]
        dsimp only
        split
        · exact Or.inr rfl
        · exact hx)
  rcases hres with hres | hres
  · rw [hres]
  · rw [hres]

theorem respects_nil (instance_data : InstanceData) :
    BeyondDynamic.respects_genre_limit instance_data [] = true := rfl

theorem bd_score_nil (instance_data : InstanceData) :
    BeyondDynamic.bd_score_full_schedule instance_data [] = 0 := rfl

theorem lsr_nil (instance_data : InstanceData) (dl : BeyondDynamic.Deadline) (k : Nat) :
    BeyondDynamic.local_search_replace instance_data dl [] k = (([], 0), k) := rfl

theorem lss_nil (instance_data : InstanceData) (dl : BeyondDynamic.Deadline) (k : Nat) :
    BeyondDynamic.local_search_swap instance_data dl [] k = (([], 0), k) := rfl

theorem als_empty (instance_data : InstanceData) (cfg : BeyondDynamic.BDConfig)
    (dl : BeyondDynamic.Deadline) (k0 : Nat) :
    (BeyondDynamic.apply_local_search instance_data cfg dl
      { scheduled_programs := [], total_score := 0 } k0).1 =
      { scheduled_programs := [], total_score := 0 } := by
  unfold BeyondDynamic.apply_local_search
  have hF := foldl_invariant
    (fun acc : List Schedule × Int × Nat × Bool => acc.1 = [] ∧ acc.2.1 = 0)
    (BeyondDynamic.lsPass instance_data dl)
    (List.range cfg.local_search_passes.toNat)
    (([], 0, k0, false)) ⟨rfl, rfl⟩
    (fun x a hx => by
      unfold BeyondDynamic.lsPass
      rcases x with ⟨bs, sc, k, stopped⟩
      obtain ⟨h1, h2⟩ := hx
      simp only at h1 h2
      subst h1
      subst h2
      dsimp only
      split
      · exact ⟨rfl, rfl⟩
      · split
        · exact ⟨rfl, rfl⟩
        · simp only [lsr_nil, lss_nil]
          rw [if_neg (by omega), if_neg (by omega)]
          exact ⟨rfl, rfl⟩)
  dsimp only
  rw [hF.1, hF.2]

theorem create_scheduler_empty {instance_data : InstanceData} (h : NoAiring instance_data)
    (cfg : BeyondDynamic.BDConfig) (stt : BeyondDynamic.BDState) (w : Int) :
    BeamSearchScheduler.generate_from_config instance_data
        (BeyondDynamic.create_scheduler cfg stt w) =
      { scheduled_programs := [], total_score := 0 } := by
  unfold BeyondDynamic.create_scheduler
  exact generate_from_config_empty h _ _ _ _

theorem idPhase_empty {instance_data : InstanceData} (h : NoAiring instance_data)
    (cfg : BeyondDynamic.BDConfig) (dl : BeyondDynamic.Deadline)
    (stt : BeyondDynamic.BDState) (k0 : Nat) :
    (BeyondDynamic.idPhase instance_data cfg dl stt
        { scheduled_programs := [], total_score := 0 } 0 k0).1 =
      { scheduled_programs := [], total_score := 0 } ∧
    (BeyondDynamic.idPhase instance_data cfg dl stt
        { scheduled_programs := [], total_score := 0 } 0 k0).2.1 = 0 := by
  unfold BeyondDynamic.idPhase
  split
  · have hF := foldl_invariant
      (fun acc : Solution × Int × Nat × Bool =>
        acc.1 = { scheduled_programs := [], total_score := 0 } ∧ acc.2.1 = 0)
      (BeyondDynamic.idStep instance_data cfg dl stt)
      (List.range (cfg.max_beam_multiplier.toNat - 1))
      (({ scheduled_programs := [], total_score := 0 }, 0, k0, false)) ⟨rfl, rfl⟩
      (fun x i hx => by
        unfold BeyondDynamic.idStep
        rcases x with ⟨bSol, bSc, k, stopped⟩
        obtain ⟨h1, h2⟩ := hx
        simp only at h1 h2
        subst h1
        subst h2
        dsimp only
        split
        · exact ⟨rfl, rfl⟩
        · split
          · exact ⟨rfl, rfl⟩
          · simp only [create_scheduler_empty h]
            rw [if_neg (by simp [respects_nil]), if_neg (by simp)]
            exact ⟨rfl, rfl⟩)
    exact ⟨hF.1, hF.2⟩
  · exact ⟨rfl, rfl⟩

theorem eb_nil (instance_data : InstanceData) (cfg : BeyondDynamic.BDConfig)
    (stt : BeyondDynamic.BDState) (total_score : Int) (max_trials : Nat) :
    BeyondDynamic.enhanced_backtrack instance_data cfg stt [] total_score max_trials =
      ([], total_score) := by
  unfold BeyondDynamic.enhanced_backtrack
  simp only [List.length_nil]
  rw [if_pos (Or.inl trivial)]

theorem restartBody_empty {instance_data : InstanceData} (h : NoAiring instance_data)
    (cfg : BeyondDynamic.BDConfig) (dl : BeyondDynamic.Deadline)
    (rs : BeyondDynamic.RunState) (i : Nat)
    (hP : (rs.best_solution = none ∧ rs.best_score = none) ∨
      (rs.best_solution = some { scheduled_programs := [], total_score := 0 } ∧
        rs.best_score = some 0)) :
    ((BeyondDynamic.restartBody instance_data cfg dl rs i).best_solution = none ∧
      (BeyondDynamic.restartBody instance_data cfg dl rs i).best_score = none) ∨
    ((BeyondDynamic.restartBody instance_data cfg dl rs i).best_solution =
        some { scheduled_programs := [], total_score := 0 } ∧
      (BeyondDynamic.restartBody instance_data cfg dl rs i).best_score = some 0) := by
  unfold BeyondDynamic.restartBody
  split
  · exact hP
  · simp only [create_scheduler_empty h]
    rw [if_neg (by simp [respects_nil])]
    by_cases hb : BeamSearchScheduler.beatsBest rs.best_score 0 = true
    · rw [if_pos hb]
      right
      exact ⟨rfl, rfl⟩
    · rw [if_neg hb]
      exact hP

theorem bd_finish_empty {instance_data : InstanceData} (h : NoAiring instance_data)
    (cfg : BeyondDynamic.BDConfig) (dl : BeyondDynamic.Deadline)
    (rs : BeyondDynamic.RunState)
    (hP : (rs.best_solution = none ∧ rs.best_score = none) ∨
      (rs.best_solution = some { scheduled_programs := [], total_score := 0 } ∧
        rs.best_score = some 0)) :
    BeyondDynamic.finishRun instance_data cfg dl rs =
      { scheduled_programs := [], total_score := 0 } := by
  unfold BeyondDynamic.finishRun
  have hbase : (match rs.best_solution, rs.best_score with
      | some s, some v => ((s, v) : Solution × Int)
      | some s, none => (s, 0)
      | none, _ => ({ scheduled_programs := [], total_score := 0 }, 0)) =
      ({ scheduled_programs := [], total_score := 0 }, 0) := by
    rcases hP with ⟨h1, h2⟩ | ⟨h1, h2⟩ <;> rw [h1, h2]
  rw [hbase]
  dsimp only
  have hid := idPhase_empty h cfg dl rs.stt rs.k
  rcases hA : BeyondDynamic.idPhase instance_data cfg dl rs.stt
      { scheduled_programs := [], total_score := 0 } 0 rs.k with ⟨s, v, k2⟩
  rw [hA] at hid
  simp only at hid
  rw [hid.1, hid.2]
  dsimp only
  rw [eb_nil]
  rw [if_neg (show ¬ (([] : List Schedule), (0 : Int)).2 > 0 by omega)]
  rw [ite_self]
  dsimp only
  split
  · exact als_empty instance_data cfg dl _
  · rfl

theorem beyond_no_airing {instance_data : InstanceData} (h : NoAiring instance_data)
    (cfg : BeyondDynamic.BDConfig) (dl : BeyondDynamic.Deadline) (restarts : Int) :
    BeyondDynamic.generate_solution_with_time instance_data cfg dl restarts =
      { scheduled_programs := [], total_score := 0 } := by
  unfold BeyondDynamic.generate_solution_with_time
  dsimp only
  refine bd_finish_empty h cfg dl _ ?_
  exact foldl_invariant
    (fun rs : BeyondDynamic.RunState =>
      (rs.best_solution = none ∧ rs.best_score = none) ∨
      (rs.best_solution = some { scheduled_programs := [], total_score := 0 } ∧
        rs.best_score = some 0))
    (BeyondDynamic.restartBody instance_data cfg dl)
    (List.range (BeyondDynamic.restartsClamp cfg restarts).toNat)
    _ (Or.inl ⟨rfl, rfl⟩)
    (fun rs i hrs => restartBody_empty h cfg dl rs i hrs)

/-- Claim C7 (amended): when no channel airs a program at any minute of the
closed interval `[opening, closing]` — one minute beyond the half-open
operating window, because `GreedyLookahead` also probes the closing minute
itself — every strategy returns the well-formed empty Solution (empty
schedule, total score `0`), for every parameterisation and oracle
behaviour. -/
theorem empty_window_all_strategies (instance_data : InstanceData)
    (h : NoAiringClosed instance_data) :
    GreedyScheduler.generate_solution instance_data =
      { scheduled_programs := [], total_score := 0 } ∧
    (∀ beam_width validate_constraints jump_cap backtrack_window,
      BeamSearchScheduler.generate_solution instance_data beam_width validate_constraints
        jump_cap backtrack_window = { scheduled_programs := [], total_score := 0 }) ∧
    GreedyLookahead.generate_solution instance_data =
      { scheduled_programs := [], total_score := 0 } ∧
    (∀ beam_width validate_constraints jump_cap backtrack_window restarts
        (chOrders : Nat → Nat → List Nat),
      BeamSearchSchedulerAdvanced.generate_solution instance_data
        (BeamSearchSchedulerAdvanced.mkAdvConfig beam_width validate_constraints jump_cap
          backtrack_window restarts) chOrders =
        { scheduled_programs := [], total_score := 0 }) ∧
    (∀ (cfg : BeyondDynamic.BDConfig) (restarts : Int),
      BeyondDynamic.generate_solution instance_data cfg restarts =
        { scheduled_programs := [], total_score := 0 }) := by
  have hno := noAiringClosed_noAiring h
  refine ⟨greedy_no_airing hno, ?_, lookahead_no_airing h, ?_, ?_⟩
  · intro beam_width validate_constraints jump_cap backtrack_window
    unfold BeamSearchScheduler.generate_solution
    exact generate_from_config_empty hno _ _ _ _
  · intro beam_width validate_constraints jump_cap backtrack_window restarts chOrders
    exact advanced_no_airing hno _ (le_max_left 1 jump_cap) chOrders
  · intro cfg restarts
    unfold BeyondDynamic.generate_solution
    exact beyond_no_airing hno cfg _ restarts

/-- A program airing only at `[60, 70)` while the operating window is
`[0, 60)`: no program airs at any minute of the half-open window. -/
def c7prog : Program :=
  { program_id := "p", start := 60, stop := 70, genre := "g", score := 5, unique_id := "u1" }

def c7chan : Channel := { channel_id := 1, programs := [c7prog] }

def c7inst : InstanceData :=
  { opening_time := 0, closing_time := 60, min_duration := 0, max_consecutive_genre := 5,
    channels_count := 1, switch_penalty := 0, termination_penalty := 0,
    priority_blocks := [], time_preferences := [], channels := [c7chan] }

/-- Counterexample to claim C7 as stated: `c7inst` has zero programs airing
anywhere in the operating window `[0, 60)`, yet `GreedyLookahead` (whose
loop runs up to `time <= closing_time`) commits the program that starts
exactly at the closing minute and returns a non-empty Solution with score
`5`. -/
theorem empty_window_cex :
    NoAiring c7inst ∧
    (GreedyLookahead.generate_solution c7inst).scheduled_programs ≠ [] ∧
    (GreedyLookahead.generate_solution c7inst).total_score = 5 := by
  refine ⟨?_, by decide, by decide⟩
  intro ch hch t h1 h2
  have h2' : t < 60 := h2
  rw [show c7inst.channels = [c7chan] from rfl, List.mem_singleton] at hch
  subst hch
  show List.find? (fun p => decide (p.start ≤ t ∧ t < p.stop)) [c7prog] = none
  have hp : ¬ (decide (c7prog.start ≤ t ∧ t < c7prog.stop)) = true := by
    rw [decide_eq_true_iff]
    show ¬ ((60 : Int) ≤ t ∧ t < 70)
    omega
  have hstep : List.find? (fun p => decide (p.start ≤ t ∧ t < p.stop)) [c7prog] =
      List.find? (fun p => decide (p.start ≤ t ∧ t < p.stop)) [] :=
    List.find?_cons_of_neg [] hp
  rw [hstep, List.find?_nil]

/-- An instance whose single channel carries no programs at all. -/
def w7inst : InstanceData :=
  { opening_time := 0, closing_time := 10, min_duration := 1, max_consecutive_genre := 2,
    channels_count := 1, switch_penalty := 1, termination_penalty := 1,
    priority_blocks := [], time_preferences := [],
    channels := [{ channel_id := 1, programs := [] }] }

/-- Witness for the amended C7 at a concrete input. -/
theorem empty_window_all_strategies_witness :
    NoAiringClosed w7inst ∧
    GreedyScheduler.generate_solution w7inst =
      { scheduled_programs := [], total_score := 0 } := by
  have hno : NoAiringClosed w7inst := by
    intro ch hch t h1 h2
    rw [show w7inst.channels = [{ channel_id := 1, programs := [] }] from rfl,
      List.mem_singleton] at hch
    subst hch
    rfl
  exact ⟨hno, (empty_window_all_strategies w7inst hno).1⟩

/-! ### The skip table: characterization and losslessness -/

theorem nextAfter_mem {arr : List Int} {m nt : Int}
    (h : BeamSearchScheduler.nextAfter arr m = some nt) : nt ∈ arr := by
  unfold BeamSearchScheduler.nextAfter at h
  cases hl : arr.filter (fun x => decide (m < x)) with
  | nil => rw [hl] at h; cases h
  | cons a l =>
      rw [hl] at h
      injection h with h
      have hmem : nt ∈ arr.filter (fun x => decide (m < x)) := by
        rw [hl, ← h]; exact List.mem_cons_self a l
      exact (List.mem_filter.mp hmem).1

/-- The shape the specification assigns to a stored skip value over a set of
boundary minutes `src`: the distance to the least in-window boundary
strictly after `m` capped at `cap`, or `cap` clamped to `closing - m` when
no boundary follows. -/
def SkipCharacterized (src : List Int) (o c cap m skip : Int) : Prop :=
  (∃ b, (b ∈ src ∧ (o ≤ b ∧ b ≤ c) ∧ m < b) ∧
    (∀ x ∈ src, o ≤ x → x ≤ c → m < x → b ≤ x) ∧
    skip = min (b - m) cap) ∨
  ((∀ x ∈ src, o ≤ x → x ≤ c → ¬ m < x) ∧ skip = min cap (c - m))

theorem nextAfter_window_some (src : List Int) (o c m nt : Int)
    (h : BeamSearchScheduler.nextAfter
      (sortedDedup (src.filter (fun t => decide (o ≤ t ∧ t ≤ c)))) m = some nt) :
    (nt ∈ src ∧ (o ≤ nt ∧ nt ≤ c) ∧ m < nt) ∧
      ∀ x ∈ src, o ≤ x → x ≤ c → m < x → nt ≤ x := by
  have hmem := nextAfter_mem h
  rw [mem_sortedDedup, List.mem_filter] at hmem
  obtain ⟨hsrc, hwin⟩ := hmem
  rw [decide_eq_true_iff] at hwin
  refine ⟨⟨hsrc, hwin, nextAfter_gt h⟩, ?_⟩
  intro x hx hox hxc hmx
  have hxarr : x ∈ sortedDedup (src.filter (fun t => decide (o ≤ t ∧ t ≤ c))) := by
    rw [mem_sortedDedup, List.mem_filter]
    exact ⟨hx, by rw [decide_eq_true_iff]; exact ⟨hox, hxc⟩⟩
  have hxf : x ∈ (sortedDedup (src.filter (fun t => decide (o ≤ t ∧ t ≤ c)))).filter
      (fun t => decide (m < t)) :=
    List.mem_filter.mpr ⟨hxarr, by rw [decide_eq_true_iff]; exact hmx⟩
  exact sorted_head_le ((sortedDedup_sorted _).filter _) h hxf

theorem nextAfter_window_none (src : List Int) (o c m : Int)
    (h : BeamSearchScheduler.nextAfter
      (sortedDedup (src.filter (fun t => decide (o ≤ t ∧ t ≤ c)))) m = none) :
    ∀ x ∈ src, o ≤ x → x ≤ c → ¬ m < x := by
  intro x hx hox hxc hmx
  have hxf : x ∈ (sortedDedup (src.filter (fun t => decide (o ≤ t ∧ t ≤ c)))).filter
      (fun t => decide (m < t)) := by
    rw [List.mem_filter, mem_sortedDedup, List.mem_filter]
    refine ⟨⟨hx, ?_⟩, ?_⟩
    · rw [decide_eq_true_iff]; exact ⟨hox, hxc⟩
    · rw [decide_eq_true_iff]; exact hmx
  unfold BeamSearchScheduler.nextAfter at h
  cases hl : (sortedDedup (src.filter (fun t => decide (o ≤ t ∧ t ≤ c)))).filter
      (fun t => decide (m < t)) with
  | nil => rw [hl] at hxf; cases hxf
  | cons a l => rw [hl] at h; cases h

theorem skipValue_some_eq {instance_data : InstanceData} {cap m nt : Int}
    (h : BeamSearchScheduler.nextAfter (BeamSearchScheduler.interesting_times instance_data) m =
      some nt) :
    BeamSearchScheduler.skipValue instance_data cap m = min (nt - m) cap := by
  unfold BeamSearchScheduler.skipValue
  rw [h]
  dsimp only
  split
  · next hle => exact (min_eq_left hle).symm
  · next hgt => exact (min_eq_right (by omega)).symm

theorem skipValue_none_eq {instance_data : InstanceData} {cap m : Int}
    (h : BeamSearchScheduler.nextAfter (BeamSearchScheduler.interesting_times instance_data) m =
      none) :
    BeamSearchScheduler.skipValue instance_data cap m =
      min cap (instance_data.closing_time - m) := by
  unfold BeamSearchScheduler.skipValue
  rw [h]

theorem skipValueAdv_some_eq {instance_data : InstanceData} {cap m nt : Int}
    (h : BeamSearchScheduler.nextAfter
      (BeamSearchSchedulerAdvanced.interesting_times_adv instance_data) m = some nt) :
    BeamSearchSchedulerAdvanced.skipValueAdv instance_data cap m = min (nt - m) cap := by
  unfold BeamSearchSchedulerAdvanced.skipValueAdv
  rw [h]

theorem skipValueAdv_none_eq {instance_data : InstanceData} {cap m : Int}
    (h : BeamSearchScheduler.nextAfter
      (BeamSearchSchedulerAdvanced.interesting_times_adv instance_data) m = none) :
    BeamSearchSchedulerAdvanced.skipValueAdv instance_data cap m =
      min cap (instance_data.closing_time - m) := by
  unfold BeamSearchSchedulerAdvanced.skipValueAdv
  rw [h]

theorem skipValue_characterized (instance_data : InstanceData) (cap m : Int) :
    SkipCharacterized (BeamSearchScheduler.boundaryTimes instance_data)
      instance_data.opening_time instance_data.closing_time cap m
      (BeamSearchScheduler.skipValue instance_data cap m) := by
  cases h : BeamSearchScheduler.nextAfter (BeamSearchScheduler.interesting_times instance_data) m with
  | none =>
      right
      exact ⟨nextAfter_window_none _ _ _ _ h, skipValue_none_eq h⟩
  | some nt =>
      left
      obtain ⟨hb, hleast⟩ := nextAfter_window_some _ _ _ _ _ h
      exact ⟨nt, hb, hleast, skipValue_some_eq h⟩

theorem skipValueAdv_characterized (instance_data : InstanceData) (cap m : Int) :
    SkipCharacterized (BeamSearchSchedulerAdvanced.advBoundaryTimes instance_data)
      instance_data.opening_time instance_data.closing_time cap m
      (BeamSearchSchedulerAdvanced.skipValueAdv instance_data cap m) := by
  cases h : BeamSearchScheduler.nextAfter
      (BeamSearchSchedulerAdvanced.interesting_times_adv instance_data) m with
  | none =>
      right
      exact ⟨nextAfter_window_none _ _ _ _ h, skipValueAdv_none_eq h⟩
  | some nt =>
      left
      obtain ⟨hb, hleast⟩ := nextAfter_window_some _ _ _ _ _ h
      exact ⟨nt, hb, hleast, skipValueAdv_some_eq h⟩

theorem find?_congr {α : Type} {p q : α → Bool} :
    ∀ {l : List α}, (∀ x ∈ l, p x = q x) → l.find? p = l.find? q := by
  intro l
  induction l with
  | nil => intro _; rfl
  | cons a l ih =>
      intro h
      rw [List.find?_cons, List.find?_cons, h a (List.mem_cons_self a l),
        ih (fun x hx => h x (List.mem_cons_of_mem a hx))]

theorem skipValue_le_window (instance_data : InstanceData) (cap m : Int) :
    BeamSearchScheduler.skipValue instance_data cap m ≤ instance_data.closing_time - m := by
  cases h : BeamSearchScheduler.nextAfter (BeamSearchScheduler.interesting_times instance_data) m with
  | none =>
      rw [skipValue_none_eq h]
      exact min_le_right _ _
  | some nt =>
      rw [skipValue_some_eq h]
      have hwin := (nextAfter_window_some _ _ _ _ _ h).1.2.1.2
      exact le_trans (min_le_left _ _) (by omega)

theorem skipValueAdv_le_window (instance_data : InstanceData) (cap m : Int) :
    BeamSearchSchedulerAdvanced.skipValueAdv instance_data cap m ≤
      instance_data.closing_time - m := by
  cases h : BeamSearchScheduler.nextAfter
      (BeamSearchSchedulerAdvanced.interesting_times_adv instance_data) m with
  | none =>
      rw [skipValueAdv_none_eq h]
      exact min_le_right _ _
  | some nt =>
      rw [skipValueAdv_some_eq h]
      have hwin := (nextAfter_window_some _ _ _ _ _ h).1.2.1.2
      exact le_trans (min_le_left _ _) (by omega)

theorem start_mem_boundaryTimes {instance_data : InstanceData} {ch : Channel} {p : Program}
    (hch : ch ∈ instance_data.channels) (hp : p ∈ ch.programs) :
    p.start ∈ BeamSearchScheduler.boundaryTimes instance_data := by
  unfold BeamSearchScheduler.boundaryTimes
  rw [List.mem_append]
  left
  rw [List.mem_append]
  left
  rw [List.mem_flatMap]
  exact ⟨ch, hch, by rw [List.mem_flatMap]; exact ⟨p, hp, by simp⟩⟩

theorem stop_mem_boundaryTimes {instance_data : InstanceData} {ch : Channel} {p : Program}
    (hch : ch ∈ instance_data.channels) (hp : p ∈ ch.programs) :
    p.stop ∈ BeamSearchScheduler.boundaryTimes instance_data := by
  unfold BeamSearchScheduler.boundaryTimes
  rw [List.mem_append]
  left
  rw [List.mem_append]
  left
  rw [List.mem_flatMap]
  exact ⟨ch, hch, by rw [List.mem_flatMap]; exact ⟨p, hp, by simp⟩⟩

theorem start_mem_advBoundaryTimes {instance_data : InstanceData} {ch : Channel} {p : Program}
    (hch : ch ∈ instance_data.channels) (hp : p ∈ ch.programs) :
    p.start ∈ BeamSearchSchedulerAdvanced.advBoundaryTimes instance_data := by
  unfold BeamSearchSchedulerAdvanced.advBoundaryTimes
  rw [List.mem_flatMap]
  exact ⟨p, by rw [List.mem_flatMap]; exact ⟨ch, hch, hp⟩, by simp⟩

theorem stop_mem_advBoundaryTimes {instance_data : InstanceData} {ch : Channel} {p : Program}
    (hch : ch ∈ instance_data.channels) (hp : p ∈ ch.programs) :
    p.stop ∈ BeamSearchSchedulerAdvanced.advBoundaryTimes instance_data := by
  unfold BeamSearchSchedulerAdvanced.advBoundaryTimes
  rw [List.mem_flatMap]
  exact ⟨p, by rw [List.mem_flatMap]; exact ⟨ch, hch, hp⟩, by simp⟩

theorem no_gap_basic {instance_data : InstanceData} {cap m t b : Int}
    (hO : instance_data.opening_time ≤ m)
    (ht : t < m + BeamSearchScheduler.skipValue instance_data cap m)
    (hb : b ∈ BeamSearchScheduler.boundaryTimes instance_data)
    (hmb : m < b) (hbt : b ≤ t) : False := by
  have hle := skipValue_le_window instance_data cap m
  have hbC : b ≤ instance_data.closing_time := by omega
  have hbO : instance_data.opening_time ≤ b := by omega
  cases h : BeamSearchScheduler.nextAfter (BeamSearchScheduler.interesting_times instance_data) m with
  | none => exact nextAfter_window_none _ _ _ _ h b hb hbO hbC hmb
  | some nt =>
      have hleast := (nextAfter_window_some _ _ _ _ _ h).2 b hb hbO hbC hmb
      rw [skipValue_some_eq h] at ht
      have hmin := min_le_left (nt - m) cap
      omega

theorem no_gap_adv {instance_data : InstanceData} {cap m t b : Int}
    (hO : instance_data.opening_time ≤ m)
    (ht : t < m + BeamSearchSchedulerAdvanced.skipValueAdv instance_data cap m)
    (hb : b ∈ BeamSearchSchedulerAdvanced.advBoundaryTimes instance_data)
    (hmb : m < b) (hbt : b ≤ t) : False := by
  have hle := skipValueAdv_le_window instance_data cap m
  have hbC : b ≤ instance_data.closing_time := by omega
  have hbO : instance_data.opening_time ≤ b := by omega
  cases h : BeamSearchScheduler.nextAfter
      (BeamSearchSchedulerAdvanced.interesting_times_adv instance_data) m with
  | none => exact nextAfter_window_none _ _ _ _ h b hb hbO hbC hmb
  | some nt =>
      have hleast := (nextAfter_window_some _ _ _ _ _ h).2 b hb hbO hbC hmb
      rw [skipValueAdv_some_eq h] at ht
      have hmin := min_le_left (nt - m) cap
      omega

theorem skip_lossless_basic {instance_data : InstanceData} {cap m t : Int} {ch : Channel}
    (hO : instance_data.opening_time ≤ m) (hmt : m ≤ t)
    (ht : t < m + BeamSearchScheduler.skipValue instance_data cap m)
    (hch : ch ∈ instance_data.channels) :
    Utils.get_channel_program_by_time ch t = Utils.get_channel_program_by_time ch m := by
  unfold Utils.get_channel_program_by_time
  apply find?_congr
  intro p hp
  have hstart : ¬ (m < p.start ∧ p.start ≤ t) := fun hc =>
    no_gap_basic hO ht (start_mem_boundaryTimes hch hp) hc.1 hc.2
  have hstop : ¬ (m < p.stop ∧ p.stop ≤ t) := fun hc =>
    no_gap_basic hO ht (stop_mem_boundaryTimes hch hp) hc.1 hc.2
  have hiff : (p.start ≤ t ∧ t < p.stop) ↔ (p.start ≤ m ∧ m < p.stop) := by omega
  exact decide_eq_decide.mpr hiff

theorem skip_lossless_adv {instance_data : InstanceData} {cap m t : Int} {ch : Channel}
    (hO : instance_data.opening_time ≤ m) (hmt : m ≤ t)
    (ht : t < m + BeamSearchSchedulerAdvanced.skipValueAdv instance_data cap m)
    (hch : ch ∈ instance_data.channels) :
    Utils.get_channel_program_by_time ch t = Utils.get_channel_program_by_time ch m := by
  unfold Utils.get_channel_program_by_time
  apply find?_congr
  intro p hp
  have hstart : ¬ (m < p.start ∧ p.start ≤ t) := fun hc =>
    no_gap_adv hO ht (start_mem_advBoundaryTimes hch hp) hc.1 hc.2
  have hstop : ¬ (m < p.stop ∧ p.stop ≤ t) := fun hc =>
    no_gap_adv hO ht (stop_mem_advBoundaryTimes hch hp) hc.1 hc.2
  have hiff : (p.start ≤ t ∧ t < p.stop) ↔ (p.start ≤ m ∧ m < p.stop) := by omega
  exact decide_eq_decide.mpr hiff

/-- Claim C3 (amended): the base scheduler's skip value is characterized by
the claim's formula over the full boundary set (program, priority-block and
time-preference boundaries); the advanced scheduler's skip value obeys the
same formula but over program boundaries only — its
`_build_interesting_times` omits the block and preference boundaries.  For
both tables, skipping from any in-window minute `m` to any `t` in
`[m, m + skip(m))` leaves every channel's currently-airing program
unchanged, so skipping is lossless. -/
theorem skip_table_spec :
    ∀ (instance_data : InstanceData) (cap m : Int),
      SkipCharacterized (BeamSearchScheduler.boundaryTimes instance_data)
        instance_data.opening_time instance_data.closing_time cap m
        (BeamSearchScheduler.skipValue instance_data cap m) ∧
      SkipCharacterized (BeamSearchSchedulerAdvanced.advBoundaryTimes instance_data)
        instance_data.opening_time instance_data.closing_time cap m
        (BeamSearchSchedulerAdvanced.skipValueAdv instance_data cap m) ∧
      (∀ t : Int, instance_data.opening_time ≤ m → m ≤ t →
        t < m + BeamSearchScheduler.skipValue instance_data cap m →
        ∀ ch ∈ instance_data.channels,
          Utils.get_channel_program_by_time ch t = Utils.get_channel_program_by_time ch m) ∧
      (∀ t : Int, instance_data.opening_time ≤ m → m ≤ t →
        t < m + BeamSearchSchedulerAdvanced.skipValueAdv instance_data cap m →
        ∀ ch ∈ instance_data.channels,
          Utils.get_channel_program_by_time ch t = Utils.get_channel_program_by_time ch m) := by
  intro instance_data cap m
  refine ⟨skipValue_characterized instance_data cap m,
    skipValueAdv_characterized instance_data cap m, ?_, ?_⟩
  · intro t hO hmt ht ch hch
    exact skip_lossless_basic hO hmt ht hch
  · intro t hO hmt ht ch hch
    exact skip_lossless_adv hO hmt ht hch

def c3chan : Channel := { channel_id := 1, programs := [] }

/-- No programs, one priority block `[5, 8)`: its boundaries are interesting
to the base scheduler but invisible to the advanced one. -/
def c3inst : InstanceData :=
  { opening_time := 0, closing_time := 10, min_duration := 1, max_consecutive_genre := 2,
    channels_count := 1, switch_penalty := 0, termination_penalty := 0,
    priority_blocks := [{ start := 5, stop := 8, allowed_channels := [1] }],
    time_preferences := [], channels := [c3chan] }

/-- Counterexample to claim C3 as stated: on `c3inst` the claim's formula
over the full boundary set forces `skip(0) = 5` (the block boundary at `5`
is the next interesting time), and the base table indeed stores `5`, but
the advanced scheduler's table stores `10`: its skip values are not
characterized by the full boundary set. -/
theorem skip_table_cex :
    BeamSearchSchedulerAdvanced.skipValueAdv c3inst 30 0 = 10 ∧
    BeamSearchScheduler.skipValue c3inst 30 0 = 5 ∧
    ¬ SkipCharacterized (BeamSearchScheduler.boundaryTimes c3inst)
        c3inst.opening_time c3inst.closing_time 30 0
        (BeamSearchSchedulerAdvanced.skipValueAdv c3inst 30 0) := by
  refine ⟨by decide, by decide, ?_⟩
  intro hchar
  have hadv : BeamSearchSchedulerAdvanced.skipValueAdv c3inst 30 0 = 10 := by decide
  have h5 : (5 : Int) ∈ BeamSearchScheduler.boundaryTimes c3inst := by decide
  have hO : c3inst.opening_time = 0 := rfl
  have hC : c3inst.closing_time = 10 := rfl
  rcases hchar with ⟨b, ⟨hbsrc, hbwin, hbpos⟩, hleast, heq⟩ | ⟨hall, heq⟩
  · have hb5 := hleast 5 h5 (by rw [hO]; omega) (by rw [hC]; omega) (by omega)
    rw [hadv] at heq
    have hmin : min (b - 0) 30 = b - 0 := min_eq_left (by omega)
    omega
  · exact hall 5 h5 (by rw [hO]; omega) (by rw [hC]; omega) (by omega)

/-- Witness for the amended C3 at a concrete input: on `c3inst` the advanced
skip value at minute `0` is `10`, and jumping from `0` to `3` keeps the
(empty) airing program of the only channel unchanged. -/
theorem skip_table_spec_witness :
    c3inst.opening_time ≤ 0 ∧ (0 : Int) ≤ 3 ∧
    (3 : Int) < 0 + BeamSearchSchedulerAdvanced.skipValueAdv c3inst 30 0 ∧
    c3chan ∈ c3inst.channels ∧
    Utils.get_channel_program_by_time c3chan 3 = Utils.get_channel_program_by_time c3chan 0 := by
  refine ⟨by decide, by decide, by decide, by decide, ?_⟩
  exact (skip_table_spec c3inst 30 0).2.2.2 3 (by decide) (by decide) (by decide) c3chan
    (by decide)

/-! ### Genre-run machinery shared by the remaining strategies -/

theorem runBounded_nil (instance_data : InstanceData) :
    RunBounded instance_data [] := by
  unfold RunBounded
  have h1 := le_max_right (instance_data.max_consecutive_genre - 1) (1 : Int)
  have h0 : maxGenreRun instance_data [] = 0 := rfl
  rw [h0]
  unfold runBound
  omega

/-- The streak step consumes an entry only through its resolved genre. -/
def genreStep (acc : Option String × Nat × Nat) (g? : Option String) :
    Option String × Nat × Nat :=
  match g? with
  | none => (none, 0, acc.2.2)
  | some g =>
      let streak := if acc.1 = some g then acc.2.1 + 1 else 1
      (some g, streak, max acc.2.2 streak)

theorem genreStreakFold_eq_map (instance_data : InstanceData) (plan : List Schedule) :
    genreStreakFold instance_data plan =
      (plan.map (entryGenre instance_data)).foldl genreStep (none, 0, 0) := by
  rw [List.foldl_map]
  rfl

theorem maxGenreRun_congr {instance_data : InstanceData} {plan₁ plan₂ : List Schedule}
    (h : plan₁.map (entryGenre instance_data) = plan₂.map (entryGenre instance_data)) :
    maxGenreRun instance_data plan₁ = maxGenreRun instance_data plan₂ := by
  unfold maxGenreRun
  rw [genreStreakFold_eq_map, genreStreakFold_eq_map, h]

theorem entryGenre_set_stop (instance_data : InstanceData) (e : Schedule) (x : Int) :
    entryGenre instance_data { e with stop := x } = entryGenre instance_data e := rfl

theorem eq_dropLast_append_getLast {α : Type} :
    ∀ {xs : List α} {l : α}, xs.getLast? = some l → xs = xs.dropLast ++ [l] := by
  intro xs
  induction xs with
  | nil => intro l h; cases h
  | cons x xs ih =>
      intro l h
      cases xs with
      | nil =>
          rw [List.getLast?_singleton] at h
          injection h with h
          subst h
          rfl
      | cons y ys =>
          rw [List.getLast?_cons_cons] at h
          have hrec := ih h
          conv_lhs => rw [hrec]
          rfl

theorem ite_snd_cases {α β : Type} {c : Prop} [inst : Decidable c] (a b : α × β) :
    (if c then a else b).2 = a.2 ∨ (if c then a else b).2 = b.2 := by
  by_cases h : c
  · rw [if_pos h]
    exact Or.inl rfl
  · rw [if_neg h]
    exact Or.inr rfl

theorem lookCand_shape (instance_data : InstanceData) (st : GreedyScheduler.GState)
    (idxs : List Nat) :
    (GreedyLookahead.lookCand instance_data st idxs).2 = (none, none) ∨
    ∃ i ∈ idxs, ∃ prog,
      Utils.get_channel_program_by_time (instance_data.channels.getD i emptyChannel)
        st.time = some prog ∧
      (GreedyLookahead.lookCand instance_data st idxs).2 =
        (some (instance_data.channels.getD i emptyChannel), some prog) := by
  unfold GreedyLookahead.lookCand
  refine foldl_invariant_mem
    (fun acc : Option Int × Option Channel × Option Program =>
      acc.2 = (none, none) ∨
      ∃ i ∈ idxs, ∃ prog,
        Utils.get_channel_program_by_time (instance_data.channels.getD i emptyChannel)
          st.time = some prog ∧
        acc.2 = (some (instance_data.channels.getD i emptyChannel), some prog))
    _ idxs _ (Or.inl rfl) ?_
  intro x a ha hx
  dsimp only
  split
  · exact hx
  · next program heq =>
      have key : ∀ v : Option Int × Option Channel × Option Program,
          (v.2 = x.2 ∨
            v.2 = (some (instance_data.channels.getD a emptyChannel), some program)) →
          (v.2 = (none, none) ∨
            ∃ i ∈ idxs, ∃ prog,
              Utils.get_channel_program_by_time (instance_data.channels.getD i emptyChannel)
                st.time = some prog ∧
              v.2 = (some (instance_data.channels.getD i emptyChannel), some prog)) := by
        intro v hv
        rcases hv with hv | hv
        · rw [hv]
          exact hx
        · exact Or.inr ⟨a, ha, program, heq, hv⟩
      apply key
      repeat split
      all_goals first
        | exact Or.inl rfl
        | exact Or.inr rfl
        | exact Or.symm (ite_snd_cases _ _)

theorem run_bound_congr {instance_data : InstanceData} {plan₁ plan₂ : List Schedule}
    (h : plan₁.map (entryGenre instance_data) = plan₂.map (entryGenre instance_data))
    (hb : RunBounded instance_data plan₂) : RunBounded instance_data plan₁ := by
  unfold RunBounded
  rw [maxGenreRun_congr h]
  exact hb

theorem truncateLast_run_bound {instance_data : InstanceData} {plan : List Schedule}
    {e : Schedule} (cut : Int)
    (hb : RunBounded instance_data (plan ++ [e])) :
    RunBounded instance_data (GreedyLookahead.truncateLast plan cut ++ [e]) := by
  unfold GreedyLookahead.truncateLast
  split
  · next l hl =>
      split
      · refine run_bound_congr ?_ hb
        rw [List.map_append, List.map_append]
        conv_rhs => rw [eq_dropLast_append_getLast hl]
        simp [entryGenre_set_stop]
      · exact hb
  · exact hb

theorem lookBody_run_bound {instance_data : InstanceData} (hU : UniqueIds instance_data)
    (st : GreedyScheduler.GState) (hq : RunBounded instance_data st.solution) :
    RunBounded instance_data (GreedyLookahead.lookBody instance_data st).solution := by
  unfold GreedyLookahead.lookBody
  dsimp only
  split
  · split
    · exact hq
    · exact hq
  · split
    · exact hq
    · split
      · next bc bp h1 h2 =>
          rcases lookCand_shape instance_data st
              (SchedulerUtils.get_valid_schedules st.solution instance_data st.time)
            with hsh | ⟨i, hi, prog, hpa, hsh⟩
          · rw [hsh] at h1
            simp at h1
          · rw [hsh] at h1 h2
            injection h1 with h1
            injection h2 with h2
            subst h1
            subst h2
            have hgenre := is_channel_valid_genre (mem_get_valid_schedules hi).2
            exact truncateLast_run_bound _
              (gated_append_run_bound hU hgenre hpa rfl hq)
      · exact hq

theorem lookahead_genre_bound {instance_data : InstanceData} (hU : UniqueIds instance_data) :
    RunBounded instance_data
      (GreedyLookahead.generate_solution instance_data).scheduled_programs := by
  have hinv := lookLoop_invariant_guarded instance_data
    (fun st => RunBounded instance_data st.solution)
    (fun st _ hst => lookBody_run_bound hU st hst)
    ((instance_data.closing_time - instance_data.opening_time).toNat + 4)
    { time := instance_data.opening_time, total_score := 0, solution := [] }
    (runBounded_nil instance_data)
  exact hinv

theorem advChannelSuccessor_gated {instance_data : InstanceData}
    {st : BeamSearchScheduler.BeamState} {i : Nat} (hU : UniqueIds instance_data)
    (hval : Validator.is_channel_valid st.plan instance_data i st.time = true)
    (hq : RunBounded instance_data st.plan) :
    ∀ st' ∈ BeamSearchSchedulerAdvanced.advChannelSuccessor instance_data st i,
      RunBounded instance_data st'.plan := by
  intro st' hmem
  unfold BeamSearchSchedulerAdvanced.advChannelSuccessor at hmem
  dsimp only at hmem
  revert hmem
  cases hp : Utils.get_channel_program_by_time
      (instance_data.channels.getD i emptyChannel) st.time with
  | none => intro hmem; cases hmem
  | some prog =>
      dsimp only
      split
      · intro hmem; cases hmem
      · intro hmem
        rw [List.mem_singleton] at hmem
        subst hmem
        exact gated_append_run_bound hU (is_channel_valid_genre hval) hp rfl hq

theorem advExpandState_gated {instance_data : InstanceData} (hU : UniqueIds instance_data)
    {validate_constraints : Bool} (hvc : validate_constraints = true)
    (table_cap jump_cap : Int) (chs : List Nat) {st : BeamSearchScheduler.BeamState}
    (hq : RunBounded instance_data st.plan) :
    ∀ st' ∈ BeamSearchSchedulerAdvanced.advExpandState instance_data validate_constraints
      table_cap jump_cap chs st, RunBounded instance_data st'.plan := by
  intro st' hmem
  unfold BeamSearchSchedulerAdvanced.advExpandState at hmem
  rw [hvc] at hmem
  simp only [if_true] at hmem
  split at hmem
  · rw [List.mem_singleton] at hmem
    subst hmem
    exact hq
  · split at hmem
    · rw [List.mem_singleton] at hmem
      subst hmem
      exact hq
    · rw [List.mem_flatMap] at hmem
      obtain ⟨i, hi, hmem'⟩ := hmem
      exact advChannelSuccessor_gated hU (mem_get_valid_schedules hi).2 hq st' hmem'

theorem advStep_gated {instance_data : InstanceData} (hU : UniqueIds instance_data)
    {validate_constraints : Bool} (hvc : validate_constraints = true)
    (table_cap jump_cap : Int) (chOrder : Nat → List Nat)
    {beam : List BeamSearchScheduler.BeamState}
    (hbeam : ∀ st ∈ beam, RunBounded instance_data st.plan)
    (acc : (Option Int × List Schedule) × List BeamSearchScheduler.BeamState × Nat)
    (st : BeamSearchScheduler.BeamState) (hmem : st ∈ beam)
    (hacc : RunBounded instance_data acc.1.2 ∧
      ∀ st' ∈ acc.2.1, RunBounded instance_data st'.plan) :
    RunBounded instance_data
      (BeamSearchSchedulerAdvanced.advStep instance_data validate_constraints table_cap jump_cap
        chOrder acc st).1.2 ∧
    ∀ st' ∈ (BeamSearchSchedulerAdvanced.advStep instance_data validate_constraints table_cap
      jump_cap chOrder acc st).2.1, RunBounded instance_data st'.plan := by
  unfold BeamSearchSchedulerAdvanced.advStep
  split
  · split
    · exact ⟨hbeam st hmem, hacc.2⟩
    · exact hacc
  · refine ⟨hacc.1, ?_⟩
    intro st' hmem'
    rw [List.mem_append] at hmem'
    rcases hmem' with hmem' | hmem'
    · exact hacc.2 st' hmem'
    · exact advExpandState_gated hU hvc table_cap jump_cap _ (hbeam st hmem) st' hmem'

theorem advBeamLoop_gated {instance_data : InstanceData} (hU : UniqueIds instance_data)
    {validate_constraints : Bool} (hvc : validate_constraints = true)
    (table_cap jump_cap beam_width : Int) (chOrder : Nat → List Nat) :
    ∀ (fuel ctr : Nat) (beam : List BeamSearchScheduler.BeamState)
      (best : Option Int × List Schedule),
      (∀ st ∈ beam, RunBounded instance_data st.plan) →
      RunBounded instance_data best.2 →
      RunBounded instance_data
        (BeamSearchSchedulerAdvanced.advBeamLoop instance_data validate_constraints table_cap
          jump_cap beam_width chOrder fuel ctr beam best).2 := by
  intro fuel
  induction fuel with
  | zero => intro ctr beam best _ hbest; exact hbest
  | succ n ih =>
      intro ctr beam best hbeam hbest
      unfold BeamSearchSchedulerAdvanced.advBeamLoop
      dsimp only
      split
      · exact hbest
      · have hstep := foldl_invariant_mem
          (fun acc : (Option Int × List Schedule) × List BeamSearchScheduler.BeamState × Nat =>
            RunBounded instance_data acc.1.2 ∧
            ∀ st' ∈ acc.2.1, RunBounded instance_data st'.plan)
          (BeamSearchSchedulerAdvanced.advStep instance_data validate_constraints table_cap
            jump_cap chOrder)
          beam ((best, [], ctr)) ⟨hbest, by intro st' hst'; cases hst'⟩
          (fun x a ha hx =>
            advStep_gated hU hvc table_cap jump_cap chOrder hbeam x a ha hx)
        split
        · exact hstep.1
        · exact ih _ _ _ (fun st' hm => hstep.2 st' (nlargest_mem hm)) hstep.1

theorem beam_search_core_gated {instance_data : InstanceData} (hU : UniqueIds instance_data)
    {cfg : BeamSearchSchedulerAdvanced.BSAConfig} (hvc : cfg.validate_constraints = true)
    (beam_width jump_cap : Int) (chOrder : Nat → List Nat) :
    RunBounded instance_data
      (BeamSearchSchedulerAdvanced.beam_search_core instance_data cfg beam_width jump_cap
        chOrder).2 := by
  unfold BeamSearchSchedulerAdvanced.beam_search_core
  dsimp only
  refine advBeamLoop_gated hU hvc cfg.jump_cap jump_cap beam_width chOrder _ _ _ _ ?_
    (runBounded_nil instance_data)
  intro st hst
  rw [List.mem_singleton] at hst
  subst hst
  exact runBounded_nil instance_data

theorem advanced_genre_bound {instance_data : InstanceData} (hU : UniqueIds instance_data)
    (beam_width jump_cap backtrack_window restarts : Int) (chOrders : Nat → Nat → List Nat) :
    RunBounded instance_data
      (BeamSearchSchedulerAdvanced.generate_solution instance_data
        (BeamSearchSchedulerAdvanced.mkAdvConfig beam_width true jump_cap backtrack_window
          restarts) chOrders).scheduled_programs := by
  unfold BeamSearchSchedulerAdvanced.generate_solution
  dsimp only
  exact foldl_invariant
    (fun acc : Option Int × List Schedule => RunBounded instance_data acc.2)
    (BeamSearchSchedulerAdvanced.advRestartStep instance_data
      (BeamSearchSchedulerAdvanced.mkAdvConfig beam_width true jump_cap backtrack_window
        restarts) chOrders)
    (List.range (BeamSearchSchedulerAdvanced.mkAdvConfig beam_width true jump_cap
      backtrack_window restarts).restarts.toNat)
    ((none : Option Int), ([] : List Schedule)) (runBounded_nil instance_data)
    (fun x i hx => by
      unfold BeamSearchSchedulerAdvanced.advRestartStep
      dsimp only
      have hcore := @beam_search_core_gated instance_data hU
        (BeamSearchSchedulerAdvanced.mkAdvConfig beam_width true jump_cap
          backtrack_window restarts) rfl
        (BeamSearchSchedulerAdvanced.adjust_beam_width
          (BeamSearchSchedulerAdvanced.mkAdvConfig beam_width true jump_cap backtrack_window
            restarts) x.1 (Int.ofNat i + 1))
        ((BeamSearchSchedulerAdvanced.mkAdvConfig beam_width true jump_cap backtrack_window
          restarts).jump_cap + (Int.ofNat i + 1) * 5) (chOrders i)
      split
      · exact hx
      · split
        · exact hcore
        · exact hx)

def c5bX : Program :=
  { program_id := "X", start := 0, stop := 3, genre := "h", score := 10, unique_id := "uX" }

def c5bY : Program :=
  { program_id := "Y", start := 3, stop := 6, genre := "g", score := 50, unique_id := "uY" }

def c5bW : Program :=
  { program_id := "W", start := 0, stop := 3, genre := "g", score := 30, unique_id := "uW" }

/-- Three channels: the validated beam prefers `X(h); Y(g)`, after which the
iterative driver's local-search replace substitutes the concurrent `W(g)` for
`X` — its validator call sees only the empty prefix, and
`_respects_genre_limit` permits a streak equal to `max_consecutive_genre`. -/
def c5binst : InstanceData :=
  { opening_time := 0, closing_time := 6, min_duration := 3, max_consecutive_genre := 2,
    channels_count := 3, switch_penalty := 0, termination_penalty := 0,
    priority_blocks := [], time_preferences := [],
    channels := [{ channel_id := 1, programs := [c5bY] },
                 { channel_id := 2, programs := [c5bX] },
                 { channel_id := 3, programs := [c5bW] }] }

def c5bcfg : BeyondDynamic.BDConfig :=
  BeyondDynamic.mkBDConfig 4 5 0 false 1 0 1 1 2

/-- Claim C5 (amended): for instances with distinct program unique ids, in
every schedule returned by `GreedyScheduler`, `GreedyLookahead`,
`BeamSearchScheduler` with constraint validation on, or
`BeamSearchSchedulerAdvanced` with constraint validation on (any restart
count and channel-order oracle), the longest run of consecutive same-genre
entries never exceeds `max(max_consecutive_genre - 1, 1)` — the first entry
of a run is always admitted even when `max_consecutive_genre ≤ 1`, so the
bound is `1`, not `max_consecutive_genre - 1`, in that degenerate case.  The
iterative `BeyondDynamic` driver does not keep this bound: its refinement
passes accept any candidate passing `_respects_genre_limit`, which permits
streaks up to `max_consecutive_genre` itself (see the counterexample). -/
theorem genre_run_bound :
    (∀ instance_data : InstanceData, UniqueIds instance_data →
      (maxGenreRun instance_data
        (GreedyScheduler.generate_solution instance_data).scheduled_programs : Int) ≤
        runBound instance_data) ∧
    (∀ instance_data : InstanceData, UniqueIds instance_data →
      (maxGenreRun instance_data
        (GreedyLookahead.generate_solution instance_data).scheduled_programs : Int) ≤
        runBound instance_data) ∧
    (∀ (instance_data : InstanceData) (beam_width jump_cap backtrack_window : Int),
      UniqueIds instance_data →
      (maxGenreRun instance_data
        (BeamSearchScheduler.generate_solution instance_data beam_width true jump_cap
          backtrack_window).scheduled_programs : Int) ≤ runBound instance_data) ∧
    (∀ (beam_width jump_cap backtrack_window restarts : Int)
        (instance_data : InstanceData) (chOrders : Nat → Nat → List Nat),
      UniqueIds instance_data →
      (maxGenreRun instance_data
        (BeamSearchSchedulerAdvanced.generate_solution instance_data
          (BeamSearchSchedulerAdvanced.mkAdvConfig beam_width true jump_cap backtrack_window
            restarts) chOrders).scheduled_programs : Int) ≤ runBound instance_data) := by
  refine ⟨?_, ?_, ?_, ?_⟩
  · intro instance_data hU
    exact greedyLoop_invariant instance_data
      (fun st => RunBounded instance_data st.solution)
      (fun st hst => by
        show RunBounded instance_data
          (GreedyScheduler.greedyBody instance_data st).solution
        have hst' : RunBounded instance_data st.solution := hst
        by_cases hch : (GreedyScheduler.greedyBody instance_data st).solution = st.solution
        · unfold RunBounded
          rw [hch]
          exact hst'
        · obtain ⟨i, prog, f, hlen, hvalid, hp, -, -, -, -, -, hsol, -, -⟩ :=
            greedyBody_commit instance_data st hch
          unfold RunBounded
          rw [hsol]
          exact gated_append_run_bound hU (is_channel_valid_genre hvalid) hp rfl hst')
      (instance_data.closing_time - instance_data.opening_time).toNat
      { time := instance_data.opening_time, total_score := 0, solution := [] }
      (runBounded_nil instance_data)
  · intro instance_data hU
    exact lookahead_genre_bound hU
  · intro instance_data beam_width jump_cap backtrack_window hU
    exact generate_Q instance_data
      (BeamSearchScheduler.mkConfig beam_width true jump_cap backtrack_window)
      (RunBounded instance_data)
      (runBounded_nil instance_data)
      (fun plan k hq => le_trans (by exact_mod_cast maxGenreRun_take instance_data plan k) hq)
      (expandState_gated hU rfl)
      (backtrackRound_gated hU)
  · intro beam_width jump_cap backtrack_window restarts instance_data chOrders hU
    exact advanced_genre_bound hU beam_width jump_cap backtrack_window restarts chOrders

/-- Counterexample to claim C5 as stated: (a) with `max_consecutive_genre = 1`
the greedy scheduler still returns one entry — a same-genre run of
`1 > 1 - 1`, because the validator's genre check skips an empty plan; (b) the
iterative `BeyondDynamic` driver returns a schedule whose same-genre run
reaches `max_consecutive_genre = 2`, exceeding even the amended bound
`max(max_consecutive_genre - 1, 1) = 1`: its local-search replace validates
the substitute only against the prefix before it and then accepts any
candidate that `_respects_genre_limit` — a check that allows a streak equal
to the limit — so the consecutive-genre bound does not hold for this
strategy. -/
theorem genre_run_cex :
    (maxGenreRun c1inst (GreedyScheduler.generate_solution c1inst).scheduled_programs = 1 ∧
     ¬ ((maxGenreRun c1inst
          (GreedyScheduler.generate_solution c1inst).scheduled_programs : Int) ≤
        c1inst.max_consecutive_genre - 1)) ∧
    (maxGenreRun c5binst
        (BeyondDynamic.generate_solution c5binst c5bcfg 1).scheduled_programs = 2 ∧
     ¬ ((maxGenreRun c5binst
          (BeyondDynamic.generate_solution c5binst c5bcfg 1).scheduled_programs : Int) ≤
        runBound c5binst)) := by
  refine ⟨⟨by decide, ?_⟩, by decide, by decide⟩
  intro hle
  have h1 : maxGenreRun c1inst
      (GreedyScheduler.generate_solution c1inst).scheduled_programs = 1 := by decide
  rw [h1] at hle
  have h2 : c1inst.max_consecutive_genre = 1 := by decide
  omega

/-- Witness for the amended C5 at a concrete input. -/
theorem genre_run_bound_witness :
    UniqueIds c6inst ∧
    (maxGenreRun c6inst
      (GreedyScheduler.generate_solution c6inst).scheduled_programs : Int) ≤
      runBound c6inst := by
  have hu : UniqueIds c6inst := by
    unfold UniqueIds
    decide
  exact ⟨hu, genre_run_bound.1 c6inst hu⟩
